import Mathlib

/-!
A verification development for the `ircstates` session-state tracker
(`src/ircstates/server.py`).  The Python code is shallowly embedded: the
`Server` object becomes a Lean structure, Python dicts become association
lists (insertion ordered, like CPython dicts), Python object identity is
modelled with numeric ids allocated from a counter, and a handler that can
raise is modelled as `Except Server Server`, where the `error` payload is
the state at the moment the exception is raised (so partial mutation
before a raise is observable).

Helper modules of the repository that are not present under `src/`
(`casemap.py`, `isupport.py`, `user.py`, `channel.py`, `channel_user.py`)
and the external `irctokens` boundary are modelled from the spec; each such
definition carries a doc comment starting `Modelled from the spec:`.
-/

/-! ## Association-list dictionaries (CPython dict semantics) -/

/-- Lookup of the first (hence, with unique keys, the only) binding of `k`. -/
def dlookup {α : Type} {β : Type} [DecidableEq α] (k : α) : List (α × β) → Option β
  | [] => none
  | (k', v) :: rest => if k' = k then some v else dlookup k rest

/-- Key membership test, `k in d` on a Python dict. -/
def dmem {α : Type} {β : Type} [DecidableEq α] (k : α) (d : List (α × β)) : Bool :=
  (dlookup k d).isSome

/-- `d[k] = v` on a Python dict: replace in place if the key exists
(keeping its position, as CPython does), else append at the end. -/
def dinsert {α : Type} {β : Type} [DecidableEq α] (k : α) (v : β) :
    List (α × β) → List (α × β)
  | [] => [(k, v)]
  | (k', v') :: rest => if k' = k then (k, v) :: rest else (k', v') :: dinsert k v rest

/-- `del d[k]` on a Python dict (the key is assumed present by callers
that model the raising behaviour separately): removes the first binding. -/
def derase {α : Type} {β : Type} [DecidableEq α] (k : α) :
    List (α × β) → List (α × β)
  | [] => []
  | (k', v') :: rest => if k' = k then rest else (k', v') :: derase k rest

/-- `d.update(d2)` on Python dicts: left fold of insertions. -/
def dupdate {α : Type} {β : Type} [DecidableEq α]
    (d : List (α × β)) (d2 : List (α × β)) : List (α × β) :=
  d2.foldl (fun acc p => dinsert p.1 p.2 acc) d

/-- The key list of a dictionary. -/
def dkeys {α : Type} {β : Type} (d : List (α × β)) : List α := d.map Prod.fst

/-- Boolean list membership (`x in l` on a Python list/set). -/
def bmem {α : Type} [DecidableEq α] (x : α) : List α → Bool
  | [] => false
  | y :: l => if y = x then true else bmem x l

/-- `l.remove(x)` on a Python list: drop the first occurrence
(callers guard presence with `bmem`). -/
def removeFirst {α : Type} [DecidableEq α] (x : α) : List α → List α
  | [] => []
  | y :: l => if y = x then l else y :: removeFirst x l

/-- `s.add(x)` on a Python set, modelled as an append-if-absent on a
duplicate-free list. -/
def sadd {α : Type} [DecidableEq α] (x : α) (l : List α) : List α :=
  if bmem x l then l else l ++ [x]

/-- `s.remove(x)` on a Python set: `none` models the `KeyError` raised
when the element is absent. -/
def sremove {α : Type} [DecidableEq α] (x : α) (l : List α) : Option (List α) :=
  if bmem x l then some (l.filter (fun y => y ≠ x)) else none

/-! ## Character-list string helpers (Python `str` methods used by the code) -/

/-- Split at the first occurrence of `sep`; `none` when `sep` is absent. -/
def splitAtFirst (sep : Char) : List Char → Option (List Char × List Char)
  | [] => none
  | c :: rest =>
    if c = sep then some ([], rest)
    else
      match splitAtFirst sep rest with
      | some (a, b) => some (c :: a, b)
      | none => none

/-- All fields of `l` split on `sep`, keeping empty fields
(`"a  b".split(" ") == ["a", "", "b"]`). -/
def splitSep (sep : Char) : List Char → List (List Char)
  | [] => [[]]
  | c :: rest =>
    let r := splitSep sep rest
    if c = sep then [] :: r
    else
      match r with
      | [] => [[c]]
      | f :: fs => (c :: f) :: fs

/-- `s.split(sep)` producing strings. -/
def splitStr (sep : Char) (s : String) : List String :=
  (splitSep sep s.data).map String.mk

/-- `s.partition(sep)` without the separator component:
`("key", "value")`, with `""` as second component when `sep` is absent. -/
def partitionAt (sep : Char) (s : String) : String × String :=
  match splitAtFirst sep s.data with
  | some (a, b) => (String.mk a, String.mk b)
  | none => (s, "")

/-- `s.rpartition(sep)` without the separator component: split at the last
occurrence; `("", s)` when `sep` is absent. -/
def rpartitionAt (sep : Char) (s : String) : String × String :=
  match splitAtFirst sep s.data.reverse with
  | some (a, b) => (String.mk b.reverse, String.mk a.reverse)
  | none => ("", s)

/-- `s.strip(c)` for a single strip character. -/
def stripChars (bad : Char) (s : String) : String :=
  String.mk (((s.data.dropWhile (fun c => c = bad)).reverse.dropWhile
    (fun c => c = bad)).reverse)

/-- `s.lstrip(c)` for a single strip character. -/
def lstripChar (bad : Char) (l : List Char) : List Char :=
  l.dropWhile (fun c => c = bad)

/-- ASCII uppercase of one character. -/
def upChar (c : Char) : Char :=
  if 'a' ≤ c ∧ c ≤ 'z' then Char.ofNat (c.toNat - 32) else c

/-- `s.upper()` (the CAP subcommand is plain ASCII). -/
def upStr (s : String) : String := String.mk (s.data.map upChar)

/-- The decimal value of an ASCII digit. -/
def digitVal (c : Char) : Option Nat :=
  if '0' ≤ c ∧ c ≤ '9' then some (c.toNat - 48) else none

/-- Accumulating decimal parse of a digit list. -/
def parseNatAux : List Char → Nat → Option Nat
  | [], acc => some acc
  | c :: rest, acc =>
    match digitVal c with
    | some d => parseNatAux rest (acc * 10 + d)
    | none => none

/-- Python `int(s)` on the plain decimal literals the protocol carries
(an optional sign followed by digits); `none` models the `ValueError`. -/
def parseIntStr (s : String) : Option Int :=
  match s.data with
  | [] => none
  | '-' :: rest =>
    match rest with
    | [] => none
    | _ => (parseNatAux rest 0).map (fun n => -(n : Int))
  | l => (parseNatAux l 0).map (fun n => (n : Int))

/-- `s.split(sep, 1)[1]`: the remainder after the first `sep`;
`none` models the `IndexError` when `sep` is absent. -/
def afterFirst (sep : Char) (s : String) : Option String :=
  (splitAtFirst sep s.data).map (fun p => String.mk p.2)

/-- Python string truthiness of an optional string
(`if line.hostmask.username:`). -/
def optTruthy : Option String → Bool
  | some x => x ≠ ""
  | none => false

/-! ## Casemap -/

/-- Modelled from the spec: the three server-selectable casemappings
(`casemap.py` is not under `src/`). -/
inductive Casemap
  | rfc1459
  | rfc1459Strict
  | ascii
deriving DecidableEq

/-- ASCII lowercase of one character. -/
def asciiLower (c : Char) : Char :=
  if 'A' ≤ c ∧ c ≤ 'Z' then Char.ofNat (c.toNat + 32) else c

/-- Modelled from the spec: per-character folding; `rfc1459` additionally
maps the brace, bar and caret characters, `rfc1459-strict` omits the
caret mapping. -/
def Casemap.foldChar : Casemap → Char → Char
  | .ascii, c => asciiLower c
  | .rfc1459, c =>
    if c = '{' then '['
    else if c = '}' then ']'
    else if c = '|' then '\\'
    else if c = '^' then '~'
    else asciiLower c
  | .rfc1459Strict, c =>
    if c = '{' then '['
    else if c = '}' then ']'
    else if c = '|' then '\\'
    else asciiLower c

/-- Modelled from the spec: `casefold(mapping, s)`. -/
def Casemap.fold (m : Casemap) (s : String) : String :=
  String.mk (s.data.map m.foldChar)

/-! ## ISupport -/

/-- Modelled from the spec: the `PREFIX=(modes)sigils` parallel strings. -/
structure Pfx where
  modes : List Char
  sigils : List Char
deriving DecidableEq

/-- Walk the two parallel lists to decode a sigil into a mode char. -/
def sigilToMode : List Char → List Char → Char → Option Char
  | m :: ms, g :: gs, c => if g = c then some m else sigilToMode ms gs c
  | _, _, _ => none

/-- Modelled from the spec: `prefix.from_prefix(char)`, sigil to mode. -/
def Pfx.fromSigil (p : Pfx) (c : Char) : Option Char :=
  sigilToMode p.modes p.sigils c

/-- Modelled from the spec: the first three `CHANMODES` classes (class D
needs no storage: it is the catch-all). -/
structure ChanModes where
  list_modes : List Char
  setting_b_modes : List Char
  setting_c_modes : List Char
deriving DecidableEq

/-- Modelled from the spec: the accumulated ISUPPORT view with its
defaults (`CHANTYPES` defaults to `#&`, `PREFIX` to `(ov)@+`, casemapping
to `rfc1459`; the spec fixes no `CHANMODES` default, so the classes start
empty). -/
structure ISupport where
  casemapping : Casemap := .rfc1459
  chantypes : List Char := ['#', '&']
  statusmsg : List Char := []
  pfx : Pfx := { modes := ['o', 'v'], sigils := ['@', '+'] }
  chanmodes : ChanModes :=
    { list_modes := [], setting_b_modes := [], setting_c_modes := [] }
deriving DecidableEq

/-- Modelled from the spec: consume one `005` token, ignoring unknown
keys; a later token for the same key wins. -/
def ISupport.applyToken (i : ISupport) (tok : String) : ISupport :=
  let kv := partitionAt '=' tok
  let value := kv.2
  if kv.1 = "CASEMAPPING" then
    if value = "ascii" then { i with casemapping := .ascii }
    else if value = "rfc1459-strict" then { i with casemapping := .rfc1459Strict }
    else if value = "rfc1459" then { i with casemapping := .rfc1459 }
    else i
  else if kv.1 = "CHANTYPES" then { i with chantypes := value.data }
  else if kv.1 = "STATUSMSG" then { i with statusmsg := value.data }
  else if kv.1 = "PREFIX" then
    match value.data with
    | '(' :: rest =>
      match splitAtFirst ')' rest with
      | some (ms, gs) => { i with pfx := { modes := ms, sigils := gs } }
      | none => i
    | _ => i
  else if kv.1 = "CHANMODES" then
    let gs := splitSep ',' value.data
    { i with chanmodes :=
      { list_modes := gs.getD 0 []
        setting_b_modes := gs.getD 1 []
        setting_c_modes := gs.getD 2 [] } }
  else i

/-- Modelled from the spec: `isupport.tokens(...)` folds tokens in order. -/
def ISupport.tokens (i : ISupport) (toks : List String) : ISupport :=
  toks.foldl ISupport.applyToken i

/-! ## Tokenizer boundary (`irctokens`) -/

/-- Modelled from the spec: the `nick!user@host` decomposition offered by
the external tokenizer. -/
structure Hostmask where
  nickname : String
  username : Option String := none
  hostname : Option String := none
deriving DecidableEq

/-- Modelled from the spec: `Hostmask.from_source`, splitting at the first
`!` and then the first `@`. -/
def Hostmask.from_source (s : String) : Hostmask :=
  match splitAtFirst '!' s.data with
  | some (nick, rest) =>
    match splitAtFirst '@' rest with
    | some (user, host) =>
      { nickname := String.mk nick, username := some (String.mk user),
        hostname := some (String.mk host) }
    | none =>
      { nickname := String.mk nick, username := some (String.mk rest) }
  | none =>
    match splitAtFirst '@' s.data with
    | some (nick, host) =>
      { nickname := String.mk nick, hostname := some (String.mk host) }
    | none => { nickname := s }

/-- Modelled from the spec: the string rendering `str(line.hostmask)`. -/
def Hostmask.render (h : Hostmask) : String :=
  h.nickname
    ++ (match h.username with | some u => "!" ++ u | none => "")
    ++ (match h.hostname with | some x => "@" ++ x | none => "")

/-- Modelled from the spec: a tokenized line: command word, ordered
parameters, and the prefix source (every server line carries one). -/
structure Line where
  command : String
  params : List String
  source : Hostmask
deriving DecidableEq

/-! ## Entities -/

/-- Modelled from the spec: the `User` entity (`user.py` is not under
`src/`); `set_nickname` updates display and folded forms. -/
structure User where
  nickname : String
  nickname_lower : String
  username : Option String := none
  hostname : Option String := none
  realname : Option String := none
  account : Option String := none
  away : Option String := none
deriving DecidableEq

/-- Modelled from the spec: the per-membership record (`channel_user.py`
is not under `src/`): a freshly constructed `ChannelUser` starts with an
empty ordered prefix-mode list. -/
structure ChannelUser where
  modes : List Char := []
deriving DecidableEq

/-- Modelled from the spec: the `Channel` entity (`channel.py` is not
under `src/`): a map of simple flag/param modes and a map of list-valued
modes; `topic_time`/`created` hold unix timestamps (an `Int`). -/
structure Channel where
  name : String
  topic : Option String := none
  topic_setter : Option String := none
  topic_time : Option Int := none
  created : Option Int := none
  modes : List (Char × Option String) := []
  list_modes : List (Char × List String) := []
deriving DecidableEq

/-- Modelled from the spec: `add_mode(char, param, list)` appends to the
list for `char` when `list` is true, else stores the `char -> param`
association. -/
def Channel.add_mode (c : Channel) (ch : Char) (param : Option String)
    (isList : Bool) : Channel :=
  if isList then
    { c with list_modes :=
      dinsert ch (((dlookup ch c.list_modes).getD []) ++ [param.getD ""]) c.list_modes }
  else
    { c with modes := dinsert ch param c.modes }

/-- Modelled from the spec: `remove_mode(char, param)` removes that entry
from the list when a param is given, and clears the flag otherwise. -/
def Channel.remove_mode (c : Channel) (ch : Char) (param : Option String) : Channel :=
  match param with
  | some p =>
    match dlookup ch c.list_modes with
    | some l => { c with list_modes := dinsert ch (removeFirst p l) c.list_modes }
    | none => c
  | none => { c with modes := derase ch c.modes }

/-! ## The session state

Python objects are interned in two heaps (`user_data`, `channel_data`)
keyed by ids from the `next_id` counter, so object identity and in-place
mutation are modelled faithfully.  `users`/`channels` map folded names to
ids; `user_channels` maps a user id to its set of channel ids;
`channel_users` maps a channel id to its roster (user id to
`ChannelUser`).  Per the spec, `nickname`/`nickname_lower` are empty until
`001`. -/

structure Server where
  name : String := "test"
  nickname : String := ""
  nickname_lower : String := ""
  username : Option String := none
  hostname : Option String := none
  realname : Option String := none
  account : Option String := none
  away : Option String := none
  modes : List Char := []
  motd : List String := []
  users : List (String × Nat) := []
  channels : List (String × Nat) := []
  user_channels : List (Nat × List Nat) := []
  channel_users : List (Nat × List (Nat × ChannelUser)) := []
  user_data : List (Nat × User) := []
  channel_data : List (Nat × Channel) := []
  isupport : ISupport := {}
  temp_caps : List (String × Option String) := []
  caps : Option (List (String × Option String)) := none
  agreed_caps : List String := []
  next_id : Nat := 0
deriving DecidableEq

/-- The fresh session, `Server(name)`. -/
def initServer : Server := {}

/-- `self.casefold(s)`. -/
def Server.casefold (s : Server) (x : String) : String :=
  Casemap.fold s.isupport.casemapping x

/-- Dereference a user id in the heap (a Python object reference can never
dangle; the default is irrelevant on reachable states). -/
def Server.userD (s : Server) (uid : Nat) : User :=
  (dlookup uid s.user_data).getD { nickname := "", nickname_lower := "" }

/-- Dereference a channel id in the heap. -/
def Server.chanD (s : Server) (cid : Nat) : Channel :=
  (dlookup cid s.channel_data).getD { name := "" }

/-- Mutate the user object behind `uid` in place. -/
def Server.updUser (s : Server) (uid : Nat) (f : User → User) : Server :=
  { s with user_data := dinsert uid (f (s.userD uid)) s.user_data }

/-- Mutate the channel object behind `cid` in place. -/
def Server.updChan (s : Server) (cid : Nat) (f : Channel → Channel) : Server :=
  { s with channel_data := dinsert cid (f (s.chanD cid)) s.channel_data }

/-- `Server.add_user`: construct a fresh `User` object and key it under
the folded nickname. -/
def Server.add_user (s : Server) (nick nickLower : String) : Server :=
  let uid := s.next_id
  { s with
    next_id := uid + 1
    user_data := dinsert uid { nickname := nick, nickname_lower := nickLower } s.user_data
    users := dinsert nickLower uid s.users }

/-- Channel creation on a self JOIN: allocate a fresh id, intern the
`Channel` object, and create its empty roster. -/
def Server.createChannel (s : Server) (cl nm : String) : Server :=
  let cid := s.next_id
  { s with
    next_id := cid + 1
    channels := dinsert cl cid s.channels
    channel_data := dinsert cid { name := nm } s.channel_data
    channel_users := dinsert cid [] s.channel_users }

/-- The `if nickname_lower not in users: add_user(...)` pattern shared by
JOIN and 353. -/
def Server.ensureUser (s : Server) (nick nickLower : String) : Server :=
  if dmem nickLower s.users then s else s.add_user nick nickLower

/-- `Server.user_join`: ensure a `user_channels` set, add the channel to
it, then overwrite the roster entry with a brand-new `ChannelUser`.  The
`error` branch is the `KeyError` raised by
`self.channel_users[channel][user] = ...` when the channel has no roster
dict; note the `user_channels` update has already happened then, exactly
as in the source. -/
def Server.user_join (s : Server) (cid uid : Nat) : Except Server Server :=
  let s1 :=
    if dmem uid s.user_channels then s
    else { s with user_channels := dinsert uid [] s.user_channels }
  let s2 := { s1 with user_channels := (
    dinsert uid (sadd cid ((dlookup uid s1.user_channels).getD [])) s1.user_channels) }
  match dlookup cid s2.channel_users with
  | some roster =>
    .ok { s2 with channel_users := dinsert cid (dinsert uid {} roster) s2.channel_users }
  | none => .error s2

/-- `Server._self_quit`: clear the four maps. -/
def Server.selfQuit (s : Server) : Server :=
  { s with users := [], channels := [], user_channels := [], channel_users := [] }

/-! ## Handlers -/

/-- `handle_001`: record the local identity. -/
def handle_001 (s : Server) (l : Line) : Except Server Server :=
  match l.params.get? 0 with
  | none => .error s
  | some p0 => .ok { s with nickname := p0, nickname_lower := s.casefold p0 }

/-- `handle_ISUPPORT` (005): feed `params[1:-1]` into ISupport. -/
def handle_005 (s : Server) (l : Line) : Except Server Server :=
  .ok { s with isupport := s.isupport.tokens (l.params.drop 1).dropLast }

/-- `handle_375`: clear the MOTD buffer. -/
def handle_375 (s : Server) (_l : Line) : Except Server Server :=
  .ok { s with motd := [] }

/-- `handle_372`: append `params[1]` to the MOTD buffer (registered for
both `372` and `375`). -/
def handle_372 (s : Server) (l : Line) : Except Server Server :=
  match l.params.get? 1 with
  | none => .error s
  | some t => .ok { s with motd := s.motd ++ [t] }

/-- `handle_NICK`: rekey the user under the folded new nickname, then
update the local identity when the source is self. -/
def handle_NICK (s : Server) (l : Line) : Except Server Server :=
  match l.params.get? 0 with
  | none => .error s
  | some newNick =>
    let nickname_lower := s.casefold l.source.nickname
    let s1 :=
      match dlookup nickname_lower s.users with
      | some uid =>
        let sA := { s with users := derase nickname_lower s.users }
        let newLower := sA.casefold newNick
        let sB := sA.updUser uid
          (fun u => { u with nickname := newNick, nickname_lower := newLower })
        { sB with users := dinsert newLower uid sB.users }
      | none => s
    if nickname_lower = s1.nickname_lower then
      .ok { s1 with nickname := newNick, nickname_lower := s1.casefold newNick }
    else .ok s1

/-- The identity fields a self JOIN teaches: username/hostname from the
hostmask, account/realname from an extended join. -/
def joinSelfLearn (s : Server) (l : Line) (extended : Bool)
    (account realname : Option String) : Server :=
  let sB := if optTruthy l.source.username then { s with username := l.source.username } else s
  let sC := if optTruthy l.source.hostname then { sB with hostname := l.source.hostname } else sB
  if extended then { sC with account := account, realname := realname } else sC

/-- `handle_JOIN`: optionally create the channel (self source only), learn
identity fields, and add the membership. -/
def handle_JOIN (s : Server) (l : Line) : Except Server Server :=
  match l.params.get? 0 with
  | none => .error s
  | some p0 =>
    let extended := l.params.length = 3
    let account := if extended then some (stripChars '*' (l.params.getD 1 "")) else none
    let realname := if extended then l.params.get? 2 else none
    let channel_lower := s.casefold p0
    let nickname_lower := s.casefold l.source.nickname
    let s1 :=
      if nickname_lower = s.nickname_lower then
        joinSelfLearn (if dmem channel_lower s.channels then s
                       else s.createChannel channel_lower p0)
          l extended account realname
      else s
    match dlookup channel_lower s1.channels with
    | none => .ok s1
    | some cid =>
      let s2 := s1.ensureUser l.source.nickname nickname_lower
      match dlookup nickname_lower s2.users with
      | none => .ok s2
      | some uid =>
        let s3 := s2.updUser uid (fun u =>
          let u1 := if optTruthy l.source.username then { u with username := l.source.username } else u
          let u2 := if optTruthy l.source.hostname then { u1 with hostname := l.source.hostname } else u1
          if extended then { u2 with account := account, realname := realname } else u2)
        s3.user_join cid uid

/-- The member loop of the self branch of `_handle_part`: for each former
member remove the channel from their set; if the set empties, delete
their `user_channels` entry and their `users` entry (keyed by the current
fold of their display nickname). -/
def partLoop (s : Server) (cid : Nat) : List (Nat × ChannelUser) → Except Server Server
  | [] => .ok s
  | (uid, _) :: rest =>
    match dlookup uid s.user_channels with
    | none => .error s
    | some cs =>
      match sremove cid cs with
      | none => .error s
      | some cs' =>
        let s1 := { s with user_channels := dinsert uid cs' s.user_channels }
        if cs' = [] then
          let s2 := { s1 with user_channels := derase uid s1.user_channels }
          let k := s2.casefold (s2.userD uid).nickname
          if dmem k s2.users then
            partLoop { s2 with users := derase k s2.users } cid rest
          else .error s2
        else partLoop s1 cid rest

/-- `Server._handle_part`, shared by PART and KICK. -/
def part_routine (s : Server) (nickname channel_name : String) :
    Except Server Server :=
  let channel_lower := s.casefold channel_name
  match dlookup channel_lower s.channels with
  | none => .ok s
  | some cid =>
    if s.casefold nickname = s.casefold s.nickname then
      let s1 := { s with channels := derase channel_lower s.channels }
      match dlookup cid s1.channel_users with
      | none => .error s1
      | some roster =>
        let s2 := { s1 with channel_users := derase cid s1.channel_users }
        partLoop s2 cid roster
    else
      let nickname_lower := s.casefold nickname
      match dlookup nickname_lower s.users with
      | none => .ok s
      | some uid =>
        match dlookup uid s.user_channels with
        | none => .error s
        | some cs =>
          match sremove cid cs with
          | none => .error s
          | some cs' =>
            let s1 := { s with user_channels := dinsert uid cs' s.user_channels }
            let s2 :=
              if cs' = [] then
                { s1 with users := derase nickname_lower s1.users,
                          user_channels := derase uid s1.user_channels }
              else s1
            match dlookup cid s2.channel_users with
            | none => .error s2
            | some roster =>
              if dmem uid roster then
                .ok { s2 with channel_users := (
                  dinsert cid (derase uid roster) s2.channel_users) }
              else .error s2

/-- `handle_PART`: departing nick is the source, channel is `params[0]`. -/
def handle_PART (s : Server) (l : Line) : Except Server Server :=
  match l.params.get? 0 with
  | none => .error s
  | some p0 => part_routine s l.source.nickname p0

/-- `handle_KICK`: departing nick is `params[1]`, channel is `params[0]`. -/
def handle_KICK (s : Server) (l : Line) : Except Server Server :=
  match l.params.get? 1 with
  | none => .error s
  | some p1 =>
    match l.params.get? 0 with
    | none => .error s
    | some p0 => part_routine s p1 p0

/-- The roster-cleanup loop of a non-self QUIT: delete the user from the
roster of every channel in their set. -/
def quitLoop (s : Server) (uid : Nat) : List Nat → Except Server Server
  | [] => .ok { s with user_channels := derase uid s.user_channels }
  | cid :: rest =>
    match dlookup cid s.channel_users with
    | none => .error s
    | some roster =>
      if dmem uid roster then
        quitLoop { s with channel_users := (
          dinsert cid (derase uid roster) s.channel_users) } uid rest
      else .error s

/-- `handle_quit`: self source clears everything; otherwise pop the user
from `users` and scrub the indices. -/
def handle_QUIT (s : Server) (l : Line) : Except Server Server :=
  let nickname_lower := s.casefold l.source.nickname
  if nickname_lower = s.nickname_lower then
    .ok s.selfQuit
  else
    match dlookup nickname_lower s.users with
    | none => .ok s
    | some uid =>
      let s1 := { s with users := derase nickname_lower s.users }
      match dlookup uid s1.user_channels with
      | none => .error s1
      | some cs => quitLoop s1 uid cs

/-- `handle_ERROR`: treated as session end. -/
def handle_ERROR (s : Server) (_l : Line) : Except Server Server :=
  .ok s.selfQuit

/-- Peel the leading sigils of a `353` entry into their mode chars. -/
def sigilModes (p : Pfx) : List Char → List Char
  | [] => []
  | c :: rest =>
    match p.fromSigil c with
    | some m => m :: sigilModes p rest
    | none => []

/-- Union the discovered sigil modes into the membership's ordered mode
list, first-seen order, no duplicates. -/
def addMembModes (s : Server) (cid uid : Nat) (ms : List Char) : Server :=
  match dlookup cid s.channel_users with
  | none => s
  | some roster =>
    match dlookup uid roster with
    | none => s
    | some cu =>
      let cu' := ms.foldl
        (fun c m => if bmem m c.modes then c else { c with modes := c.modes ++ [m] }) cu
      { s with channel_users := dinsert cid (dinsert uid cu' roster) s.channel_users }

/-- One entry of `handle_353`: decode sigils, synthesize the user, join,
learn hostmask fields, union the modes. -/
def namesEntry (s : Server) (cid : Nat) (entry : String) : Except Server Server :=
  let ms := sigilModes s.isupport.pfx entry.data
  let hm := Hostmask.from_source (String.mk (entry.data.drop ms.length))
  let nickname_lower := s.casefold hm.nickname
  let s1 := s.ensureUser hm.nickname nickname_lower
  match dlookup nickname_lower s1.users with
  | none => .error s1
  | some uid =>
    match s1.user_join cid uid with
    | .error e => .error e
    | .ok s2 =>
      let s3 :=
        if optTruthy hm.username then
          let sA := s2.updUser uid (fun u => { u with username := hm.username })
          if nickname_lower = sA.nickname_lower then { sA with username := hm.username } else sA
        else s2
      let s4 :=
        if optTruthy hm.hostname then
          let sA := s3.updUser uid (fun u => { u with hostname := hm.hostname })
          if nickname_lower = sA.nickname_lower then { sA with hostname := hm.hostname } else sA
        else s3
      .ok (addMembModes s4 cid uid ms)

/-- The per-entry loop of `handle_353`. -/
def namesLoop (s : Server) (cid : Nat) : List String → Except Server Server
  | [] => .ok s
  | entry :: rest =>
    match namesEntry s cid entry with
    | .error e => .error e
    | .ok s' => namesLoop s' cid rest

/-- `handle_353` (NAMES reply). -/
def handle_353 (s : Server) (l : Line) : Except Server Server :=
  match l.params.get? 2 with
  | none => .error s
  | some p2 =>
    let channel_lower := s.casefold p2
    match dlookup channel_lower s.channels with
    | none => .ok s
    | some cid =>
      match l.params.get? 3 with
      | none => .error s
      | some p3 =>
        namesLoop s cid ((splitStr ' ' p3).filter (fun n => n ≠ ""))

/-- `handle_329`: channel creation time. -/
def handle_329 (s : Server) (l : Line) : Except Server Server :=
  match l.params.get? 1 with
  | none => .error s
  | some p1 =>
    let channel_lower := s.casefold p1
    match dlookup channel_lower s.channels with
    | none => .ok s
    | some cid =>
      match l.params.get? 2 with
      | none => .error s
      | some p2 =>
        match parseIntStr p2 with
        | none => .error s
        | some n => .ok (s.updChan cid (fun c => { c with created := some n }))

/-- `handle_TOPIC`; `datetime.utcnow()` is modelled as the constant
timestamp `0` (no claim concerns wall-clock time). -/
def handle_TOPIC (s : Server) (l : Line) : Except Server Server :=
  match l.params.get? 0 with
  | none => .error s
  | some p0 =>
    let channel_lower := s.casefold p0
    match dlookup channel_lower s.channels with
    | none => .ok s
    | some cid =>
      match l.params.get? 1 with
      | none => .error s
      | some p1 =>
        .ok (s.updChan cid (fun c =>
          { c with topic := some p1, topic_setter := some l.source.render,
                   topic_time := some 0 }))

/-- `handle_332`: topic text reply. -/
def handle_332 (s : Server) (l : Line) : Except Server Server :=
  match l.params.get? 1 with
  | none => .error s
  | some p1 =>
    let channel_lower := s.casefold p1
    match dlookup channel_lower s.channels with
    | none => .ok s
    | some cid =>
      match l.params.get? 2 with
      | none => .error s
      | some p2 => .ok (s.updChan cid (fun c => { c with topic := some p2 }))

/-- `handle_333`: topic set-by reply.  The source assigns `topic_setter`
before parsing the timestamp, so a raise there leaves the setter already
mutated — the error payloads record that. -/
def handle_333 (s : Server) (l : Line) : Except Server Server :=
  match l.params.get? 1 with
  | none => .error s
  | some p1 =>
    let channel_lower := s.casefold p1
    match dlookup channel_lower s.channels with
    | none => .ok s
    | some cid =>
      match l.params.get? 2 with
      | none => .error s
      | some p2 =>
        let s1 := s.updChan cid (fun c => { c with topic_setter := some p2 })
        match l.params.get? 3 with
        | none => .error s1
        | some p3 =>
          match parseIntStr p3 with
          | none => .error s1
          | some n => .ok (s1.updChan cid (fun c => { c with topic_time := some n }))

/-- `Server._channel_modes`: fold the `(add, char)` pairs over the state,
consuming parameters from the front of the queue; the returned list is
the unconsumed remainder.  `error` is the `IndexError` from
`params.pop(0)` on an empty queue or the `KeyError` from a roster lookup,
with the state accumulated so far (partial application is observable). -/
def channelModes (s : Server) (cid : Nat) :
    List (Bool × Char) → List String → Except Server (Server × List String)
  | [], ps => .ok (s, ps)
  | (add, ch) :: rest, ps =>
    let isup := s.isupport
    let list_mode := bmem ch isup.chanmodes.list_modes
    if bmem ch isup.pfx.modes then
      match ps with
      | [] => .error s
      | p :: ps' =>
        let nickname_lower := s.casefold p
        match dlookup nickname_lower s.users with
        | none => channelModes s cid rest ps'
        | some uid =>
          match dlookup cid s.channel_users with
          | none => .error s
          | some roster =>
            match dlookup uid roster with
            | none => .error s
            | some cu =>
              let cu' :=
                if add then
                  if bmem ch cu.modes then cu else { cu with modes := cu.modes ++ [ch] }
                else
                  if bmem ch cu.modes then { cu with modes := removeFirst ch cu.modes } else cu
              channelModes
                { s with channel_users := dinsert cid (dinsert uid cu' roster) s.channel_users }
                cid rest ps'
    else if add && (list_mode || bmem ch isup.chanmodes.setting_b_modes
        || bmem ch isup.chanmodes.setting_c_modes) then
      match ps with
      | [] => .error s
      | p :: ps' =>
        channelModes (s.updChan cid (fun c => c.add_mode ch (some p) list_mode)) cid rest ps'
    else if !add && (list_mode || bmem ch isup.chanmodes.setting_b_modes) then
      match ps with
      | [] => .error s
      | p :: ps' =>
        channelModes (s.updChan cid (fun c => c.remove_mode ch (some p))) cid rest ps'
    else if add then
      channelModes (s.updChan cid (fun c => c.add_mode ch none false)) cid rest ps
    else
      channelModes (s.updChan cid (fun c => c.remove_mode ch none)) cid rest ps

/-- Parse a MODE string into `(add, char)` pairs; the initial modifier
is `+`. -/
def parseModeChars : Bool → List Char → List (Bool × Char)
  | _, [] => []
  | _, '+' :: rest => parseModeChars true rest
  | _, '-' :: rest => parseModeChars false rest
  | add, c :: rest => (add, c) :: parseModeChars add rest

/-- Apply `(add, char)` pairs to the local user-mode list. -/
def applyUserModes (ms : List Char) : List (Bool × Char) → List Char
  | [] => ms
  | (add, ch) :: rest =>
    if add then
      applyUserModes (if bmem ch ms then ms else ms ++ [ch]) rest
    else
      applyUserModes (if bmem ch ms then removeFirst ch ms else ms) rest

/-- `handle_MODE`: self target mutates the user-mode set; a known channel
target runs the channel-mode routine. -/
def handle_MODE (s : Server) (l : Line) : Except Server Server :=
  match l.params.get? 0 with
  | none => .error s
  | some target =>
    match l.params.get? 1 with
    | none => .error s
    | some modes_str =>
      let ps := l.params.drop 2
      let modes := parseModeChars true modes_str.data
      let target_lower := s.casefold target
      if target_lower = s.nickname_lower then
        .ok { s with modes := applyUserModes s.modes modes }
      else
        match dlookup target_lower s.channels with
        | none => .ok s
        | some cid =>
          match channelModes s cid modes ps with
          | .ok r => .ok r.1
          | .error e => .error e

/-- `handle_324`: `+`-stripped letters of `params[2]` with `params[3:]`
fed into the channel-mode routine as all-adds. -/
def handle_324 (s : Server) (l : Line) : Except Server Server :=
  match l.params.get? 1 with
  | none => .error s
  | some p1 =>
    let channel_lower := s.casefold p1
    match dlookup channel_lower s.channels with
    | none => .ok s
    | some cid =>
      match l.params.get? 2 with
      | none => .error s
      | some p2 =>
        let modes := (lstripChar '+' p2.data).map (fun c => (true, c))
        match channelModes s cid modes (l.params.drop 3) with
        | .ok r => .ok r.1
        | .error e => .error e

/-- `handle_211`: union the stripped chars of `params[1]` into the local
user modes. -/
def handle_211 (s : Server) (l : Line) : Except Server Server :=
  match l.params.get? 1 with
  | none => .error s
  | some p1 =>
    .ok { s with modes := ((lstripChar '+' p1.data).foldl
      (fun ms c => if bmem c ms then ms else ms ++ [c]) s.modes) }

/-- `handle_PRIVMSG` (also NOTICE and TAGMSG): learn identity fields from
the source; an unknown source is synthesized transiently and never added
to `users`.  The target is read (`line.params[0]`) after those mutations,
so a zero-parameter line raises with the fields already updated. -/
def handle_PRIVMSG (s : Server) (l : Line) : Except Server Server :=
  let nickname_lower := s.casefold l.source.nickname
  let s1 :=
    if nickname_lower = s.nickname_lower then
      let sA := if optTruthy l.source.username then { s with username := l.source.username } else s
      if optTruthy l.source.hostname then { sA with hostname := l.source.hostname } else sA
    else s
  let s2 :=
    match dlookup nickname_lower s1.users with
    | some uid =>
      s1.updUser uid (fun u =>
        let u1 := if optTruthy l.source.username then { u with username := l.source.username } else u
        if optTruthy l.source.hostname then { u1 with hostname := l.source.hostname } else u1)
    | none => s1
  match l.params.get? 0 with
  | none => .error s2
  | some _ => .ok s2

/-- `handle_396`: `params[1]` is `[user@]host`. -/
def handle_396 (s : Server) (l : Line) : Except Server Server :=
  match l.params.get? 1 with
  | none => .error s
  | some p1 =>
    let uh := rpartitionAt '@' p1
    let s1 := { s with hostname := some uh.2 }
    .ok (if uh.1 ≠ "" then { s1 with username := some uh.1 } else s1)

/-- `handle_352` (WHO reply): all parameter reads precede any mutation. -/
def handle_352 (s : Server) (l : Line) : Except Server Server :=
  match l.params.get? 1 with
  | none => .error s
  | some _ =>
    match l.params.get? 5 with
    | none => .error s
    | some nickname =>
      match l.params.get? 2 with
      | none => .error s
      | some username =>
        match l.params.get? 3 with
        | none => .error s
        | some hostname =>
          match l.params.get? 7 with
          | none => .error s
          | some p7 =>
            match afterFirst ' ' p7 with
            | none => .error s
            | some realname =>
              let nickname_lower := s.casefold nickname
              let s1 :=
                if nickname_lower = s.nickname_lower then
                  { s with username := some username, hostname := some hostname,
                           realname := some realname }
                else s
              match dlookup nickname_lower s1.users with
              | some uid =>
                .ok (s1.updUser uid (fun u =>
                  { u with username := some username, hostname := some hostname,
                           realname := some realname }))
              | none => .ok s1

/-- `handle_311` (WHOIS user line). -/
def handle_311 (s : Server) (l : Line) : Except Server Server :=
  match l.params.get? 1 with
  | none => .error s
  | some nickname =>
    match l.params.get? 2 with
    | none => .error s
    | some username =>
      match l.params.get? 3 with
      | none => .error s
      | some hostname =>
        match l.params.get? 5 with
        | none => .error s
        | some realname =>
          let nickname_lower := s.casefold nickname
          let s1 :=
            if nickname_lower = s.nickname_lower then
              { s with username := some username, hostname := some hostname,
                       realname := some realname }
            else s
          match dlookup nickname_lower s1.users with
          | some uid =>
            .ok (s1.updUser uid (fun u =>
              { u with username := some username, hostname := some hostname,
                       realname := some realname }))
          | none => .ok s1

/-- `handle_CHGHOST`. -/
def handle_CHGHOST (s : Server) (l : Line) : Except Server Server :=
  match l.params.get? 0 with
  | none => .error s
  | some username =>
    match l.params.get? 1 with
    | none => .error s
    | some hostname =>
      let nickname_lower := s.casefold l.source.nickname
      let s1 :=
        if nickname_lower = s.nickname_lower then
          { s with username := some username, hostname := some hostname }
        else s
      match dlookup nickname_lower s1.users with
      | some uid =>
        .ok (s1.updUser uid (fun u =>
          { u with username := some username, hostname := some hostname }))
      | none => .ok s1

/-- `handle_SETNAME`. -/
def handle_SETNAME (s : Server) (l : Line) : Except Server Server :=
  match l.params.get? 0 with
  | none => .error s
  | some realname =>
    let nickname_lower := s.casefold l.source.nickname
    let s1 :=
      if nickname_lower = s.nickname_lower then { s with realname := some realname } else s
    match dlookup nickname_lower s1.users with
    | some uid => .ok (s1.updUser uid (fun u => { u with realname := some realname }))
    | none => .ok s1

/-- `handle_AWAY`: an absent parameter clears the away message. -/
def handle_AWAY (s : Server) (l : Line) : Except Server Server :=
  let away := l.params.get? 0
  let nickname_lower := s.casefold l.source.nickname
  let s1 :=
    if nickname_lower = s.nickname_lower then { s with away := away } else s
  match dlookup nickname_lower s1.users with
  | some uid => .ok (s1.updUser uid (fun u => { u with away := away }))
  | none => .ok s1

/-- `handle_ACCOUNT`: the surrounding `*` characters are stripped. -/
def handle_ACCOUNT (s : Server) (l : Line) : Except Server Server :=
  match l.params.get? 0 with
  | none => .error s
  | some p0 =>
    let account := stripChars '*' p0
    let nickname_lower := s.casefold l.source.nickname
    let s1 :=
      if nickname_lower = s.nickname_lower then { s with account := some account } else s
    match dlookup nickname_lower s1.users with
    | some uid => .ok (s1.updUser uid (fun u => { u with account := some account }))
    | none => .ok s1

/-- Parse a CAP token list: `key[=value]` pairs, an empty right-hand side
stored as absent. -/
def parseCapTokens (capsStr : String) : List (String × Option String) :=
  ((splitStr ' ' capsStr).filter (fun c => c ≠ "")).foldl
    (fun acc cap =>
      let kv := partitionAt '=' cap
      dinsert kv.1 (if kv.2 = "" then none else some kv.2) acc) []

/-- The CAP DEL loop over the token keys. -/
def capDelLoop (caps : List (String × Option String)) (agreed : List String) :
    List String → List (String × Option String) × List String
  | [] => (caps, agreed)
  | k :: rest =>
    if dmem k caps then
      capDelLoop (derase k caps)
        (if bmem k agreed then removeFirst k agreed else agreed) rest
    else capDelLoop caps agreed rest

/-- The CAP ACK loop over the token keys; note the Python truthiness of
`self.caps` (an empty dict refuses new acknowledgements). -/
def capAckLoop (caps : Option (List (String × Option String))) (agreed : List String) :
    List String → List String
  | [] => agreed
  | k :: rest =>
    if k.data.head? = some '-' then
      let k' := String.mk (k.data.drop 1)
      capAckLoop caps (if bmem k' agreed then removeFirst k' agreed else agreed) rest
    else if !bmem k agreed
        && (match caps with | some m => !m.isEmpty | none => false)
        && dmem k (caps.getD []) then
      capAckLoop caps (agreed ++ [k]) rest
    else capAckLoop caps agreed rest

/-- `handle_CAP`: LS accumulates into `temp_caps` and promotes on the
terminal line; NEW merges; DEL deletes from both `caps` and
`agreed_caps`; ACK appends only advertised, not-yet-agreed keys. -/
def handle_CAP (s : Server) (l : Line) : Except Server Server :=
  match l.params.get? 1 with
  | none => .error s
  | some p1 =>
    let subcommand := upStr p1
    match l.params.get? 2 with
    | none => .error s
    | some p2 =>
      let multiline := p2 = "*"
      match l.params.get? (if multiline then 3 else 2) with
      | none => .error s
      | some capsStr =>
        let tokens := parseCapTokens capsStr
        if subcommand = "LS" then
          let tc := dupdate s.temp_caps tokens
          if multiline then .ok { s with temp_caps := tc }
          else .ok { s with temp_caps := [], caps := some tc }
        else if subcommand = "NEW" then
          match s.caps with
          | some m => .ok { s with caps := some (dupdate m tokens) }
          | none => .ok s
        else if subcommand = "DEL" then
          match s.caps with
          | some m =>
            let r := capDelLoop m s.agreed_caps (dkeys tokens)
            .ok { s with caps := some r.1, agreed_caps := r.2 }
          | none => .ok s
        else if subcommand = "ACK" then
          .ok { s with agreed_caps := capAckLoop s.caps s.agreed_caps (dkeys tokens) }
        else .ok s

/-- Dispatch one line to its registered handler(s); `375` runs both MOTD
handlers in registration order; unknown commands are ignored. -/
def step (s : Server) (l : Line) : Except Server Server :=
  if l.command = "001" then handle_001 s l
  else if l.command = "005" then handle_005 s l
  else if l.command = "375" then
    match handle_375 s l with
    | .ok s1 => handle_372 s1 l
    | .error e => .error e
  else if l.command = "372" then handle_372 s l
  else if l.command = "NICK" then handle_NICK s l
  else if l.command = "JOIN" then handle_JOIN s l
  else if l.command = "PART" then handle_PART s l
  else if l.command = "KICK" then handle_KICK s l
  else if l.command = "QUIT" then handle_QUIT s l
  else if l.command = "ERROR" then handle_ERROR s l
  else if l.command = "353" then handle_353 s l
  else if l.command = "329" then handle_329 s l
  else if l.command = "TOPIC" then handle_TOPIC s l
  else if l.command = "332" then handle_332 s l
  else if l.command = "333" then handle_333 s l
  else if l.command = "MODE" then handle_MODE s l
  else if l.command = "324" then handle_324 s l
  else if l.command = "211" then handle_211 s l
  else if l.command = "PRIVMSG" then handle_PRIVMSG s l
  else if l.command = "NOTICE" then handle_PRIVMSG s l
  else if l.command = "TAGMSG" then handle_PRIVMSG s l
  else if l.command = "396" then handle_396 s l
  else if l.command = "352" then handle_352 s l
  else if l.command = "311" then handle_311 s l
  else if l.command = "CHGHOST" then handle_CHGHOST s l
  else if l.command = "SETNAME" then handle_SETNAME s l
  else if l.command = "AWAY" then handle_AWAY s l
  else if l.command = "ACCOUNT" then handle_ACCOUNT s l
  else if l.command = "CAP" then handle_CAP s l
  else .ok s

/-- Run a sequence of lines; `none` as soon as a handler raises (a
sequence of well-formed server lines is one every line of which the
session handles to completion). -/
def stepsOk : Server → List Line → Option Server
  | s, [] => some s
  | s, l :: ls =>
    match step s l with
    | .ok s' => stepsOk s' ls
    | .error _ => none

/-! ## Dictionary lemmas -/

/-- The keys of a dictionary are duplicate-free. -/
def dkeysNodup {α : Type} {β : Type} (d : List (α × β)) : Prop := (dkeys d).Nodup

theorem dlookup_dinsert_self {α β : Type} [DecidableEq α] (k : α) (v : β)
    (d : List (α × β)) : dlookup k (dinsert k v d) = some v := by
  induction d with
  | nil => simp [dinsert, dlookup]
  | cons p rest ih =>
    obtain ⟨k', v'⟩ := p
    by_cases hk : k' = k
    · subst hk; simp [dinsert, dlookup]
    · simp [dinsert, dlookup, hk, ih]

theorem dlookup_dinsert_ne {α β : Type} [DecidableEq α] {k' k : α} (v : β)
    (d : List (α × β)) (h : k' ≠ k) :
    dlookup k (dinsert k' v d) = dlookup k d := by
  induction d with
  | nil => simp [dinsert, dlookup, h]
  | cons p rest ih =>
    obtain ⟨k'', v''⟩ := p
    by_cases hk : k'' = k'
    · subst hk; simp [dinsert, dlookup, h]
    · by_cases hk2 : k'' = k
      · subst hk2; simp [dinsert, dlookup, hk]
      · simp [dinsert, dlookup, hk, hk2, ih]

theorem dlookup_derase_ne {α β : Type} [DecidableEq α] {k' k : α}
    (d : List (α × β)) (h : k' ≠ k) :
    dlookup k (derase k' d) = dlookup k d := by
  induction d with
  | nil => simp [derase]
  | cons p rest ih =>
    obtain ⟨k'', v''⟩ := p
    by_cases hk : k'' = k'
    · subst hk; simp [derase, dlookup, h]
    · by_cases hk2 : k'' = k
      · subst hk2; simp [derase, dlookup, hk]
      · simp [derase, dlookup, hk, hk2, ih]

theorem mem_dkeys_of_mem {α β : Type} {p : α × β} {d : List (α × β)}
    (h : p ∈ d) : p.1 ∈ dkeys d := List.mem_map_of_mem Prod.fst h

theorem dlookup_mem {α β : Type} [DecidableEq α] {k : α} {v : β}
    {d : List (α × β)} (h : dlookup k d = some v) : (k, v) ∈ d := by
  induction d with
  | nil => simp [dlookup] at h
  | cons p rest ih =>
    obtain ⟨k', v'⟩ := p
    by_cases hk : k' = k
    · subst hk
      simp [dlookup] at h
      subst h; exact List.mem_cons_self _ _
    · simp [dlookup, hk] at h
      exact List.mem_cons_of_mem _ (ih h)

theorem mem_dlookup {α β : Type} [DecidableEq α] {k : α} {v : β}
    {d : List (α × β)} (nd : dkeysNodup d) (h : (k, v) ∈ d) :
    dlookup k d = some v := by
  induction d with
  | nil => simp at h
  | cons p rest ih =>
    obtain ⟨k', v'⟩ := p
    rcases List.mem_cons.mp h with h1 | h1
    · injection h1 with e1 e2; subst e1; subst e2; simp [dlookup]
    · have nd' : (k' ∉ dkeys rest) ∧ dkeysNodup rest := by
        simpa [dkeysNodup, dkeys] using nd
      have hk : k' ≠ k := by
        intro e; subst e
        exact nd'.1 (by simpa [dkeys] using mem_dkeys_of_mem h1)
      simp [dlookup, hk]
      exact ih nd'.2 h1

theorem dmem_of_mem {α β : Type} [DecidableEq α] {p : α × β} {d : List (α × β)}
    (h : p ∈ d) : dmem p.1 d = true := by
  induction d with
  | nil => simp at h
  | cons q rest ih =>
    obtain ⟨k', v'⟩ := q
    rcases List.mem_cons.mp h with h1 | h1
    · subst h1; simp [dmem, dlookup]
    · by_cases hk : k' = p.1
      · simp [dmem, dlookup, hk]
      · simpa [dmem, dlookup, hk] using ih h1

theorem dmem_iff_mem_dkeys {α β : Type} [DecidableEq α] {k : α}
    {d : List (α × β)} : dmem k d = true ↔ k ∈ dkeys d := by
  induction d with
  | nil => simp [dmem, dlookup, dkeys]
  | cons p rest ih =>
    obtain ⟨k', v'⟩ := p
    by_cases hk : k' = k
    · subst hk; simp [dmem, dlookup, dkeys]
    · simp [dmem, dlookup, dkeys, hk, Ne.symm hk] at ih ⊢
      exact ih

theorem dlookup_eq_none_of_not_mem {α β : Type} [DecidableEq α] {k : α}
    {d : List (α × β)} (h : k ∉ dkeys d) : dlookup k d = none := by
  induction d with
  | nil => simp [dlookup]
  | cons p rest ih =>
    obtain ⟨k', v'⟩ := p
    simp [dkeys] at h
    have hk : k' ≠ k := fun e => h.1 e.symm
    simp [dlookup, hk]
    exact ih (by simp [dkeys, h.2])

theorem dlookup_derase_self {α β : Type} [DecidableEq α] (k : α)
    {d : List (α × β)} (nd : dkeysNodup d) : dlookup k (derase k d) = none := by
  induction d with
  | nil => simp [derase, dlookup]
  | cons p rest ih =>
    obtain ⟨k', v'⟩ := p
    have nd' : (k' ∉ dkeys rest) ∧ dkeysNodup rest := by
      simpa [dkeysNodup, dkeys] using nd
    by_cases hk : k' = k
    · subst hk
      simp [derase]
      exact dlookup_eq_none_of_not_mem nd'.1
    · simp [derase, dlookup, hk]
      exact ih nd'.2

theorem mem_dinsert_weak {α β : Type} [DecidableEq α] {p : α × β} {k : α}
    {v : β} {d : List (α × β)} (h : p ∈ dinsert k v d) :
    p = (k, v) ∨ p ∈ d := by
  induction d with
  | nil => simpa [dinsert] using h
  | cons q rest ih =>
    obtain ⟨k', v'⟩ := q
    by_cases hk : k' = k
    · subst hk
      simp [dinsert] at h
      rcases h with h | h
      · exact Or.inl (by simp [h])
      · exact Or.inr (List.mem_cons_of_mem _ h)
    · simp [dinsert, hk] at h
      rcases h with h | h
      · exact Or.inr (by simp [h])
      · rcases ih h with h1 | h1
        · exact Or.inl h1
        · exact Or.inr (List.mem_cons_of_mem _ h1)

theorem mem_dinsert {α β : Type} [DecidableEq α] {p : α × β} {k : α}
    {v : β} {d : List (α × β)} (nd : dkeysNodup d) (h : p ∈ dinsert k v d) :
    p = (k, v) ∨ (p ∈ d ∧ p.1 ≠ k) := by
  induction d with
  | nil =>
    simp [dinsert] at h
    exact Or.inl (by simp [h])
  | cons q rest ih =>
    obtain ⟨k', v'⟩ := q
    have nd' : (k' ∉ dkeys rest) ∧ dkeysNodup rest := by
      simpa [dkeysNodup, dkeys] using nd
    by_cases hk : k' = k
    · subst hk
      simp [dinsert] at h
      rcases h with h | h
      · exact Or.inl (by simp [h])
      · right
        refine ⟨List.mem_cons_of_mem _ h, fun e => ?_⟩
        exact nd'.1 (e ▸ mem_dkeys_of_mem h)
    · simp [dinsert, hk] at h
      rcases h with h | h
      · right
        constructor
        · simp [h]
        · simp [h, hk]
      · rcases ih nd'.2 h with h1 | h1
        · exact Or.inl h1
        · exact Or.inr ⟨List.mem_cons_of_mem _ h1.1, h1.2⟩

theorem mem_derase {α β : Type} [DecidableEq α] {p : α × β} {k : α}
    {d : List (α × β)} (h : p ∈ derase k d) : p ∈ d := by
  induction d with
  | nil => simp [derase] at h
  | cons q rest ih =>
    obtain ⟨k', v'⟩ := q
    by_cases hk : k' = k
    · subst hk; simp [derase] at h; exact List.mem_cons_of_mem _ h
    · simp [derase, hk] at h
      rcases h with h | h
      · simp [h]
      · exact List.mem_cons_of_mem _ (ih h)

theorem dkeys_dinsert_of_dmem {α β : Type} [DecidableEq α] {k : α} (v : β)
    {d : List (α × β)} (h : dmem k d = true) :
    dkeys (dinsert k v d) = dkeys d := by
  induction d with
  | nil => simp [dmem, dlookup] at h
  | cons p rest ih =>
    obtain ⟨k', v'⟩ := p
    by_cases hk : k' = k
    · subst hk; simp [dinsert, dkeys]
    · simp [dmem, dlookup, hk] at h
      simp [dinsert, dkeys, hk]
      simpa [dkeys] using ih h

theorem dkeys_dinsert_of_not_dmem {α β : Type} [DecidableEq α] {k : α} (v : β)
    {d : List (α × β)} (h : dmem k d = false) :
    dkeys (dinsert k v d) = dkeys d ++ [k] := by
  induction d with
  | nil => simp [dinsert, dkeys]
  | cons p rest ih =>
    obtain ⟨k', v'⟩ := p
    by_cases hk : k' = k
    · subst hk; simp [dmem, dlookup] at h
    · simp [dmem, dlookup, hk] at h
      simp [dinsert, dkeys, hk]
      simpa [dkeys] using ih (by simp [dmem, h])

theorem dkeysNodup_dinsert {α β : Type} [DecidableEq α] (k : α) (v : β)
    {d : List (α × β)} (nd : dkeysNodup d) : dkeysNodup (dinsert k v d) := by
  cases h : dmem k d with
  | true => rw [dkeysNodup, dkeys_dinsert_of_dmem v h]; exact nd
  | false =>
    rw [dkeysNodup, dkeys_dinsert_of_not_dmem v h]
    refine List.Nodup.append nd (List.nodup_singleton k) ?_
    intro x hx hk
    simp at hk; subst hk
    rw [← dmem_iff_mem_dkeys] at hx
    rw [hx] at h
    exact Bool.noConfusion h

theorem derase_sublist {α β : Type} [DecidableEq α] (k : α)
    (d : List (α × β)) : (derase k d).Sublist d := by
  induction d with
  | nil => simp [derase]
  | cons p rest ih =>
    obtain ⟨k', v'⟩ := p
    by_cases hk : k' = k
    · subst hk; simpa [derase] using List.sublist_cons (k, v') rest
    · simpa [derase, hk] using List.Sublist.cons₂ (k', v') ih

theorem dkeysNodup_derase {α β : Type} [DecidableEq α] (k : α)
    {d : List (α × β)} (nd : dkeysNodup d) : dkeysNodup (derase k d) :=
  List.Nodup.sublist (List.Sublist.map Prod.fst (derase_sublist k d)) nd

theorem mem_derase_nodup {α β : Type} [DecidableEq α] {p : α × β} {k : α}
    {d : List (α × β)} (nd : dkeysNodup d) (h : p ∈ derase k d) :
    p ∈ d ∧ p.1 ≠ k := by
  refine ⟨mem_derase h, fun e => ?_⟩
  subst e
  have h2 := mem_dlookup (dkeysNodup_derase p.1 nd) (by simpa using h)
  rw [dlookup_derase_self p.1 nd] at h2
  exact Option.noConfusion h2

theorem dmem_derase_ne {α β : Type} [DecidableEq α] {k' k : α}
    {d : List (α × β)} (h : k' ≠ k) : dmem k (derase k' d) = dmem k d := by
  simp [dmem, dlookup_derase_ne d h]

theorem dmem_dinsert_self {α β : Type} [DecidableEq α] (k : α) (v : β)
    (d : List (α × β)) : dmem k (dinsert k v d) = true := by
  simp [dmem, dlookup_dinsert_self]

theorem dmem_dinsert_ne {α β : Type} [DecidableEq α] {k' k : α} (v : β)
    (d : List (α × β)) (h : k' ≠ k) : dmem k (dinsert k' v d) = dmem k d := by
  simp [dmem, dlookup_dinsert_ne v d h]

theorem bmem_iff {α : Type} [DecidableEq α] {x : α} {l : List α} :
    bmem x l = true ↔ x ∈ l := by
  induction l with
  | nil => simp [bmem]
  | cons y rest ih =>
    by_cases hy : y = x
    · subst hy; simp [bmem]
    · simp [bmem, hy, Ne.symm hy, ih]

theorem mem_sadd {α : Type} [DecidableEq α] {y x : α} {l : List α} :
    y ∈ sadd x l ↔ y = x ∨ y ∈ l := by
  cases hb : bmem x l with
  | true =>
    have hx : x ∈ l := bmem_iff.mp hb
    simp [sadd, hb]
    intro h; subst h; exact hx
  | false => simp [sadd, hb, or_comm]

theorem sadd_nodup {α : Type} [DecidableEq α] (x : α) {l : List α}
    (nd : l.Nodup) : (sadd x l).Nodup := by
  unfold sadd
  cases h : bmem x l with
  | true => exact nd
  | false =>
    simp
    refine List.Nodup.append nd (List.nodup_singleton x) ?_
    intro y hy he
    simp at he; subst he
    rw [← bmem_iff] at hy
    rw [hy] at h
    exact Bool.noConfusion h

theorem sremove_eq_some {α : Type} [DecidableEq α] {x : α} {l l' : List α}
    (h : sremove x l = some l') :
    x ∈ l ∧ (∀ y, y ∈ l' ↔ (y ∈ l ∧ y ≠ x)) ∧ l'.Sublist l := by
  unfold sremove at h
  cases hb : bmem x l with
  | false => simp [hb] at h
  | true =>
    simp [hb] at h
    subst h
    refine ⟨bmem_iff.mp hb, fun y => ?_, List.filter_sublist l⟩
    simp [List.mem_filter]

theorem mem_removeFirst {α : Type} [DecidableEq α] {y x : α} {l : List α}
    (h : y ∈ removeFirst x l) : y ∈ l := by
  induction l with
  | nil => simp [removeFirst] at h
  | cons z rest ih =>
    by_cases hz : z = x
    · subst hz; simp [removeFirst] at h; exact List.mem_cons_of_mem _ h
    · simp [removeFirst, hz] at h
      rcases h with h | h
      · simp [h]
      · exact List.mem_cons_of_mem _ (ih h)

theorem removeFirst_sublist {α : Type} [DecidableEq α] (x : α) (l : List α) :
    (removeFirst x l).Sublist l := by
  induction l with
  | nil => simp [removeFirst]
  | cons z rest ih =>
    by_cases hz : z = x
    · subst hz; simpa [removeFirst] using List.sublist_cons x rest
    · simpa [removeFirst, hz] using List.Sublist.cons₂ z ih

theorem removeFirst_nodup {α : Type} [DecidableEq α] (x : α) {l : List α}
    (nd : l.Nodup) : (removeFirst x l).Nodup :=
  List.Nodup.sublist (removeFirst_sublist x l) nd

theorem not_mem_removeFirst_nodup {α : Type} [DecidableEq α] {x : α}
    {l : List α} (nd : l.Nodup) : x ∉ removeFirst x l := by
  induction l with
  | nil => simp [removeFirst]
  | cons z rest ih =>
    by_cases hz : z = x
    · subst hz
      simp [removeFirst]
      exact (List.nodup_cons.mp nd).1
    · simp [removeFirst, hz, Ne.symm hz]
      exact ih (List.nodup_cons.mp nd).2

/-! ## The membership-index invariant (spec §3 invariant 1) -/

/-- Channel `cid` is in user `uid`'s membership set. -/
def ucHas (uc : List (Nat × List Nat)) (uid cid : Nat) : Prop :=
  ∃ cs, dlookup uid uc = some cs ∧ cid ∈ cs

/-- User `uid` is on channel `cid`'s roster. -/
def cuHas (cu : List (Nat × List (Nat × ChannelUser))) (cid uid : Nat) : Prop :=
  ∃ r, dlookup cid cu = some r ∧ dmem uid r = true

/-- The two membership indices are mutual inverses: every roster member
has the channel in their set, and every set element has the user on that
channel's roster. -/
def Inv1 (s : Server) : Prop :=
  (∀ p ∈ s.channel_users, ∀ q ∈ p.2, ucHas s.user_channels q.1 p.1) ∧
  (∀ p ∈ s.user_channels, ∀ cid ∈ p.2, cuHas s.channel_users cid p.1)

/-- Structural well-formedness maintained by every completed handler:
unique keys in both indices and in each roster, duplicate-free membership
sets, channel ids below the allocation counter, and the mutual-inverse
property. -/
def WF (s : Server) : Prop :=
  dkeysNodup s.user_channels ∧ dkeysNodup s.channel_users ∧
  (∀ p ∈ s.channel_users, dkeysNodup p.2) ∧
  (∀ p ∈ s.user_channels, p.2.Nodup) ∧
  (∀ p ∈ s.channel_users, p.1 < s.next_id) ∧
  Inv1 s

theorem WF_congr {s s' : Server} (h1 : s'.user_channels = s.user_channels)
    (h2 : s'.channel_users = s.channel_users) (h3 : s.next_id ≤ s'.next_id)
    (h : WF s) : WF s' := by
  obtain ⟨a, b, c, d, e, f⟩ := h
  refine ⟨?_, ?_, ?_, ?_, ?_, ?_⟩
  · rw [h1]; exact a
  · rw [h2]; exact b
  · rw [h2]; exact c
  · rw [h1]; exact d
  · rw [h2]; exact fun p hp => lt_of_lt_of_le (e p hp) h3
  · unfold Inv1; rw [h1, h2]; exact f

theorem WF_selfQuit (s : Server) : WF s.selfQuit := by
  refine ⟨?_, ?_, ?_, ?_, ?_, ?_, ?_⟩ <;>
    simp [Server.selfQuit, dkeysNodup, dkeys]

theorem WF_init : WF initServer := by
  refine ⟨?_, ?_, ?_, ?_, ?_, ?_, ?_⟩ <;>
    simp [initServer, dkeysNodup, dkeys]

/-! ## WF preservation, handler by handler -/

theorem wf_001 {s : Server} {l : Line} {s' : Server} (h : WF s)
    (he : handle_001 s l = .ok s') : WF s' := by
  unfold handle_001 at he
  split at he
  · exact Except.noConfusion he
  · injection he with h2; subst h2; exact WF_congr rfl rfl (le_refl _) h

theorem wf_005 {s : Server} {l : Line} {s' : Server} (h : WF s)
    (he : handle_005 s l = .ok s') : WF s' := by
  unfold handle_005 at he
  injection he with h2; subst h2; exact WF_congr rfl rfl (le_refl _) h

theorem wf_375 {s : Server} {l : Line} {s' : Server} (h : WF s)
    (he : handle_375 s l = .ok s') : WF s' := by
  unfold handle_375 at he
  injection he with h2; subst h2; exact WF_congr rfl rfl (le_refl _) h

theorem wf_372 {s : Server} {l : Line} {s' : Server} (h : WF s)
    (he : handle_372 s l = .ok s') : WF s' := by
  unfold handle_372 at he
  split at he
  · exact Except.noConfusion he
  · injection he with h2; subst h2; exact WF_congr rfl rfl (le_refl _) h

theorem wf_NICK {s : Server} {l : Line} {s' : Server} (h : WF s)
    (he : handle_NICK s l = .ok s') : WF s' := by
  unfold handle_NICK at he
  split at he
  · exact Except.noConfusion he
  · simp only [] at he
    split at he <;> split at he <;>
      (injection he with h2; subst h2; exact WF_congr rfl rfl (le_refl _) h)

theorem wf_329 {s : Server} {l : Line} {s' : Server} (h : WF s)
    (he : handle_329 s l = .ok s') : WF s' := by
  unfold handle_329 at he
  try simp only [] at he
  repeat' first
    | exact Except.noConfusion he
    | (injection he with h2; subst h2; exact WF_congr rfl rfl (le_refl _) h)
    | split at he

theorem wf_TOPIC {s : Server} {l : Line} {s' : Server} (h : WF s)
    (he : handle_TOPIC s l = .ok s') : WF s' := by
  unfold handle_TOPIC at he
  try simp only [] at he
  repeat' first
    | exact Except.noConfusion he
    | (injection he with h2; subst h2; exact WF_congr rfl rfl (le_refl _) h)
    | split at he

theorem wf_332 {s : Server} {l : Line} {s' : Server} (h : WF s)
    (he : handle_332 s l = .ok s') : WF s' := by
  unfold handle_332 at he
  try simp only [] at he
  repeat' first
    | exact Except.noConfusion he
    | (injection he with h2; subst h2; exact WF_congr rfl rfl (le_refl _) h)
    | split at he

theorem wf_333 {s : Server} {l : Line} {s' : Server} (h : WF s)
    (he : handle_333 s l = .ok s') : WF s' := by
  unfold handle_333 at he
  try simp only [] at he
  repeat' first
    | exact Except.noConfusion he
    | (injection he with h2; subst h2; exact WF_congr rfl rfl (le_refl _) h)
    | split at he

theorem wf_211 {s : Server} {l : Line} {s' : Server} (h : WF s)
    (he : handle_211 s l = .ok s') : WF s' := by
  unfold handle_211 at he
  try simp only [] at he
  repeat' first
    | exact Except.noConfusion he
    | (injection he with h2; subst h2; exact WF_congr rfl rfl (le_refl _) h)
    | split at he

theorem wf_PRIVMSG {s : Server} {l : Line} {s' : Server} (h : WF s)
    (he : handle_PRIVMSG s l = .ok s') : WF s' := by
  unfold handle_PRIVMSG at he
  try simp only [] at he
  repeat' first
    | exact Except.noConfusion he
    | (injection he with h2; subst h2; exact WF_congr rfl rfl (le_refl _) h)
    | split at he

theorem wf_396 {s : Server} {l : Line} {s' : Server} (h : WF s)
    (he : handle_396 s l = .ok s') : WF s' := by
  unfold handle_396 at he
  try simp only [] at he
  repeat' first
    | exact Except.noConfusion he
    | (injection he with h2; subst h2; exact WF_congr rfl rfl (le_refl _) h)
    | split at he

theorem wf_352 {s : Server} {l : Line} {s' : Server} (h : WF s)
    (he : handle_352 s l = .ok s') : WF s' := by
  unfold handle_352 at he
  try simp only [] at he
  repeat' first
    | exact Except.noConfusion he
    | (injection he with h2; subst h2; exact WF_congr rfl rfl (le_refl _) h)
    | split at he

theorem wf_311 {s : Server} {l : Line} {s' : Server} (h : WF s)
    (he : handle_311 s l = .ok s') : WF s' := by
  unfold handle_311 at he
  try simp only [] at he
  repeat' first
    | exact Except.noConfusion he
    | (injection he with h2; subst h2; exact WF_congr rfl rfl (le_refl _) h)
    | split at he

theorem wf_CHGHOST {s : Server} {l : Line} {s' : Server} (h : WF s)
    (he : handle_CHGHOST s l = .ok s') : WF s' := by
  unfold handle_CHGHOST at he
  try simp only [] at he
  repeat' first
    | exact Except.noConfusion he
    | (injection he with h2; subst h2; exact WF_congr rfl rfl (le_refl _) h)
    | split at he

theorem wf_SETNAME {s : Server} {l : Line} {s' : Server} (h : WF s)
    (he : handle_SETNAME s l = .ok s') : WF s' := by
  unfold handle_SETNAME at he
  try simp only [] at he
  repeat' first
    | exact Except.noConfusion he
    | (injection he with h2; subst h2; exact WF_congr rfl rfl (le_refl _) h)
    | split at he

theorem wf_AWAY {s : Server} {l : Line} {s' : Server} (h : WF s)
    (he : handle_AWAY s l = .ok s') : WF s' := by
  unfold handle_AWAY at he
  try simp only [] at he
  repeat' first
    | exact Except.noConfusion he
    | (injection he with h2; subst h2; exact WF_congr rfl rfl (le_refl _) h)
    | split at he

theorem wf_ACCOUNT {s : Server} {l : Line} {s' : Server} (h : WF s)
    (he : handle_ACCOUNT s l = .ok s') : WF s' := by
  unfold handle_ACCOUNT at he
  try simp only [] at he
  repeat' first
    | exact Except.noConfusion he
    | (injection he with h2; subst h2; exact WF_congr rfl rfl (le_refl _) h)
    | split at he

theorem wf_CAP {s : Server} {l : Line} {s' : Server} (h : WF s)
    (he : handle_CAP s l = .ok s') : WF s' := by
  unfold handle_CAP at he
  try simp only [] at he
  repeat' first
    | exact Except.noConfusion he
    | (injection he with h2; subst h2; exact WF_congr rfl rfl (le_refl _) h)
    | split at he

theorem wf_ERROR {s : Server} {l : Line} {s' : Server}
    (he : handle_ERROR s l = .ok s') : WF s' := by
  unfold handle_ERROR at he
  injection he with h2; subst h2; exact WF_selfQuit s

/-! ## `user_join` and its effect on the indices -/

/-- The net effect of `user_join` on the `user_channels` index. -/
def ucJoin (uc : List (Nat × List Nat)) (uid cid : Nat) : List (Nat × List Nat) :=
  let uc1 := if dmem uid uc then uc else dinsert uid [] uc
  dinsert uid (sadd cid ((dlookup uid uc1).getD [])) uc1

theorem user_join_eq (s : Server) (cid uid : Nat) :
    s.user_join cid uid =
      (match dlookup cid s.channel_users with
      | some roster => .ok { s with
          user_channels := ucJoin s.user_channels uid cid
          channel_users := dinsert cid (dinsert uid {} roster) s.channel_users }
      | none => .error { s with user_channels := ucJoin s.user_channels uid cid }) := by
  unfold Server.user_join ucJoin
  by_cases hd : dmem uid s.user_channels = true
  · simp [hd]
  · simp [hd]

theorem dlookup_ucJoin_self (uc : List (Nat × List Nat)) (uid cid : Nat) :
    dlookup uid (ucJoin uc uid cid) =
      some (sadd cid ((dlookup uid uc).getD [])) := by
  unfold ucJoin
  by_cases hd : dmem uid uc = true
  · simp [hd, dlookup_dinsert_self]
  · have hn : dlookup uid uc = none := by
      cases hl : dlookup uid uc with
      | none => rfl
      | some v => rw [dmem, hl] at hd; simp at hd
    simp [hd, hn, dlookup_dinsert_self]

theorem dlookup_ucJoin_ne {uc : List (Nat × List Nat)} {u uid : Nat}
    (cid : Nat) (h : u ≠ uid) :
    dlookup u (ucJoin uc uid cid) = dlookup u uc := by
  unfold ucJoin
  by_cases hd : dmem uid uc = true
  · simp [hd, dlookup_dinsert_ne _ _ (Ne.symm h)]
  · simp [hd, dlookup_dinsert_ne _ _ (Ne.symm h)]

theorem ucHas_ucJoin_mono {uc : List (Nat × List Nat)} {u c uid cid : Nat}
    (h : ucHas uc u c) : ucHas (ucJoin uc uid cid) u c := by
  obtain ⟨cs, hl, hc⟩ := h
  by_cases hu : u = uid
  · subst hu
    exact ⟨_, dlookup_ucJoin_self uc u cid, by
      rw [hl]; exact mem_sadd.mpr (Or.inr hc)⟩
  · exact ⟨cs, by rw [dlookup_ucJoin_ne cid hu]; exact hl, hc⟩

theorem mem_ucJoin {uc : List (Nat × List Nat)} {p : Nat × List Nat}
    {uid cid : Nat} (nd : dkeysNodup uc) (h : p ∈ ucJoin uc uid cid) :
    p = (uid, sadd cid ((dlookup uid uc).getD [])) ∨ (p ∈ uc ∧ p.1 ≠ uid) := by
  unfold ucJoin at h
  by_cases hd : dmem uid uc = true
  · simp [hd] at h
    rcases mem_dinsert nd h with h1 | h1
    · left
      rw [h1]
    · exact Or.inr h1
  · simp [hd] at h
    have hn : dlookup uid uc = none := by
      cases hl : dlookup uid uc with
      | none => rfl
      | some v => rw [dmem, hl] at hd; simp at hd
    rcases mem_dinsert (dkeysNodup_dinsert uid [] nd) h with h1 | h1
    · left
      rw [h1, hn]
      simp [dlookup_dinsert_self]
    · rcases mem_dinsert nd h1.1 with h2 | h2
      · exact absurd (by rw [h2]) h1.2
      · exact Or.inr h2

theorem dkeysNodup_ucJoin {uc : List (Nat × List Nat)} (uid cid : Nat)
    (nd : dkeysNodup uc) : dkeysNodup (ucJoin uc uid cid) := by
  unfold ucJoin
  by_cases hd : dmem uid uc = true
  · simp [hd]; exact dkeysNodup_dinsert _ _ nd
  · simp [hd]; exact dkeysNodup_dinsert _ _ (dkeysNodup_dinsert _ _ nd)

theorem cuHas_dinsert_transfer {cu : List (Nat × List (Nat × ChannelUser))}
    {c u cid uid : Nat} {roster : List (Nat × ChannelUser)}
    (hr : dlookup cid cu = some roster) (h : cuHas cu c u) :
    cuHas (dinsert cid (dinsert uid {} roster) cu) c u := by
  obtain ⟨r, hlr, hdm⟩ := h
  by_cases hc : c = cid
  · subst hc
    rw [hr] at hlr
    injection hlr with e; subst e
    refine ⟨_, dlookup_dinsert_self _ _ _, ?_⟩
    by_cases hu : u = uid
    · subst hu; exact dmem_dinsert_self _ _ _
    · rw [dmem_dinsert_ne _ _ (fun e => hu e.symm)]; exact hdm
  · exact ⟨r, by rw [dlookup_dinsert_ne _ _ (fun e => hc e.symm)]; exact hlr, hdm⟩

theorem wf_user_join {s : Server} {cid uid : Nat} {s' : Server} (h : WF s)
    (he : s.user_join cid uid = .ok s') : WF s' := by
  rw [user_join_eq] at he
  cases hr : dlookup cid s.channel_users with
  | none => rw [hr] at he; exact Except.noConfusion he
  | some roster =>
    rw [hr] at he
    injection he with h2
    subst h2
    obtain ⟨nd_uc, nd_cu, nd_r, nd_s, fresh, inv1, inv2⟩ := h
    have hmem_cu : (cid, roster) ∈ s.channel_users := dlookup_mem hr
    have csOld_nodup : ((dlookup uid s.user_channels).getD []).Nodup := by
      cases hl : dlookup uid s.user_channels with
      | none => simp
      | some cs => simpa using nd_s _ (dlookup_mem hl)
    refine ⟨?_, ?_, ?_, ?_, ?_, ?_, ?_⟩
    · exact dkeysNodup_ucJoin uid cid nd_uc
    · exact dkeysNodup_dinsert _ _ nd_cu
    · intro p hp
      rcases mem_dinsert_weak hp with h1 | h1
      · rw [h1]
        exact dkeysNodup_dinsert _ _ (nd_r _ hmem_cu)
      · exact nd_r _ h1
    · intro p hp
      rcases mem_ucJoin nd_uc hp with h1 | h1
      · rw [h1]
        exact sadd_nodup cid csOld_nodup
      · exact nd_s _ h1.1
    · intro p hp
      rcases mem_dinsert_weak hp with h1 | h1
      · subst h1; exact fresh (cid, roster) hmem_cu
      · exact fresh _ h1
    · intro p hp q hq
      rcases mem_dinsert_weak hp with h1 | h1
      · rw [h1] at hq ⊢
        rcases mem_dinsert_weak hq with h2 | h2
        · rw [h2]
          exact ⟨_, dlookup_ucJoin_self _ _ _, mem_sadd.mpr (Or.inl rfl)⟩
        · exact ucHas_ucJoin_mono (inv1 _ hmem_cu _ h2)
      · exact ucHas_ucJoin_mono (inv1 _ h1 _ hq)
    · intro p hp c hc
      rcases mem_ucJoin nd_uc hp with h1 | h1
      · subst h1
        simp only [] at hc ⊢
        rcases mem_sadd.mp hc with h2 | h2
        · subst h2
          exact ⟨_, dlookup_dinsert_self _ _ _, dmem_dinsert_self uid {} roster⟩
        · cases hl : dlookup uid s.user_channels with
          | none => rw [hl] at h2; simp at h2
          | some cs =>
            rw [hl] at h2
            simp at h2
            exact cuHas_dinsert_transfer hr (inv2 _ (dlookup_mem hl) _ h2)
      · exact cuHas_dinsert_transfer hr (inv2 _ h1.1 _ hc)

/-! ## Roster-value updates (membership mode lists) -/

theorem cuHas_roster_update {cu : List (Nat × List (Nat × ChannelUser))}
    {c u cid uid : Nat} {roster : List (Nat × ChannelUser)} (v : ChannelUser)
    (hr : dlookup cid cu = some roster) (h : cuHas cu c u) :
    cuHas (dinsert cid (dinsert uid v roster) cu) c u := by
  obtain ⟨r, hlr, hdm⟩ := h
  by_cases hc : c = cid
  · subst hc
    rw [hr] at hlr
    injection hlr with e; subst e
    refine ⟨_, dlookup_dinsert_self _ _ _, ?_⟩
    by_cases hu : u = uid
    · subst hu; exact dmem_dinsert_self _ _ _
    · rw [dmem_dinsert_ne _ _ (fun e => hu e.symm)]; exact hdm
  · exact ⟨r, by rw [dlookup_dinsert_ne _ _ (fun e => hc e.symm)]; exact hlr, hdm⟩

/-- Overwriting one member's `ChannelUser` value on an existing roster
keeps the state well-formed (the index domains are untouched). -/
theorem wf_roster_value_update {s : Server} {cid uid : Nat}
    {roster : List (Nat × ChannelUser)} {cu0 : ChannelUser}
    (hr : dlookup cid s.channel_users = some roster)
    (hu : dlookup uid roster = some cu0) (v : ChannelUser) (h : WF s) :
    WF { s with channel_users := dinsert cid (dinsert uid v roster) s.channel_users } := by
  obtain ⟨nd_uc, nd_cu, nd_r, nd_s, fresh, inv1, inv2⟩ := h
  have hmem_cu : (cid, roster) ∈ s.channel_users := dlookup_mem hr
  have hmem_r : (uid, cu0) ∈ roster := dlookup_mem hu
  refine ⟨?_, ?_, ?_, ?_, ?_, ?_, ?_⟩
  · exact nd_uc
  · exact dkeysNodup_dinsert _ _ nd_cu
  · intro p hp
    rcases mem_dinsert_weak hp with h1 | h1
    · rw [h1]; exact dkeysNodup_dinsert _ _ (nd_r _ hmem_cu)
    · exact nd_r _ h1
  · exact nd_s
  · intro p hp
    rcases mem_dinsert_weak hp with h1 | h1
    · subst h1; exact fresh (cid, roster) hmem_cu
    · exact fresh _ h1
  · intro p hp q hq
    rcases mem_dinsert_weak hp with h1 | h1
    · subst h1
      simp only [] at hq ⊢
      rcases mem_dinsert_weak hq with h2 | h2
      · subst h2
        exact inv1 (cid, roster) hmem_cu (uid, cu0) hmem_r
      · exact inv1 _ hmem_cu _ h2
    · exact inv1 _ h1 _ hq
  · intro p hp c hc
    exact cuHas_roster_update _ hr (inv2 _ hp _ hc)

theorem wf_addMembModes {s : Server} (cid uid : Nat) (ms : List Char)
    (h : WF s) : WF (addMembModes s cid uid ms) := by
  unfold addMembModes
  cases hr : dlookup cid s.channel_users with
  | none => exact h
  | some roster =>
    simp only []
    cases hu : dlookup uid roster with
    | none => exact h
    | some cu0 =>
      simp only []
      exact wf_roster_value_update hr hu _ h

theorem wf_channelModes (cid : Nat) :
    ∀ (modes : List (Bool × Char)) (ps : List String) (s : Server)
      (r : Server × List String),
    WF s → channelModes s cid modes ps = .ok r → WF r.1 := by
  intro modes
  induction modes with
  | nil =>
    intro ps s r h he
    unfold channelModes at he
    injection he with h2; subst h2; exact h
  | cons m rest ih =>
    intro ps s r h he
    obtain ⟨add, ch⟩ := m
    unfold channelModes at he
    try simp only [] at he
    repeat' first
      | exact Except.noConfusion he
      | exact ih _ _ _ h he
      | (refine ih _ _ _ ?_ he
         exact wf_roster_value_update (by assumption) (by assumption) _ h)
      | (refine ih _ _ _ ?_ he
         exact WF_congr rfl rfl (le_refl _) h)
      | split at he

theorem wf_MODE {s : Server} {l : Line} {s' : Server} (h : WF s)
    (he : handle_MODE s l = .ok s') : WF s' := by
  unfold handle_MODE at he
  try simp only [] at he
  repeat' first
    | exact Except.noConfusion he
    | (injection he with h2; subst h2; exact WF_congr rfl rfl (le_refl _) h)
    | (injection he with h2; subst h2; exact wf_channelModes _ _ _ _ _ h (by assumption))
    | split at he

theorem wf_324 {s : Server} {l : Line} {s' : Server} (h : WF s)
    (he : handle_324 s l = .ok s') : WF s' := by
  unfold handle_324 at he
  try simp only [] at he
  repeat' first
    | exact Except.noConfusion he
    | (injection he with h2; subst h2; exact WF_congr rfl rfl (le_refl _) h)
    | (injection he with h2; subst h2; exact wf_channelModes _ _ _ _ _ h (by assumption))
    | split at he

/-! ## JOIN and 353 preservation -/

theorem wf_ensureUser {s : Server} (nick nickLower : String) (h : WF s) :
    WF (s.ensureUser nick nickLower) := by
  unfold Server.ensureUser
  split
  · exact h
  · refine WF_congr ?_ ?_ ?_ h
    · rfl
    · rfl
    · exact Nat.le_succ s.next_id

theorem cuHas_mem_dkeys {cu : List (Nat × List (Nat × ChannelUser))}
    {c u : Nat} (h : cuHas cu c u) : c ∈ dkeys cu := by
  obtain ⟨r, hlr, _⟩ := h
  exact mem_dkeys_of_mem (dlookup_mem hlr)

theorem wf_createChannel {s : Server} (cl nm : String) (h : WF s) :
    WF (s.createChannel cl nm) := by
  obtain ⟨nd_uc, nd_cu, nd_r, nd_s, fresh, inv1, inv2⟩ := h
  unfold Server.createChannel
  refine ⟨?_, ?_, ?_, ?_, ?_, ?_, ?_⟩
  · exact nd_uc
  · exact dkeysNodup_dinsert _ _ nd_cu
  · intro p hp
    rcases mem_dinsert_weak hp with h1 | h1
    · subst h1; simp [dkeysNodup, dkeys]
    · exact nd_r _ h1
  · exact nd_s
  · intro p hp
    rcases mem_dinsert_weak hp with h1 | h1
    · subst h1; exact Nat.lt_succ_self _
    · exact Nat.lt_succ_of_lt (fresh _ h1)
  · intro p hp q hq
    rcases mem_dinsert_weak hp with h1 | h1
    · subst h1; simp at hq
    · exact inv1 _ h1 _ hq
  · intro p hp c hc
    obtain ⟨r, hlr, hdm⟩ := inv2 _ hp _ hc
    have hlt : c < s.next_id := fresh _ (dlookup_mem hlr)
    exact ⟨r, by
      rw [dlookup_dinsert_ne _ _ (fun e => absurd (e ▸ hlt) (lt_irrefl _))]
      exact hlr, hdm⟩

theorem wf_joinSelfLearn {s : Server} (l : Line) (extended : Bool)
    (account realname : Option String) (h : WF s) :
    WF (joinSelfLearn s l extended account realname) := by
  unfold joinSelfLearn
  repeat' first
    | exact h
    | exact WF_congr rfl rfl (le_refl _) h
    | split

theorem wf_JOIN {s : Server} {l : Line} {s' : Server} (h : WF s)
    (he : handle_JOIN s l = .ok s') : WF s' := by
  unfold handle_JOIN at he
  try simp only [] at he
  split at he
  · exact Except.noConfusion he
  · rename_i p0 _
    have h1 : WF (if s.casefold l.source.nickname = s.nickname_lower then
        joinSelfLearn (if dmem (s.casefold p0) s.channels then s
                       else s.createChannel (s.casefold p0) p0)
          l (l.params.length = 3)
          (if l.params.length = 3 then some (stripChars '*' (l.params.getD 1 "")) else none)
          (if l.params.length = 3 then l.params.get? 2 else none)
      else s) := by
      split
      · refine wf_joinSelfLearn _ _ _ _ ?_
        split
        · exact h
        · exact wf_createChannel _ _ h
      · exact h
    split at he
    · injection he with h2; subst h2; exact h1
    · have h2 : WF ((if s.casefold l.source.nickname = s.nickname_lower then
          joinSelfLearn (if dmem (s.casefold p0) s.channels then s
                         else s.createChannel (s.casefold p0) p0)
            l (l.params.length = 3)
            (if l.params.length = 3 then some (stripChars '*' (l.params.getD 1 "")) else none)
            (if l.params.length = 3 then l.params.get? 2 else none)
        else s).ensureUser l.source.nickname (s.casefold l.source.nickname)) :=
        wf_ensureUser _ _ h1
      split at he
      · injection he with h3; subst h3; exact h2
      · refine wf_user_join ?_ he
        exact WF_congr rfl rfl (le_refl _) h2

theorem wf_namesEntry {s : Server} {cid : Nat} {entry : String} {s' : Server}
    (h : WF s) (he : namesEntry s cid entry = .ok s') : WF s' := by
  unfold namesEntry at he
  try simp only [] at he
  split at he
  · exact Except.noConfusion he
  · split at he
    · exact Except.noConfusion he
    · rename_i s2 heq2
      injection he with h2
      subst h2
      have hwf2 : WF s2 := wf_user_join (wf_ensureUser _ _ h) heq2
      refine wf_addMembModes _ _ _ ?_
      repeat' first
        | exact hwf2
        | exact WF_congr rfl rfl (le_refl _) hwf2
        | split

theorem wf_namesLoop (cid : Nat) :
    ∀ (entries : List String) (s s' : Server),
    WF s → namesLoop s cid entries = .ok s' → WF s' := by
  intro entries
  induction entries with
  | nil =>
    intro s s' h he
    unfold namesLoop at he
    injection he with h2; subst h2; exact h
  | cons e rest ih =>
    intro s s' h he
    unfold namesLoop at he
    split at he
    · exact Except.noConfusion he
    · rename_i s1 heq
      exact ih _ _ (wf_namesEntry h heq) he

theorem wf_353 {s : Server} {l : Line} {s' : Server} (h : WF s)
    (he : handle_353 s l = .ok s') : WF s' := by
  unfold handle_353 at he
  try simp only [] at he
  repeat' first
    | exact Except.noConfusion he
    | (injection he with h2; subst h2; exact h)
    | exact wf_namesLoop _ _ _ _ h he
    | split at he

/-! ## PART / KICK preservation -/

theorem wf_partLoop (cid : Nat) :
    ∀ (roster : List (Nat × ChannelUser)) (s s' : Server),
    dkeysNodup s.user_channels →
    dkeysNodup s.channel_users →
    (∀ p ∈ s.channel_users, dkeysNodup p.2) →
    (∀ p ∈ s.user_channels, p.2.Nodup) →
    (∀ p ∈ s.channel_users, p.1 < s.next_id) →
    (∀ p ∈ s.channel_users, ∀ q ∈ p.2, ucHas s.user_channels q.1 p.1) →
    dmem cid s.channel_users = false →
    (∀ p ∈ s.user_channels, ∀ c ∈ p.2, c ≠ cid → cuHas s.channel_users c p.1) →
    (∀ p ∈ s.user_channels, cid ∈ p.2 → p.1 ∈ dkeys roster) →
    partLoop s cid roster = .ok s' → WF s' := by
  intro roster
  induction roster with
  | nil =>
    intro s s' h1 h2 h3 h4 h5 h6 h7 h8 h9 he
    unfold partLoop at he
    injection he with h0
    subst h0
    refine ⟨h1, h2, h3, h4, h5, h6, ?_⟩
    intro p hp c hc
    by_cases hcc : c = cid
    · subst hcc
      exact absurd (h9 p hp hc) (by simp [dkeys])
    · exact h8 p hp c hc hcc
  | cons hd rest ih =>
    intro s s' h1 h2 h3 h4 h5 h6 h7 h8 h9 he
    obtain ⟨uid, cu0⟩ := hd
    unfold partLoop at he
    try simp only [] at he
    split at he
    · exact Except.noConfusion he
    · rename_i cs hlu
      split at he
      · exact Except.noConfusion he
      · rename_i cs' hsr
        obtain ⟨hcid_cs, hmem_cs', hsub⟩ := sremove_eq_some hsr
        have hcs_mem : (uid, cs) ∈ s.user_channels := dlookup_mem hlu
        have hcid_notin_cu :
            ∀ p ∈ s.channel_users, (p : Nat × List (Nat × ChannelUser)).1 ≠ cid := by
          intro p hp e
          have hmm : dmem cid s.channel_users = true :=
            dmem_iff_mem_dkeys.mpr (e ▸ mem_dkeys_of_mem hp)
          rw [h7] at hmm
          exact Bool.noConfusion hmm
        split at he
        · -- the set emptied: drop the user_channels entry and the user
          rename_i hnil
          split at he
          · refine ih _ _ ?_ ?_ ?_ ?_ ?_ ?_ ?_ ?_ ?_ he
            · exact dkeysNodup_derase _ (dkeysNodup_dinsert _ _ h1)
            · exact h2
            · exact h3
            · intro p hp
              dsimp only at hp
              rcases mem_dinsert h1 (mem_derase hp) with hq | hq
              · subst hq
                exact List.Nodup.sublist hsub (h4 _ hcs_mem)
              · exact h4 _ hq.1
            · exact h5
            · intro p hp q hq
              dsimp only at hp
              obtain ⟨cs0, hl0, hm0⟩ := h6 p hp q hq
              by_cases hqu : q.1 = uid
              · exfalso
                rw [hqu, hlu] at hl0
                injection hl0 with e0
                subst e0
                have hin : p.1 ∈ cs' := (hmem_cs' p.1).mpr
                  ⟨hm0, hcid_notin_cu p hp⟩
                rw [hnil] at hin
                simp at hin
              · refine ⟨cs0, ?_, hm0⟩
                show dlookup q.1 (derase uid (dinsert uid cs' s.user_channels)) = some cs0
                rw [dlookup_derase_ne _ (fun e => hqu e.symm),
                    dlookup_dinsert_ne _ _ (fun e => hqu e.symm)]
                exact hl0
            · exact h7
            · intro p hp c hc hcne
              dsimp only at hp
              have hp2 := mem_derase_nodup (dkeysNodup_dinsert _ _ h1) hp
              rcases mem_dinsert h1 hp2.1 with hq2 | hq2
              · exact absurd (by rw [hq2]) hp2.2
              · exact h8 p hq2.1 c hc hcne
            · intro p hp hc
              dsimp only at hp
              have hp2 := mem_derase_nodup (dkeysNodup_dinsert _ _ h1) hp
              rcases mem_dinsert h1 hp2.1 with hq2 | hq2
              · exact absurd (by rw [hq2]) hp2.2
              · have h9' := h9 p hq2.1 hc
                simp [dkeys] at h9'
                rcases h9' with e | e
                · exact absurd e hq2.2
                · simpa [dkeys] using e
          · exact Except.noConfusion he
        · -- the set stays nonempty
          refine ih _ _ ?_ ?_ ?_ ?_ ?_ ?_ ?_ ?_ ?_ he
          · exact dkeysNodup_dinsert _ _ h1
          · exact h2
          · exact h3
          · intro p hp
            dsimp only at hp
            rcases mem_dinsert h1 hp with hq | hq
            · subst hq
              exact List.Nodup.sublist hsub (h4 _ hcs_mem)
            · exact h4 _ hq.1
          · exact h5
          · intro p hp q hq
            dsimp only at hp
            obtain ⟨cs0, hl0, hm0⟩ := h6 p hp q hq
            by_cases hqu : q.1 = uid
            · rw [hqu, hlu] at hl0
              injection hl0 with e0
              subst e0
              refine ⟨cs', ?_, ?_⟩
              · show dlookup q.1 (dinsert uid cs' s.user_channels) = some cs'
                rw [hqu]
                exact dlookup_dinsert_self _ _ _
              · exact (hmem_cs' p.1).mpr ⟨hm0, hcid_notin_cu p hp⟩
            · refine ⟨cs0, ?_, hm0⟩
              show dlookup q.1 (dinsert uid cs' s.user_channels) = some cs0
              rw [dlookup_dinsert_ne _ _ (fun e => hqu e.symm)]
              exact hl0
          · exact h7
          · intro p hp c hc hcne
            dsimp only at hp
            rcases mem_dinsert h1 hp with hq | hq
            · subst hq
              simp only [] at hc
              exact h8 _ hcs_mem c ((hmem_cs' c).mp hc).1 hcne
            · exact h8 p hq.1 c hc hcne
          · intro p hp hc
            dsimp only at hp
            rcases mem_dinsert h1 hp with hq | hq
            · subst hq
              simp only [] at hc
              exact absurd ((hmem_cs' cid).mp hc).2 (by simp)
            · have h9' := h9 p hq.1 hc
              simp [dkeys] at h9'
              rcases h9' with e | e
              · exact absurd e hq.2
              · simpa [dkeys] using e

/-- The common shape of the non-self PART/KICK update: one user's set
loses one channel (the entry possibly deleted when it empties), and that
channel's roster loses that user. -/
theorem wf_part_nonself {s t : Server} {uid cid : Nat} {cs cs' : List Nat}
    {roster : List (Nat × ChannelUser)} (h : WF s)
    (hluc : dlookup uid s.user_channels = some cs)
    (hsr : sremove cid cs = some cs')
    (hlr : dlookup cid s.channel_users = some roster)
    (htcu : t.channel_users = dinsert cid (derase uid roster) s.channel_users)
    (htnext : t.next_id = s.next_id)
    (hu2ne : ∀ k, k ≠ uid → dlookup k t.user_channels = dlookup k s.user_channels)
    (hu2mem : ∀ p ∈ t.user_channels, p = (uid, cs') ∨ (p ∈ s.user_channels ∧ p.1 ≠ uid))
    (hu2nodup : dkeysNodup t.user_channels)
    (huc_self : dlookup uid t.user_channels = some cs' ∨
      (dlookup uid t.user_channels = none ∧ cs' = [])) :
    WF t := by
  obtain ⟨nd_uc, nd_cu, nd_r, nd_s, fresh, inv1, inv2⟩ := h
  obtain ⟨hcid_cs, hmem_cs', hsub⟩ := sremove_eq_some hsr
  have hcs_mem : (uid, cs) ∈ s.user_channels := dlookup_mem hluc
  have hroster_mem : (cid, roster) ∈ s.channel_users := dlookup_mem hlr
  refine ⟨hu2nodup, ?_, ?_, ?_, ?_, ?_, ?_⟩
  · rw [htcu]; exact dkeysNodup_dinsert _ _ nd_cu
  · rw [htcu]
    intro p hp
    rcases mem_dinsert_weak hp with h1 | h1
    · subst h1; exact dkeysNodup_derase _ (nd_r _ hroster_mem)
    · exact nd_r _ h1
  · intro p hp
    rcases hu2mem p hp with h1 | h1
    · subst h1; exact List.Nodup.sublist hsub (nd_s _ hcs_mem)
    · exact nd_s _ h1.1
  · rw [htcu, htnext]
    intro p hp
    rcases mem_dinsert_weak hp with h1 | h1
    · subst h1; exact fresh (cid, roster) hroster_mem
    · exact fresh _ h1
  · rw [htcu]
    intro p hp q hq
    rcases mem_dinsert nd_cu hp with h1 | h1
    · subst h1
      dsimp only at hq ⊢
      have hq2 := mem_derase_nodup (nd_r _ hroster_mem) hq
      obtain ⟨cs0, hl0, hm0⟩ := inv1 _ hroster_mem _ hq2.1
      exact ⟨cs0, by rw [hu2ne _ hq2.2]; exact hl0, hm0⟩
    · obtain ⟨cs0, hl0, hm0⟩ := inv1 _ h1.1 _ hq
      by_cases hqu : q.1 = uid
      · rw [hqu, hluc] at hl0
        injection hl0 with e0
        subst e0
        have hin : p.1 ∈ cs' := (hmem_cs' p.1).mpr ⟨hm0, h1.2⟩
        rcases huc_self with h2 | h2
        · exact ⟨cs', by rw [hqu]; exact h2, hin⟩
        · rw [h2.2] at hin
          simp at hin
      · exact ⟨cs0, by rw [hu2ne _ hqu]; exact hl0, hm0⟩
  · intro p hp c hc
    rcases hu2mem p hp with h1 | h1
    · subst h1
      dsimp only at hc ⊢
      have hc2 := (hmem_cs' c).mp hc
      obtain ⟨r0, hl0, hdm0⟩ := inv2 _ hcs_mem _ hc2.1
      rw [htcu]
      exact ⟨r0, by rw [dlookup_dinsert_ne _ _ (fun e => hc2.2 e.symm)]; exact hl0, hdm0⟩
    · obtain ⟨r0, hl0, hdm0⟩ := inv2 _ h1.1 _ hc
      rw [htcu]
      by_cases hcc : c = cid
      · subst hcc
        rw [hlr] at hl0
        injection hl0 with e0
        subst e0
        refine ⟨_, dlookup_dinsert_self _ _ _, ?_⟩
        rw [dmem_derase_ne (fun e => h1.2 e.symm)]
        exact hdm0
      · exact ⟨r0, by rw [dlookup_dinsert_ne _ _ (fun e => hcc e.symm)]; exact hl0, hdm0⟩

theorem wf_part_routine {s : Server} {nickname channel_name : String}
    {s' : Server} (h : WF s)
    (he : part_routine s nickname channel_name = .ok s') : WF s' := by
  unfold part_routine at he
  try simp only [] at he
  split at he
  · injection he with h0; subst h0; exact h
  · rename_i cid hlc
    split at he
    · -- self part: channel deleted, members scrubbed by partLoop
      split at he
      · exact Except.noConfusion he
      · rename_i roster hlr
        obtain ⟨nd_uc, nd_cu, nd_r, nd_s, fresh, inv1, inv2⟩ := h
        have hlr' : dlookup cid s.channel_users = some roster := hlr
        refine wf_partLoop cid roster _ _ ?_ ?_ ?_ ?_ ?_ ?_ ?_ ?_ ?_ he
        · exact nd_uc
        · exact dkeysNodup_derase _ nd_cu
        · intro p hp
          dsimp only at hp
          exact nd_r _ (mem_derase hp)
        · exact nd_s
        · intro p hp
          dsimp only at hp
          exact fresh _ (mem_derase hp)
        · intro p hp q hq
          dsimp only at hp
          exact inv1 _ (mem_derase hp) _ hq
        · show dmem cid (derase cid s.channel_users) = false
          rw [dmem, dlookup_derase_self cid nd_cu]
          rfl
        · intro p hp c hc hcne
          obtain ⟨r0, hl0, hdm0⟩ := inv2 _ hp _ hc
          refine ⟨r0, ?_, hdm0⟩
          show dlookup c (derase cid s.channel_users) = some r0
          rw [dlookup_derase_ne _ (fun e => hcne e.symm)]
          exact hl0
        · intro p hp hc
          obtain ⟨r0, hl0, hdm0⟩ := inv2 _ hp _ hc
          rw [hlr'] at hl0
          injection hl0 with e0
          subst e0
          exact dmem_iff_mem_dkeys.mp hdm0
    · -- non-self part
      split at he
      · injection he with h0; subst h0; exact h
      · rename_i uid hlu
        split at he
        · exact Except.noConfusion he
        · rename_i cs hluc
          split at he
          · exact Except.noConfusion he
          · rename_i cs' hsr
            split at he
            · exact Except.noConfusion he
            · rename_i roster hlr
              split at he
              · injection he with h0
                subst h0
                -- the roster lookup was on s2, whose channel_users equal s's
                have hlr' : dlookup cid s.channel_users = some roster := by
                  revert hlr
                  split
                  · intro hx; exact hx
                  · intro hx; exact hx
                refine wf_part_nonself h hluc hsr hlr' ?_ ?_ ?_ ?_ ?_ ?_
                · show (_ : Server).channel_users = _
                  split
                  · rfl
                  · rfl
                · split
                  · rfl
                  · rfl
                · intro k hk
                  split
                  · show dlookup k (derase uid (dinsert uid cs' s.user_channels)) = _
                    rw [dlookup_derase_ne _ (fun e => hk e.symm),
                        dlookup_dinsert_ne _ _ (fun e => hk e.symm)]
                  · show dlookup k (dinsert uid cs' s.user_channels) = _
                    rw [dlookup_dinsert_ne _ _ (fun e => hk e.symm)]
                · intro p hp
                  revert hp
                  split
                  · intro hp
                    dsimp only at hp
                    have h1 := (h.1 : dkeysNodup s.user_channels)
                    have hp2 := mem_derase_nodup (dkeysNodup_dinsert _ _ h1) hp
                    rcases mem_dinsert h1 hp2.1 with hq | hq
                    · exact absurd (by rw [hq]) hp2.2
                    · exact Or.inr hq
                  · intro hp
                    dsimp only at hp
                    rcases mem_dinsert h.1 hp with hq | hq
                    · exact Or.inl hq
                    · exact Or.inr hq
                · split
                  · exact dkeysNodup_derase _ (dkeysNodup_dinsert _ _ h.1)
                  · exact dkeysNodup_dinsert _ _ h.1
                · split
                  · rename_i hnil
                    refine Or.inr ⟨?_, hnil⟩
                    show dlookup uid (derase uid (dinsert uid cs' s.user_channels)) = none
                    exact dlookup_derase_self _ (dkeysNodup_dinsert _ _ h.1)
                  · refine Or.inl ?_
                    show dlookup uid (dinsert uid cs' s.user_channels) = some cs'
                    exact dlookup_dinsert_self _ _ _
              · exact Except.noConfusion he

theorem wf_PART {s : Server} {l : Line} {s' : Server} (h : WF s)
    (he : handle_PART s l = .ok s') : WF s' := by
  unfold handle_PART at he
  split at he
  · exact Except.noConfusion he
  · exact wf_part_routine h he

theorem wf_KICK {s : Server} {l : Line} {s' : Server} (h : WF s)
    (he : handle_KICK s l = .ok s') : WF s' := by
  unfold handle_KICK at he
  split at he
  · exact Except.noConfusion he
  · split at he
    · exact Except.noConfusion he
    · exact wf_part_routine h he

/-! ## QUIT preservation -/

theorem wf_quitLoop (uid : Nat) :
    ∀ (cs : List Nat) (s s' : Server),
    dkeysNodup s.user_channels →
    dkeysNodup s.channel_users →
    (∀ p ∈ s.channel_users, dkeysNodup p.2) →
    (∀ p ∈ s.user_channels, p.2.Nodup) →
    (∀ p ∈ s.channel_users, p.1 < s.next_id) →
    (∀ p ∈ s.channel_users, ∀ q ∈ p.2, q.1 ≠ uid → ucHas s.user_channels q.1 p.1) →
    (∀ p ∈ s.channel_users, dmem uid p.2 = true → p.1 ∈ cs) →
    (∀ p ∈ s.user_channels, p.1 ≠ uid → ∀ c ∈ p.2, cuHas s.channel_users c p.1) →
    quitLoop s uid cs = .ok s' → WF s' := by
  intro cs
  induction cs with
  | nil =>
    intro s s' h1 h2 h3 h4 h5 h6 h7 h8 he
    unfold quitLoop at he
    injection he with h0
    subst h0
    refine ⟨dkeysNodup_derase _ h1, h2, h3, ?_, h5, ?_, ?_⟩
    · intro p hp
      exact h4 _ (mem_derase hp)
    · intro p hp q hq
      by_cases hqu : q.1 = uid
      · exact absurd (h7 p hp (by
          rw [← hqu]
          exact dmem_of_mem hq)) (by simp)
      · obtain ⟨cs0, hl0, hm0⟩ := h6 p hp q hq hqu
        exact ⟨cs0, by
          rw [dlookup_derase_ne _ (fun e => hqu e.symm)]; exact hl0, hm0⟩
    · intro p hp c hc
      have hp2 := mem_derase_nodup h1 hp
      exact h8 _ hp2.1 hp2.2 _ hc
  | cons cid rest ih =>
    intro s s' h1 h2 h3 h4 h5 h6 h7 h8 he
    unfold quitLoop at he
    split at he
    · exact Except.noConfusion he
    · rename_i roster hlr
      split at he
      · rename_i hdm
        have hroster_mem : (cid, roster) ∈ s.channel_users := dlookup_mem hlr
        refine ih _ _ ?_ ?_ ?_ ?_ ?_ ?_ ?_ ?_ he
        · exact h1
        · exact dkeysNodup_dinsert _ _ h2
        · intro p hp
          dsimp only at hp
          rcases mem_dinsert_weak hp with hq | hq
          · subst hq; exact dkeysNodup_derase _ (h3 _ hroster_mem)
          · exact h3 _ hq
        · exact h4
        · intro p hp
          dsimp only at hp
          rcases mem_dinsert_weak hp with hq | hq
          · subst hq; exact h5 (cid, roster) hroster_mem
          · exact h5 _ hq
        · intro p hp q hq hqu
          dsimp only at hp
          rcases mem_dinsert h2 hp with hq2 | hq2
          · subst hq2
            dsimp only at hq
            exact h6 _ hroster_mem _ (mem_derase hq) hqu
          · exact h6 _ hq2.1 _ hq hqu
        · intro p hp hdm2
          dsimp only at hp
          rcases mem_dinsert h2 hp with hq2 | hq2
          · exfalso
            rw [hq2] at hdm2
            dsimp only at hdm2
            rw [dmem, dlookup_derase_self _ (h3 _ hroster_mem)] at hdm2
            exact Bool.noConfusion hdm2
          · have := h7 _ hq2.1 hdm2
            simp at this
            rcases this with e | e
            · exact absurd e hq2.2
            · exact e
        · intro p hp hpu c hc
          obtain ⟨r0, hl0, hdm0⟩ := h8 _ hp hpu _ hc
          by_cases hcc : c = cid
          · subst hcc
            rw [hlr] at hl0
            injection hl0 with e0
            subst e0
            refine ⟨_, dlookup_dinsert_self _ _ _, ?_⟩
            rw [dmem_derase_ne (fun e => hpu e.symm)]
            exact hdm0
          · exact ⟨r0, by
              rw [dlookup_dinsert_ne _ _ (fun e => hcc e.symm)]; exact hl0, hdm0⟩
      · exact Except.noConfusion he

theorem wf_QUIT {s : Server} {l : Line} {s' : Server} (h : WF s)
    (he : handle_QUIT s l = .ok s') : WF s' := by
  unfold handle_QUIT at he
  try simp only [] at he
  split at he
  · injection he with h0; subst h0; exact WF_selfQuit s
  · split at he
    · injection he with h0; subst h0; exact h
    · rename_i uid hlu
      split at he
      · exact Except.noConfusion he
      · rename_i cs hluc
        obtain ⟨nd_uc, nd_cu, nd_r, nd_s, fresh, inv1, inv2⟩ := h
        have hluc' : dlookup uid s.user_channels = some cs := hluc
        refine wf_quitLoop uid cs _ _ ?_ ?_ ?_ ?_ ?_ ?_ ?_ ?_ he
        · exact nd_uc
        · exact nd_cu
        · exact nd_r
        · exact nd_s
        · exact fresh
        · intro p hp q hq _
          exact inv1 _ hp _ hq
        · intro p hp hdm2
          cases hv : dlookup uid p.2 with
          | none => rw [dmem, hv] at hdm2; exact Bool.noConfusion hdm2
          | some v =>
            obtain ⟨cs0, hl0, hm0⟩ := inv1 _ hp _ (dlookup_mem hv)
            rw [hluc'] at hl0
            injection hl0 with e0
            subst e0
            exact hm0
        · intro p hp _ c hc
          exact inv2 _ hp _ hc

/-! ## Step-level and trace-level preservation -/

theorem wf_375chain {s : Server} {l : Line} {s' : Server} (h : WF s)
    (he : (match handle_375 s l with
           | .ok s1 => handle_372 s1 l
           | .error e => .error e) = .ok s') : WF s' := by
  split at he
  · rename_i s1 heq
    exact wf_372 (wf_375 h heq) he
  · exact Except.noConfusion he

theorem WF_step {s : Server} {l : Line} {s' : Server} (h : WF s)
    (he : step s l = .ok s') : WF s' := by
  unfold step at he
  by_cases hc1 : l.command = "001"
  · rw [if_pos hc1] at he; exact wf_001 h he
  rw [if_neg hc1] at he
  by_cases hc2 : l.command = "005"
  · rw [if_pos hc2] at he; exact wf_005 h he
  rw [if_neg hc2] at he
  by_cases hc3 : l.command = "375"
  · rw [if_pos hc3] at he; exact wf_375chain h he
  rw [if_neg hc3] at he
  by_cases hc4 : l.command = "372"
  · rw [if_pos hc4] at he; exact wf_372 h he
  rw [if_neg hc4] at he
  by_cases hc5 : l.command = "NICK"
  · rw [if_pos hc5] at he; exact wf_NICK h he
  rw [if_neg hc5] at he
  by_cases hc6 : l.command = "JOIN"
  · rw [if_pos hc6] at he; exact wf_JOIN h he
  rw [if_neg hc6] at he
  by_cases hc7 : l.command = "PART"
  · rw [if_pos hc7] at he; exact wf_PART h he
  rw [if_neg hc7] at he
  by_cases hc8 : l.command = "KICK"
  · rw [if_pos hc8] at he; exact wf_KICK h he
  rw [if_neg hc8] at he
  by_cases hc9 : l.command = "QUIT"
  · rw [if_pos hc9] at he; exact wf_QUIT h he
  rw [if_neg hc9] at he
  by_cases hc10 : l.command = "ERROR"
  · rw [if_pos hc10] at he; exact wf_ERROR he
  rw [if_neg hc10] at he
  by_cases hc11 : l.command = "353"
  · rw [if_pos hc11] at he; exact wf_353 h he
  rw [if_neg hc11] at he
  by_cases hc12 : l.command = "329"
  · rw [if_pos hc12] at he; exact wf_329 h he
  rw [if_neg hc12] at he
  by_cases hc13 : l.command = "TOPIC"
  · rw [if_pos hc13] at he; exact wf_TOPIC h he
  rw [if_neg hc13] at he
  by_cases hc14 : l.command = "332"
  · rw [if_pos hc14] at he; exact wf_332 h he
  rw [if_neg hc14] at he
  by_cases hc15 : l.command = "333"
  · rw [if_pos hc15] at he; exact wf_333 h he
  rw [if_neg hc15] at he
  by_cases hc16 : l.command = "MODE"
  · rw [if_pos hc16] at he; exact wf_MODE h he
  rw [if_neg hc16] at he
  by_cases hc17 : l.command = "324"
  · rw [if_pos hc17] at he; exact wf_324 h he
  rw [if_neg hc17] at he
  by_cases hc18 : l.command = "211"
  · rw [if_pos hc18] at he; exact wf_211 h he
  rw [if_neg hc18] at he
  by_cases hc19 : l.command = "PRIVMSG"
  · rw [if_pos hc19] at he; exact wf_PRIVMSG h he
  rw [if_neg hc19] at he
  by_cases hc20 : l.command = "NOTICE"
  · rw [if_pos hc20] at he; exact wf_PRIVMSG h he
  rw [if_neg hc20] at he
  by_cases hc21 : l.command = "TAGMSG"
  · rw [if_pos hc21] at he; exact wf_PRIVMSG h he
  rw [if_neg hc21] at he
  by_cases hc22 : l.command = "396"
  · rw [if_pos hc22] at he; exact wf_396 h he
  rw [if_neg hc22] at he
  by_cases hc23 : l.command = "352"
  · rw [if_pos hc23] at he; exact wf_352 h he
  rw [if_neg hc23] at he
  by_cases hc24 : l.command = "311"
  · rw [if_pos hc24] at he; exact wf_311 h he
  rw [if_neg hc24] at he
  by_cases hc25 : l.command = "CHGHOST"
  · rw [if_pos hc25] at he; exact wf_CHGHOST h he
  rw [if_neg hc25] at he
  by_cases hc26 : l.command = "SETNAME"
  · rw [if_pos hc26] at he; exact wf_SETNAME h he
  rw [if_neg hc26] at he
  by_cases hc27 : l.command = "AWAY"
  · rw [if_pos hc27] at he; exact wf_AWAY h he
  rw [if_neg hc27] at he
  by_cases hc28 : l.command = "ACCOUNT"
  · rw [if_pos hc28] at he; exact wf_ACCOUNT h he
  rw [if_neg hc28] at he
  by_cases hc29 : l.command = "CAP"
  · rw [if_pos hc29] at he; exact wf_CAP h he
  rw [if_neg hc29] at he
  injection he with h0; subst h0; exact h

theorem WF_stepsOk : ∀ (lines : List Line) (s s' : Server),
    WF s → stepsOk s lines = some s' → WF s' := by
  intro lines
  induction lines with
  | nil =>
    intro s s' h he
    unfold stepsOk at he
    injection he with h0; subst h0; exact h
  | cons l rest ih =>
    intro s s' h he
    unfold stepsOk at he
    split at he
    · rename_i s1 heq
      exact ih _ _ (WF_step h heq) he
    · exact Option.noConfusion he

/-! ## Claim C1 -/

/-- C1: for every sequence of well-formed server lines (one the session
handles to completion), after each handled line the two membership
indices are mutual inverses — every roster member of a channel has that
channel in its `user_channels` set, and every channel in a user's set has
that user on its `channel_users` roster (so the roster key set equals
exactly the set of members whose set holds the channel). -/
theorem c1_indices_mutual_inverse (lines : List Line) (s' : Server)
    (h : stepsOk initServer lines = some s') : Inv1 s' :=
  (WF_stepsOk lines initServer s' WF_init h).2.2.2.2.2

/-- A concrete line for witnesses. -/
def c1Line : Line :=
  { command := "001", params := ["me", "x"], source := { nickname := "srv" } }

theorem c1_indices_mutual_inverse_witness :
    Inv1 ((stepsOk initServer [c1Line]).getD initServer) :=
  c1_indices_mutual_inverse [c1Line] _ rfl

/-! ## Claim C2: `agreed_caps` vs `caps` -/

/-- The spec's invariant 4: whenever `caps` is set, every agreed
capability is among its keys. -/
def agreedSubset (s : Server) : Prop :=
  ∀ m, s.caps = some m → ∀ k ∈ s.agreed_caps, dmem k m = true

/-- The invariant strengthened with the (automatically maintained)
duplicate-freedom of `agreed_caps`. -/
def AgreedCapsInv (s : Server) : Prop := agreedSubset s ∧ s.agreed_caps.Nodup

/-- A terminal (non-continuation) `CAP LS`, the one line shape that
replaces `caps` wholesale. -/
def isTerminalCapLS (l : Line) : Bool :=
  l.command = "CAP" &&
  (match l.params.get? 1 with | some p1 => upStr p1 = "LS" | none => false) &&
  (match l.params.get? 2 with | some p2 => p2 ≠ "*" | none => false)

theorem dmem_dinsert_mono {α β : Type} [DecidableEq α] {k k' : α} (v : β)
    {d : List (α × β)} (h : dmem k d = true) : dmem k (dinsert k' v d) = true := by
  by_cases hk : k' = k
  · subst hk; exact dmem_dinsert_self _ _ _
  · rw [dmem_dinsert_ne _ _ hk]; exact h

theorem dmem_dupdate_mono {α β : Type} [DecidableEq α] {k : α}
    (d2 : List (α × β)) {d : List (α × β)} (h : dmem k d = true) :
    dmem k (dupdate d d2) = true := by
  induction d2 generalizing d with
  | nil => exact h
  | cons p rest ih =>
    unfold dupdate at ih ⊢
    exact ih (dmem_dinsert_mono _ h)

theorem capDelLoop_inv (ks : List String) :
    ∀ (caps : List (String × Option String)) (agreed : List String),
    (∀ k ∈ agreed, dmem k caps = true) → agreed.Nodup →
    (∀ k ∈ (capDelLoop caps agreed ks).2,
      dmem k (capDelLoop caps agreed ks).1 = true) ∧
    (capDelLoop caps agreed ks).2.Nodup := by
  induction ks with
  | nil =>
    intro caps agreed hsub hnd
    exact ⟨hsub, hnd⟩
  | cons t rest ih =>
    intro caps agreed hsub hnd
    unfold capDelLoop
    split
    · cases hb : bmem t agreed with
      | true =>
        simp only [hb, if_true, reduceCtorEq, ite_true]
        refine ih _ _ ?_ (removeFirst_nodup t hnd)
        intro k hk
        have hk2 : k ∈ agreed := mem_removeFirst hk
        have hkt : k ≠ t := by
          intro e
          subst e
          exact not_mem_removeFirst_nodup hnd hk
        rw [dmem_derase_ne (fun e => hkt e.symm)]
        exact hsub _ hk2
      | false =>
        simp only [hb, Bool.false_eq_true, if_false, ite_false]
        refine ih _ _ ?_ hnd
        intro k hk
        have hkt : k ≠ t := by
          intro e
          subst e
          rw [← bmem_iff] at hk
          rw [hk] at hb
          exact Bool.noConfusion hb
        rw [dmem_derase_ne (fun e => hkt e.symm)]
        exact hsub _ hk
    · exact ih _ _ hsub hnd

theorem capAckLoop_inv (ks : List String) :
    ∀ (caps : Option (List (String × Option String))) (agreed : List String),
    (∀ k ∈ agreed, ∀ m, caps = some m → dmem k m = true) → agreed.Nodup →
    (∀ k ∈ capAckLoop caps agreed ks, ∀ m, caps = some m → dmem k m = true) ∧
    (capAckLoop caps agreed ks).Nodup := by
  induction ks with
  | nil =>
    intro caps agreed hsub hnd
    exact ⟨hsub, hnd⟩
  | cons t rest ih =>
    intro caps agreed hsub hnd
    unfold capAckLoop
    split
    · by_cases hb : bmem (String.mk (t.data.drop 1)) agreed = true
      · simp only [hb, if_true]
        refine ih _ _ ?_ (removeFirst_nodup _ hnd)
        intro k hk m hm
        exact hsub _ (mem_removeFirst hk) m hm
      · simp only [hb, if_false]
        exact ih _ _ hsub hnd
    · split
      · rename_i hcond
        have hc := hcond
        simp only [Bool.and_eq_true, Bool.not_eq_true'] at hc
        obtain ⟨⟨hnb, _⟩, hdm⟩ := hc
        refine ih _ _ ?_ ?_
        · intro k hk m hm
          rcases List.mem_append.mp hk with hk2 | hk2
          · exact hsub _ hk2 m hm
          · simp at hk2
            subst hk2
            rw [hm] at hdm
            exact hdm
        · refine List.Nodup.append hnd (List.nodup_singleton t) ?_
          intro x hx he2
          simp at he2
          subst he2
          rw [← bmem_iff] at hx
          rw [hx] at hnb
          exact Bool.noConfusion hnb
      · exact ih _ _ hsub hnd

/-! ## Frame: no handler except CAP touches `caps`/`agreed_caps` -/

theorem addMembModes_capsframe (s : Server) (cid uid : Nat) (ms : List Char) :
    (addMembModes s cid uid ms).caps = s.caps ∧
    (addMembModes s cid uid ms).agreed_caps = s.agreed_caps := by
  unfold addMembModes
  repeat' first
    | exact ⟨rfl, rfl⟩
    | split

theorem capframe_user_join {s : Server} {cid uid : Nat} {s' : Server}
    (he : s.user_join cid uid = .ok s') :
    s'.caps = s.caps ∧ s'.agreed_caps = s.agreed_caps := by
  unfold Server.user_join at he
  try simp only [] at he
  repeat' first
    | exact Except.noConfusion he
    | (injection he with h2; subst h2; exact ⟨rfl, rfl⟩)
    | split at he

theorem capframe_partLoop (cid : Nat) :
    ∀ (roster : List (Nat × ChannelUser)) (s s' : Server),
    partLoop s cid roster = .ok s' →
    s'.caps = s.caps ∧ s'.agreed_caps = s.agreed_caps := by
  intro roster
  induction roster with
  | nil =>
    intro s s' he
    unfold partLoop at he
    injection he with h0; subst h0; exact ⟨rfl, rfl⟩
  | cons hd rest ih =>
    intro s s' he
    obtain ⟨uid, cu0⟩ := hd
    unfold partLoop at he
    try simp only [] at he
    repeat' first
      | exact Except.noConfusion he
      | (have hr := ih _ _ he; try dsimp only at hr
         exact hr)
      | split at he

theorem capframe_quitLoop (uid : Nat) :
    ∀ (cs : List Nat) (s s' : Server),
    quitLoop s uid cs = .ok s' →
    s'.caps = s.caps ∧ s'.agreed_caps = s.agreed_caps := by
  intro cs
  induction cs with
  | nil =>
    intro s s' he
    unfold quitLoop at he
    injection he with h0; subst h0; exact ⟨rfl, rfl⟩
  | cons cid rest ih =>
    intro s s' he
    unfold quitLoop at he
    repeat' first
      | exact Except.noConfusion he
      | (have hr := ih _ _ he; try dsimp only at hr
         exact hr)
      | split at he

theorem capframe_namesEntry {s : Server} {cid : Nat} {entry : String}
    {s' : Server} (he : namesEntry s cid entry = .ok s') :
    s'.caps = s.caps ∧ s'.agreed_caps = s.agreed_caps := by
  unfold namesEntry at he
  try simp only [] at he
  split at he
  · exact Except.noConfusion he
  · split at he
    · exact Except.noConfusion he
    · rename_i s2 heq2
      injection he with h2
      subst h2
      obtain ⟨e1, e2⟩ := capframe_user_join heq2
      constructor
      · refine ((addMembModes_capsframe _ _ _ _).1).trans ?_
        refine Eq.trans ?_ (e1.trans ?_)
        · repeat' first | split | rfl
        · unfold Server.ensureUser Server.add_user
          repeat' first | split | rfl
      · refine ((addMembModes_capsframe _ _ _ _).2).trans ?_
        refine Eq.trans ?_ (e2.trans ?_)
        · repeat' first | split | rfl
        · unfold Server.ensureUser Server.add_user
          repeat' first | split | rfl

theorem capframe_namesLoop (cid : Nat) :
    ∀ (entries : List String) (s s' : Server),
    namesLoop s cid entries = .ok s' →
    s'.caps = s.caps ∧ s'.agreed_caps = s.agreed_caps := by
  intro entries
  induction entries with
  | nil =>
    intro s s' he
    unfold namesLoop at he
    injection he with h0; subst h0; exact ⟨rfl, rfl⟩
  | cons e rest ih =>
    intro s s' he
    unfold namesLoop at he
    split at he
    · exact Except.noConfusion he
    · rename_i s1 heq
      obtain ⟨e1, e2⟩ := capframe_namesEntry heq
      obtain ⟨f1, f2⟩ := ih _ _ he
      exact ⟨f1.trans e1, f2.trans e2⟩

theorem capframe_channelModes (cid : Nat) :
    ∀ (modes : List (Bool × Char)) (ps : List String) (s : Server)
      (r : Server × List String),
    channelModes s cid modes ps = .ok r →
    r.1.caps = s.caps ∧ r.1.agreed_caps = s.agreed_caps := by
  intro modes
  induction modes with
  | nil =>
    intro ps s r he
    unfold channelModes at he
    injection he with h0; subst h0; exact ⟨rfl, rfl⟩
  | cons m rest ih =>
    intro ps s r he
    obtain ⟨add, ch⟩ := m
    unfold channelModes at he
    try simp only [] at he
    repeat' first
      | exact Except.noConfusion he
      | (have hr := ih _ _ _ he; try dsimp only at hr
         exact hr)
      | split at he

theorem capframe_part_routine {s : Server} {nickname channel_name : String}
    {s' : Server} (he : part_routine s nickname channel_name = .ok s') :
    s'.caps = s.caps ∧ s'.agreed_caps = s.agreed_caps := by
  unfold part_routine at he
  try simp only [] at he
  repeat' first
    | exact Except.noConfusion he
    | (injection he with h2; subst h2; exact ⟨rfl, rfl⟩)
    | (injection he with h2; subst h2
       constructor <;> (repeat' first | split | rfl))
    | (have hr := capframe_partLoop _ _ _ _ he; try dsimp only at hr
       exact hr)
    | split at he

theorem capsframe_001 {s : Server} {l : Line} {s' : Server}
    (he : handle_001 s l = .ok s') :
    s'.caps = s.caps ∧ s'.agreed_caps = s.agreed_caps := by
  unfold handle_001 at he
  try simp only [] at he
  repeat' first
    | exact Except.noConfusion he
    | (injection he with h2; subst h2; exact ⟨rfl, rfl⟩)
    | (injection he with h2; subst h2
       have hr := capframe_channelModes _ _ _ _ _ (by assumption)
       try dsimp only at hr
       exact hr)
    | (injection he with h2; subst h2
       exact ⟨by repeat' first | split | rfl, by repeat' first | split | rfl⟩)
    | exact capframe_namesLoop _ _ _ _ he
    | exact capframe_part_routine he
    | (have hr := capframe_quitLoop _ _ _ _ he; try dsimp only at hr
       exact hr)
    | split at he

theorem capsframe_005 {s : Server} {l : Line} {s' : Server}
    (he : handle_005 s l = .ok s') :
    s'.caps = s.caps ∧ s'.agreed_caps = s.agreed_caps := by
  unfold handle_005 at he
  try simp only [] at he
  repeat' first
    | exact Except.noConfusion he
    | (injection he with h2; subst h2; exact ⟨rfl, rfl⟩)
    | (injection he with h2; subst h2
       have hr := capframe_channelModes _ _ _ _ _ (by assumption)
       try dsimp only at hr
       exact hr)
    | (injection he with h2; subst h2
       exact ⟨by repeat' first | split | rfl, by repeat' first | split | rfl⟩)
    | exact capframe_namesLoop _ _ _ _ he
    | exact capframe_part_routine he
    | (have hr := capframe_quitLoop _ _ _ _ he; try dsimp only at hr
       exact hr)
    | split at he

theorem capsframe_375 {s : Server} {l : Line} {s' : Server}
    (he : handle_375 s l = .ok s') :
    s'.caps = s.caps ∧ s'.agreed_caps = s.agreed_caps := by
  unfold handle_375 at he
  try simp only [] at he
  repeat' first
    | exact Except.noConfusion he
    | (injection he with h2; subst h2; exact ⟨rfl, rfl⟩)
    | (injection he with h2; subst h2
       have hr := capframe_channelModes _ _ _ _ _ (by assumption)
       try dsimp only at hr
       exact hr)
    | (injection he with h2; subst h2
       exact ⟨by repeat' first | split | rfl, by repeat' first | split | rfl⟩)
    | exact capframe_namesLoop _ _ _ _ he
    | exact capframe_part_routine he
    | (have hr := capframe_quitLoop _ _ _ _ he; try dsimp only at hr
       exact hr)
    | split at he

theorem capsframe_372 {s : Server} {l : Line} {s' : Server}
    (he : handle_372 s l = .ok s') :
    s'.caps = s.caps ∧ s'.agreed_caps = s.agreed_caps := by
  unfold handle_372 at he
  try simp only [] at he
  repeat' first
    | exact Except.noConfusion he
    | (injection he with h2; subst h2; exact ⟨rfl, rfl⟩)
    | (injection he with h2; subst h2
       have hr := capframe_channelModes _ _ _ _ _ (by assumption)
       try dsimp only at hr
       exact hr)
    | (injection he with h2; subst h2
       exact ⟨by repeat' first | split | rfl, by repeat' first | split | rfl⟩)
    | exact capframe_namesLoop _ _ _ _ he
    | exact capframe_part_routine he
    | (have hr := capframe_quitLoop _ _ _ _ he; try dsimp only at hr
       exact hr)
    | split at he

theorem capsframe_NICK {s : Server} {l : Line} {s' : Server}
    (he : handle_NICK s l = .ok s') :
    s'.caps = s.caps ∧ s'.agreed_caps = s.agreed_caps := by
  unfold handle_NICK at he
  try simp only [] at he
  repeat' first
    | exact Except.noConfusion he
    | (injection he with h2; subst h2; exact ⟨rfl, rfl⟩)
    | (injection he with h2; subst h2
       have hr := capframe_channelModes _ _ _ _ _ (by assumption)
       try dsimp only at hr
       exact hr)
    | (injection he with h2; subst h2
       exact ⟨by repeat' first | split | rfl, by repeat' first | split | rfl⟩)
    | exact capframe_namesLoop _ _ _ _ he
    | exact capframe_part_routine he
    | (have hr := capframe_quitLoop _ _ _ _ he; try dsimp only at hr
       exact hr)
    | split at he

theorem capsframe_JOIN {s : Server} {l : Line} {s' : Server}
    (he : handle_JOIN s l = .ok s') :
    s'.caps = s.caps ∧ s'.agreed_caps = s.agreed_caps := by
  unfold handle_JOIN at he
  try simp only [] at he
  split at he
  · exact Except.noConfusion he
  · rename_i p0 _
    have hf1 : ∀ t : Server,
        t = (if s.casefold l.source.nickname = s.nickname_lower then
          joinSelfLearn (if dmem (s.casefold p0) s.channels then s
                         else s.createChannel (s.casefold p0) p0)
            l (l.params.length = 3)
            (if l.params.length = 3 then some (stripChars '*' (l.params.getD 1 "")) else none)
            (if l.params.length = 3 then l.params.get? 2 else none)
        else s) →
        t.caps = s.caps ∧ t.agreed_caps = s.agreed_caps := by
      intro t ht
      subst ht
      unfold joinSelfLearn Server.createChannel
      exact ⟨by repeat' first | split | rfl, by repeat' first | split | rfl⟩
    have hensure : ∀ u : Server,
        (u.ensureUser l.source.nickname (s.casefold l.source.nickname)).caps = u.caps ∧
        (u.ensureUser l.source.nickname (s.casefold l.source.nickname)).agreed_caps =
          u.agreed_caps := by
      intro u
      unfold Server.ensureUser Server.add_user
      exact ⟨by repeat' first | split | rfl, by repeat' first | split | rfl⟩
    have hf2 : ∀ t : Server,
        t = ((if s.casefold l.source.nickname = s.nickname_lower then
          joinSelfLearn (if dmem (s.casefold p0) s.channels then s
                         else s.createChannel (s.casefold p0) p0)
            l (l.params.length = 3)
            (if l.params.length = 3 then some (stripChars '*' (l.params.getD 1 "")) else none)
            (if l.params.length = 3 then l.params.get? 2 else none)
        else s).ensureUser l.source.nickname (s.casefold l.source.nickname)) →
        t.caps = s.caps ∧ t.agreed_caps = s.agreed_caps := by
      intro t ht
      subst ht
      exact ⟨(hensure _).1.trans (hf1 _ rfl).1, (hensure _).2.trans (hf1 _ rfl).2⟩
    split at he
    · injection he with h2; subst h2
      exact hf1 _ rfl
    · split at he
      · injection he with h2; subst h2
        exact hf2 _ rfl
      · obtain ⟨e1, e2⟩ := capframe_user_join he
        have h3 := hf2 _ rfl
        exact ⟨e1.trans h3.1, e2.trans h3.2⟩

theorem capsframe_PART {s : Server} {l : Line} {s' : Server}
    (he : handle_PART s l = .ok s') :
    s'.caps = s.caps ∧ s'.agreed_caps = s.agreed_caps := by
  unfold handle_PART at he
  try simp only [] at he
  repeat' first
    | exact Except.noConfusion he
    | (injection he with h2; subst h2; exact ⟨rfl, rfl⟩)
    | (injection he with h2; subst h2
       have hr := capframe_channelModes _ _ _ _ _ (by assumption)
       try dsimp only at hr
       exact hr)
    | (injection he with h2; subst h2
       exact ⟨by repeat' first | split | rfl, by repeat' first | split | rfl⟩)
    | exact capframe_namesLoop _ _ _ _ he
    | exact capframe_part_routine he
    | (have hr := capframe_quitLoop _ _ _ _ he; try dsimp only at hr
       exact hr)
    | split at he

theorem capsframe_KICK {s : Server} {l : Line} {s' : Server}
    (he : handle_KICK s l = .ok s') :
    s'.caps = s.caps ∧ s'.agreed_caps = s.agreed_caps := by
  unfold handle_KICK at he
  try simp only [] at he
  repeat' first
    | exact Except.noConfusion he
    | (injection he with h2; subst h2; exact ⟨rfl, rfl⟩)
    | (injection he with h2; subst h2
       have hr := capframe_channelModes _ _ _ _ _ (by assumption)
       try dsimp only at hr
       exact hr)
    | (injection he with h2; subst h2
       exact ⟨by repeat' first | split | rfl, by repeat' first | split | rfl⟩)
    | exact capframe_namesLoop _ _ _ _ he
    | exact capframe_part_routine he
    | (have hr := capframe_quitLoop _ _ _ _ he; try dsimp only at hr
       exact hr)
    | split at he

theorem capsframe_QUIT {s : Server} {l : Line} {s' : Server}
    (he : handle_QUIT s l = .ok s') :
    s'.caps = s.caps ∧ s'.agreed_caps = s.agreed_caps := by
  unfold handle_QUIT at he
  try simp only [] at he
  repeat' first
    | exact Except.noConfusion he
    | (injection he with h2; subst h2; exact ⟨rfl, rfl⟩)
    | (injection he with h2; subst h2
       have hr := capframe_channelModes _ _ _ _ _ (by assumption)
       try dsimp only at hr
       exact hr)
    | (injection he with h2; subst h2
       exact ⟨by repeat' first | split | rfl, by repeat' first | split | rfl⟩)
    | exact capframe_namesLoop _ _ _ _ he
    | exact capframe_part_routine he
    | (have hr := capframe_quitLoop _ _ _ _ he; try dsimp only at hr
       exact hr)
    | split at he

theorem capsframe_ERROR {s : Server} {l : Line} {s' : Server}
    (he : handle_ERROR s l = .ok s') :
    s'.caps = s.caps ∧ s'.agreed_caps = s.agreed_caps := by
  unfold handle_ERROR at he
  try simp only [] at he
  repeat' first
    | exact Except.noConfusion he
    | (injection he with h2; subst h2; exact ⟨rfl, rfl⟩)
    | (injection he with h2; subst h2
       have hr := capframe_channelModes _ _ _ _ _ (by assumption)
       try dsimp only at hr
       exact hr)
    | (injection he with h2; subst h2
       exact ⟨by repeat' first | split | rfl, by repeat' first | split | rfl⟩)
    | exact capframe_namesLoop _ _ _ _ he
    | exact capframe_part_routine he
    | (have hr := capframe_quitLoop _ _ _ _ he; try dsimp only at hr
       exact hr)
    | split at he

theorem capsframe_353 {s : Server} {l : Line} {s' : Server}
    (he : handle_353 s l = .ok s') :
    s'.caps = s.caps ∧ s'.agreed_caps = s.agreed_caps := by
  unfold handle_353 at he
  try simp only [] at he
  repeat' first
    | exact Except.noConfusion he
    | (injection he with h2; subst h2; exact ⟨rfl, rfl⟩)
    | (injection he with h2; subst h2
       have hr := capframe_channelModes _ _ _ _ _ (by assumption)
       try dsimp only at hr
       exact hr)
    | (injection he with h2; subst h2
       exact ⟨by repeat' first | split | rfl, by repeat' first | split | rfl⟩)
    | exact capframe_namesLoop _ _ _ _ he
    | exact capframe_part_routine he
    | (have hr := capframe_quitLoop _ _ _ _ he; try dsimp only at hr
       exact hr)
    | split at he

theorem capsframe_329 {s : Server} {l : Line} {s' : Server}
    (he : handle_329 s l = .ok s') :
    s'.caps = s.caps ∧ s'.agreed_caps = s.agreed_caps := by
  unfold handle_329 at he
  try simp only [] at he
  repeat' first
    | exact Except.noConfusion he
    | (injection he with h2; subst h2; exact ⟨rfl, rfl⟩)
    | (injection he with h2; subst h2
       have hr := capframe_channelModes _ _ _ _ _ (by assumption)
       try dsimp only at hr
       exact hr)
    | (injection he with h2; subst h2
       exact ⟨by repeat' first | split | rfl, by repeat' first | split | rfl⟩)
    | exact capframe_namesLoop _ _ _ _ he
    | exact capframe_part_routine he
    | (have hr := capframe_quitLoop _ _ _ _ he; try dsimp only at hr
       exact hr)
    | split at he

theorem capsframe_TOPIC {s : Server} {l : Line} {s' : Server}
    (he : handle_TOPIC s l = .ok s') :
    s'.caps = s.caps ∧ s'.agreed_caps = s.agreed_caps := by
  unfold handle_TOPIC at he
  try simp only [] at he
  repeat' first
    | exact Except.noConfusion he
    | (injection he with h2; subst h2; exact ⟨rfl, rfl⟩)
    | (injection he with h2; subst h2
       have hr := capframe_channelModes _ _ _ _ _ (by assumption)
       try dsimp only at hr
       exact hr)
    | (injection he with h2; subst h2
       exact ⟨by repeat' first | split | rfl, by repeat' first | split | rfl⟩)
    | exact capframe_namesLoop _ _ _ _ he
    | exact capframe_part_routine he
    | (have hr := capframe_quitLoop _ _ _ _ he; try dsimp only at hr
       exact hr)
    | split at he

theorem capsframe_332 {s : Server} {l : Line} {s' : Server}
    (he : handle_332 s l = .ok s') :
    s'.caps = s.caps ∧ s'.agreed_caps = s.agreed_caps := by
  unfold handle_332 at he
  try simp only [] at he
  repeat' first
    | exact Except.noConfusion he
    | (injection he with h2; subst h2; exact ⟨rfl, rfl⟩)
    | (injection he with h2; subst h2
       have hr := capframe_channelModes _ _ _ _ _ (by assumption)
       try dsimp only at hr
       exact hr)
    | (injection he with h2; subst h2
       exact ⟨by repeat' first | split | rfl, by repeat' first | split | rfl⟩)
    | exact capframe_namesLoop _ _ _ _ he
    | exact capframe_part_routine he
    | (have hr := capframe_quitLoop _ _ _ _ he; try dsimp only at hr
       exact hr)
    | split at he

theorem capsframe_333 {s : Server} {l : Line} {s' : Server}
    (he : handle_333 s l = .ok s') :
    s'.caps = s.caps ∧ s'.agreed_caps = s.agreed_caps := by
  unfold handle_333 at he
  try simp only [] at he
  repeat' first
    | exact Except.noConfusion he
    | (injection he with h2; subst h2; exact ⟨rfl, rfl⟩)
    | (injection he with h2; subst h2
       have hr := capframe_channelModes _ _ _ _ _ (by assumption)
       try dsimp only at hr
       exact hr)
    | (injection he with h2; subst h2
       exact ⟨by repeat' first | split | rfl, by repeat' first | split | rfl⟩)
    | exact capframe_namesLoop _ _ _ _ he
    | exact capframe_part_routine he
    | (have hr := capframe_quitLoop _ _ _ _ he; try dsimp only at hr
       exact hr)
    | split at he

theorem capsframe_MODE {s : Server} {l : Line} {s' : Server}
    (he : handle_MODE s l = .ok s') :
    s'.caps = s.caps ∧ s'.agreed_caps = s.agreed_caps := by
  unfold handle_MODE at he
  try simp only [] at he
  repeat' first
    | exact Except.noConfusion he
    | (injection he with h2; subst h2; exact ⟨rfl, rfl⟩)
    | (injection he with h2; subst h2
       have hr := capframe_channelModes _ _ _ _ _ (by assumption)
       try dsimp only at hr
       exact hr)
    | (injection he with h2; subst h2
       exact ⟨by repeat' first | split | rfl, by repeat' first | split | rfl⟩)
    | exact capframe_namesLoop _ _ _ _ he
    | exact capframe_part_routine he
    | (have hr := capframe_quitLoop _ _ _ _ he; try dsimp only at hr
       exact hr)
    | split at he

theorem capsframe_324 {s : Server} {l : Line} {s' : Server}
    (he : handle_324 s l = .ok s') :
    s'.caps = s.caps ∧ s'.agreed_caps = s.agreed_caps := by
  unfold handle_324 at he
  try simp only [] at he
  repeat' first
    | exact Except.noConfusion he
    | (injection he with h2; subst h2; exact ⟨rfl, rfl⟩)
    | (injection he with h2; subst h2
       have hr := capframe_channelModes _ _ _ _ _ (by assumption)
       try dsimp only at hr
       exact hr)
    | (injection he with h2; subst h2
       exact ⟨by repeat' first | split | rfl, by repeat' first | split | rfl⟩)
    | exact capframe_namesLoop _ _ _ _ he
    | exact capframe_part_routine he
    | (have hr := capframe_quitLoop _ _ _ _ he; try dsimp only at hr
       exact hr)
    | split at he

theorem capsframe_211 {s : Server} {l : Line} {s' : Server}
    (he : handle_211 s l = .ok s') :
    s'.caps = s.caps ∧ s'.agreed_caps = s.agreed_caps := by
  unfold handle_211 at he
  try simp only [] at he
  repeat' first
    | exact Except.noConfusion he
    | (injection he with h2; subst h2; exact ⟨rfl, rfl⟩)
    | (injection he with h2; subst h2
       have hr := capframe_channelModes _ _ _ _ _ (by assumption)
       try dsimp only at hr
       exact hr)
    | (injection he with h2; subst h2
       exact ⟨by repeat' first | split | rfl, by repeat' first | split | rfl⟩)
    | exact capframe_namesLoop _ _ _ _ he
    | exact capframe_part_routine he
    | (have hr := capframe_quitLoop _ _ _ _ he; try dsimp only at hr
       exact hr)
    | split at he

theorem capsframe_PRIVMSG {s : Server} {l : Line} {s' : Server}
    (he : handle_PRIVMSG s l = .ok s') :
    s'.caps = s.caps ∧ s'.agreed_caps = s.agreed_caps := by
  unfold handle_PRIVMSG at he
  try simp only [] at he
  repeat' first
    | exact Except.noConfusion he
    | (injection he with h2; subst h2; exact ⟨rfl, rfl⟩)
    | (injection he with h2; subst h2
       have hr := capframe_channelModes _ _ _ _ _ (by assumption)
       try dsimp only at hr
       exact hr)
    | (injection he with h2; subst h2
       exact ⟨by repeat' first | split | rfl, by repeat' first | split | rfl⟩)
    | exact capframe_namesLoop _ _ _ _ he
    | exact capframe_part_routine he
    | (have hr := capframe_quitLoop _ _ _ _ he; try dsimp only at hr
       exact hr)
    | split at he

theorem capsframe_396 {s : Server} {l : Line} {s' : Server}
    (he : handle_396 s l = .ok s') :
    s'.caps = s.caps ∧ s'.agreed_caps = s.agreed_caps := by
  unfold handle_396 at he
  try simp only [] at he
  repeat' first
    | exact Except.noConfusion he
    | (injection he with h2; subst h2; exact ⟨rfl, rfl⟩)
    | (injection he with h2; subst h2
       have hr := capframe_channelModes _ _ _ _ _ (by assumption)
       try dsimp only at hr
       exact hr)
    | (injection he with h2; subst h2
       exact ⟨by repeat' first | split | rfl, by repeat' first | split | rfl⟩)
    | exact capframe_namesLoop _ _ _ _ he
    | exact capframe_part_routine he
    | (have hr := capframe_quitLoop _ _ _ _ he; try dsimp only at hr
       exact hr)
    | split at he

theorem capsframe_352 {s : Server} {l : Line} {s' : Server}
    (he : handle_352 s l = .ok s') :
    s'.caps = s.caps ∧ s'.agreed_caps = s.agreed_caps := by
  unfold handle_352 at he
  try simp only [] at he
  repeat' first
    | exact Except.noConfusion he
    | (injection he with h2; subst h2; exact ⟨rfl, rfl⟩)
    | (injection he with h2; subst h2
       have hr := capframe_channelModes _ _ _ _ _ (by assumption)
       try dsimp only at hr
       exact hr)
    | (injection he with h2; subst h2
       exact ⟨by repeat' first | split | rfl, by repeat' first | split | rfl⟩)
    | exact capframe_namesLoop _ _ _ _ he
    | exact capframe_part_routine he
    | (have hr := capframe_quitLoop _ _ _ _ he; try dsimp only at hr
       exact hr)
    | split at he

theorem capsframe_311 {s : Server} {l : Line} {s' : Server}
    (he : handle_311 s l = .ok s') :
    s'.caps = s.caps ∧ s'.agreed_caps = s.agreed_caps := by
  unfold handle_311 at he
  try simp only [] at he
  repeat' first
    | exact Except.noConfusion he
    | (injection he with h2; subst h2; exact ⟨rfl, rfl⟩)
    | (injection he with h2; subst h2
       have hr := capframe_channelModes _ _ _ _ _ (by assumption)
       try dsimp only at hr
       exact hr)
    | (injection he with h2; subst h2
       exact ⟨by repeat' first | split | rfl, by repeat' first | split | rfl⟩)
    | exact capframe_namesLoop _ _ _ _ he
    | exact capframe_part_routine he
    | (have hr := capframe_quitLoop _ _ _ _ he; try dsimp only at hr
       exact hr)
    | split at he

theorem capsframe_CHGHOST {s : Server} {l : Line} {s' : Server}
    (he : handle_CHGHOST s l = .ok s') :
    s'.caps = s.caps ∧ s'.agreed_caps = s.agreed_caps := by
  unfold handle_CHGHOST at he
  try simp only [] at he
  repeat' first
    | exact Except.noConfusion he
    | (injection he with h2; subst h2; exact ⟨rfl, rfl⟩)
    | (injection he with h2; subst h2
       have hr := capframe_channelModes _ _ _ _ _ (by assumption)
       try dsimp only at hr
       exact hr)
    | (injection he with h2; subst h2
       exact ⟨by repeat' first | split | rfl, by repeat' first | split | rfl⟩)
    | exact capframe_namesLoop _ _ _ _ he
    | exact capframe_part_routine he
    | (have hr := capframe_quitLoop _ _ _ _ he; try dsimp only at hr
       exact hr)
    | split at he

theorem capsframe_SETNAME {s : Server} {l : Line} {s' : Server}
    (he : handle_SETNAME s l = .ok s') :
    s'.caps = s.caps ∧ s'.agreed_caps = s.agreed_caps := by
  unfold handle_SETNAME at he
  try simp only [] at he
  repeat' first
    | exact Except.noConfusion he
    | (injection he with h2; subst h2; exact ⟨rfl, rfl⟩)
    | (injection he with h2; subst h2
       have hr := capframe_channelModes _ _ _ _ _ (by assumption)
       try dsimp only at hr
       exact hr)
    | (injection he with h2; subst h2
       exact ⟨by repeat' first | split | rfl, by repeat' first | split | rfl⟩)
    | exact capframe_namesLoop _ _ _ _ he
    | exact capframe_part_routine he
    | (have hr := capframe_quitLoop _ _ _ _ he; try dsimp only at hr
       exact hr)
    | split at he

theorem capsframe_AWAY {s : Server} {l : Line} {s' : Server}
    (he : handle_AWAY s l = .ok s') :
    s'.caps = s.caps ∧ s'.agreed_caps = s.agreed_caps := by
  unfold handle_AWAY at he
  try simp only [] at he
  repeat' first
    | exact Except.noConfusion he
    | (injection he with h2; subst h2; exact ⟨rfl, rfl⟩)
    | (injection he with h2; subst h2
       have hr := capframe_channelModes _ _ _ _ _ (by assumption)
       try dsimp only at hr
       exact hr)
    | (injection he with h2; subst h2
       exact ⟨by repeat' first | split | rfl, by repeat' first | split | rfl⟩)
    | exact capframe_namesLoop _ _ _ _ he
    | exact capframe_part_routine he
    | (have hr := capframe_quitLoop _ _ _ _ he; try dsimp only at hr
       exact hr)
    | split at he

theorem capsframe_ACCOUNT {s : Server} {l : Line} {s' : Server}
    (he : handle_ACCOUNT s l = .ok s') :
    s'.caps = s.caps ∧ s'.agreed_caps = s.agreed_caps := by
  unfold handle_ACCOUNT at he
  try simp only [] at he
  repeat' first
    | exact Except.noConfusion he
    | (injection he with h2; subst h2; exact ⟨rfl, rfl⟩)
    | (injection he with h2; subst h2
       have hr := capframe_channelModes _ _ _ _ _ (by assumption)
       try dsimp only at hr
       exact hr)
    | (injection he with h2; subst h2
       exact ⟨by repeat' first | split | rfl, by repeat' first | split | rfl⟩)
    | exact capframe_namesLoop _ _ _ _ he
    | exact capframe_part_routine he
    | (have hr := capframe_quitLoop _ _ _ _ he; try dsimp only at hr
       exact hr)
    | split at he

theorem capsframe_375chain {s : Server} {l : Line} {s' : Server}
    (he : (match handle_375 s l with
           | .ok s1 => handle_372 s1 l
           | .error e => .error e) = .ok s') :
    s'.caps = s.caps ∧ s'.agreed_caps = s.agreed_caps := by
  split at he
  · rename_i s1 heq
    obtain ⟨e1, e2⟩ := capsframe_375 heq
    obtain ⟨f1, f2⟩ := capsframe_372 he
    exact ⟨f1.trans e1, f2.trans e2⟩
  · exact Except.noConfusion he

theorem capsframe_step {s : Server} {l : Line} {s' : Server}
    (hcmd : l.command ≠ "CAP") (he : step s l = .ok s') :
    s'.caps = s.caps ∧ s'.agreed_caps = s.agreed_caps := by
  unfold step at he
  by_cases hc1 : l.command = "001"
  · rw [if_pos hc1] at he; exact capsframe_001 he
  rw [if_neg hc1] at he
  by_cases hc2 : l.command = "005"
  · rw [if_pos hc2] at he; exact capsframe_005 he
  rw [if_neg hc2] at he
  by_cases hc3 : l.command = "375"
  · rw [if_pos hc3] at he; exact capsframe_375chain he
  rw [if_neg hc3] at he
  by_cases hc4 : l.command = "372"
  · rw [if_pos hc4] at he; exact capsframe_372 he
  rw [if_neg hc4] at he
  by_cases hc5 : l.command = "NICK"
  · rw [if_pos hc5] at he; exact capsframe_NICK he
  rw [if_neg hc5] at he
  by_cases hc6 : l.command = "JOIN"
  · rw [if_pos hc6] at he; exact capsframe_JOIN he
  rw [if_neg hc6] at he
  by_cases hc7 : l.command = "PART"
  · rw [if_pos hc7] at he; exact capsframe_PART he
  rw [if_neg hc7] at he
  by_cases hc8 : l.command = "KICK"
  · rw [if_pos hc8] at he; exact capsframe_KICK he
  rw [if_neg hc8] at he
  by_cases hc9 : l.command = "QUIT"
  · rw [if_pos hc9] at he; exact capsframe_QUIT he
  rw [if_neg hc9] at he
  by_cases hc10 : l.command = "ERROR"
  · rw [if_pos hc10] at he; exact capsframe_ERROR he
  rw [if_neg hc10] at he
  by_cases hc11 : l.command = "353"
  · rw [if_pos hc11] at he; exact capsframe_353 he
  rw [if_neg hc11] at he
  by_cases hc12 : l.command = "329"
  · rw [if_pos hc12] at he; exact capsframe_329 he
  rw [if_neg hc12] at he
  by_cases hc13 : l.command = "TOPIC"
  · rw [if_pos hc13] at he; exact capsframe_TOPIC he
  rw [if_neg hc13] at he
  by_cases hc14 : l.command = "332"
  · rw [if_pos hc14] at he; exact capsframe_332 he
  rw [if_neg hc14] at he
  by_cases hc15 : l.command = "333"
  · rw [if_pos hc15] at he; exact capsframe_333 he
  rw [if_neg hc15] at he
  by_cases hc16 : l.command = "MODE"
  · rw [if_pos hc16] at he; exact capsframe_MODE he
  rw [if_neg hc16] at he
  by_cases hc17 : l.command = "324"
  · rw [if_pos hc17] at he; exact capsframe_324 he
  rw [if_neg hc17] at he
  by_cases hc18 : l.command = "211"
  · rw [if_pos hc18] at he; exact capsframe_211 he
  rw [if_neg hc18] at he
  by_cases hc19 : l.command = "PRIVMSG"
  · rw [if_pos hc19] at he; exact capsframe_PRIVMSG he
  rw [if_neg hc19] at he
  by_cases hc20 : l.command = "NOTICE"
  · rw [if_pos hc20] at he; exact capsframe_PRIVMSG he
  rw [if_neg hc20] at he
  by_cases hc21 : l.command = "TAGMSG"
  · rw [if_pos hc21] at he; exact capsframe_PRIVMSG he
  rw [if_neg hc21] at he
  by_cases hc22 : l.command = "396"
  · rw [if_pos hc22] at he; exact capsframe_396 he
  rw [if_neg hc22] at he
  by_cases hc23 : l.command = "352"
  · rw [if_pos hc23] at he; exact capsframe_352 he
  rw [if_neg hc23] at he
  by_cases hc24 : l.command = "311"
  · rw [if_pos hc24] at he; exact capsframe_311 he
  rw [if_neg hc24] at he
  by_cases hc25 : l.command = "CHGHOST"
  · rw [if_pos hc25] at he; exact capsframe_CHGHOST he
  rw [if_neg hc25] at he
  by_cases hc26 : l.command = "SETNAME"
  · rw [if_pos hc26] at he; exact capsframe_SETNAME he
  rw [if_neg hc26] at he
  by_cases hc27 : l.command = "AWAY"
  · rw [if_pos hc27] at he; exact capsframe_AWAY he
  rw [if_neg hc27] at he
  by_cases hc28 : l.command = "ACCOUNT"
  · rw [if_pos hc28] at he; exact capsframe_ACCOUNT he
  rw [if_neg hc28] at he
  rw [if_neg hcmd] at he
  injection he with h0; subst h0; exact ⟨rfl, rfl⟩

theorem step_eq_CAP {s : Server} {l : Line} (hc : l.command = "CAP") :
    step s l = handle_CAP s l := by
  unfold step
  rw [hc]
  simp

theorem AgreedCapsInv_CAP {s : Server} {l : Line} {s' : Server}
    (hinv : AgreedCapsInv s) (hterm : isTerminalCapLS l = false)
    (hcmd : l.command = "CAP") (he : handle_CAP s l = .ok s') :
    AgreedCapsInv s' := by
  obtain ⟨hsub, hnd⟩ := hinv
  unfold handle_CAP at he
  split at he
  · exact Except.noConfusion he
  · rename_i p1 heq1
    split at he
    · exact Except.noConfusion he
    · rename_i p2 heq2
      simp only [] at he
      split at he
      · exact Except.noConfusion he
      · rename_i capsStr heq3
        split at he
        · -- LS
          rename_i hls
          split at he
          · injection he with h2; subst h2
            exact ⟨hsub, hnd⟩
          · -- terminal LS contradicts the hypothesis
            exfalso
            rename_i hnm
            unfold isTerminalCapLS at hterm
            rw [hcmd, heq1, heq2] at hterm
            simp [hls] at hterm
            exact hnm (by rw [hterm])
        · split at he
          · -- NEW
            split at he
            · rename_i m hm
              injection he with h2; subst h2
              refine ⟨?_, hnd⟩
              intro m' hm' k hk
              injection hm' with e
              subst e
              exact dmem_dupdate_mono _ (hsub m hm k hk)
            · injection he with h2; subst h2
              exact ⟨hsub, hnd⟩
          · split at he
            · -- DEL
              split at he
              · rename_i m hm
                injection he with h2; subst h2
                have hdel := capDelLoop_inv (dkeys (parseCapTokens capsStr)) m
                  s.agreed_caps (fun k hk => hsub m hm k hk) hnd
                refine ⟨?_, hdel.2⟩
                intro m' hm' k hk
                injection hm' with e
                subst e
                exact hdel.1 k hk
              · injection he with h2; subst h2
                exact ⟨hsub, hnd⟩
            · split at he
              · -- ACK
                injection he with h2; subst h2
                have hack := capAckLoop_inv (dkeys (parseCapTokens capsStr))
                  s.caps s.agreed_caps (fun k hk m hm => hsub m hm k hk) hnd
                refine ⟨?_, hack.2⟩
                intro m' hm' k hk
                exact hack.1 k hk m' hm'
              · injection he with h2; subst h2
                exact ⟨hsub, hnd⟩

theorem AgreedCapsInv_step {s : Server} {l : Line} {s' : Server}
    (h : AgreedCapsInv s) (hterm : isTerminalCapLS l = false)
    (he : step s l = .ok s') : AgreedCapsInv s' := by
  by_cases hc : l.command = "CAP"
  · rw [step_eq_CAP hc] at he
    exact AgreedCapsInv_CAP h hterm hc he
  · obtain ⟨e1, e2⟩ := capsframe_step hc he
    refine ⟨?_, by rw [e2]; exact h.2⟩
    intro m hm k hk
    rw [e2] at hk
    exact h.1 m (by rw [← e1]; exact hm) k hk

theorem AgreedCapsInv_init : AgreedCapsInv initServer := by
  constructor
  · intro m hm
    exact absurd hm (by simp [initServer])
  · simp [initServer]

theorem AgreedCapsInv_stepsOk : ∀ (lines : List Line) (s s' : Server),
    AgreedCapsInv s → (∀ l ∈ lines, isTerminalCapLS l = false) →
    stepsOk s lines = some s' → AgreedCapsInv s' := by
  intro lines
  induction lines with
  | nil =>
    intro s s' h _ he
    unfold stepsOk at he
    injection he with h0; subst h0; exact h
  | cons l rest ih =>
    intro s s' h hterm he
    unfold stepsOk at he
    split at he
    · rename_i s1 heq
      exact ih _ _ (AgreedCapsInv_step h (hterm l (List.mem_cons_self _ _)) heq)
        (fun x hx => hterm x (List.mem_cons_of_mem _ hx)) he
    · exact Option.noConfusion he

/-- The three CAP lines of the C2 counterexample: advertise `a`, have it
acknowledged, then a later complete LS advertising only `b`. -/
def c2Lines : List Line :=
  [{ command := "CAP", params := ["*", "LS", "a"], source := { nickname := "srv" } },
   { command := "CAP", params := ["*", "ACK", "a"], source := { nickname := "srv" } },
   { command := "CAP", params := ["*", "LS", "b"], source := { nickname := "srv" } }]

/-- C2 counterexample: after `CAP * LS :a`, `CAP * ACK :a`,
`CAP * LS :b` — three well-formed lines all handled to completion — the
session has `caps = {b: none}` yet `agreed_caps = ["a"]`, so
`agreed_caps ⊆ caps.keys` is violated while `caps` is not null: the claim
as stated is false. -/
theorem c2_counterexample :
    stepsOk initServer c2Lines =
      some { initServer with caps := some [("b", none)], agreed_caps := ["a"] } ∧
    ¬ agreedSubset
      { initServer with caps := some [("b", none)], agreed_caps := ["a"] } := by
  constructor
  · rfl
  · intro hsub
    have h2 := hsub [("b", none)] rfl "a" (by simp)
    exact absurd h2 (by decide)

/-- A completed terminal `CAP LS` never touches `agreed_caps`: the LS
branch of `handle_CAP` rewrites `temp_caps` and `caps` only. -/
theorem terminalLS_agreed {s s' : Server} {l : Line}
    (hT : isTerminalCapLS l = true) (he : step s l = .ok s') :
    s'.agreed_caps = s.agreed_caps := by
  unfold isTerminalCapLS at hT
  simp only [Bool.and_eq_true, decide_eq_true_eq] at hT
  obtain ⟨⟨hc, hT1⟩, hT2⟩ := hT
  rw [step_eq_CAP hc] at he
  unfold handle_CAP at he
  split at he
  · exact Except.noConfusion he
  · rename_i p1 heq1
    rw [heq1] at hT1
    have hls : upStr p1 = "LS" := by simpa using hT1
    split at he
    · exact Except.noConfusion he
    · rename_i p2 heq2
      rw [heq2] at hT2
      have hnm : p2 ≠ "*" := by simpa using hT2
      simp only [] at he
      split at he
      · exact Except.noConfusion he
      · rename_i capsStr heq3
        rw [if_pos hls, if_neg hnm] at he
        injection he with h2
        subst h2
        rfl

/-- One guarded step: the invariant survives any completed line, as long
as a terminal `CAP LS` can only arrive while nothing has been agreed. -/
theorem AgreedCapsInv_step_guarded {s s' : Server} {l : Line}
    (h : AgreedCapsInv s)
    (hg : isTerminalCapLS l = true → s.agreed_caps = [])
    (he : step s l = .ok s') : AgreedCapsInv s' := by
  cases hT : isTerminalCapLS l with
  | false => exact AgreedCapsInv_step h hT he
  | true =>
    have hag : s'.agreed_caps = s.agreed_caps := terminalLS_agreed hT he
    rw [hg hT] at hag
    refine ⟨?_, by rw [hag]; exact List.nodup_nil⟩
    intro m hm k hk
    rw [hag] at hk
    exact absurd hk (List.not_mem_nil k)

theorem stepsOk_cons {s s1 : Server} {l : Line} {ls : List Line}
    (heq : step s l = .ok s1) : stepsOk s (l :: ls) = stepsOk s1 ls := by
  show (match step s l with
        | .ok s2 => stepsOk s2 ls
        | .error _ => none) = stepsOk s1 ls
  rw [heq]

/-- The guarded trace invariant: `agreed_caps ⊆ caps.keys` (with
`agreed_caps` duplicate-free) after every prefix of a trace in which
each terminal `CAP LS` is handled from a state with empty
`agreed_caps`. -/
theorem AgreedCapsInv_stepsOk_guarded : ∀ (lines : List Line) (s s' : Server),
    AgreedCapsInv s →
    (∀ (i : Nat) (l : Line) (t : Server), lines.get? i = some l →
      isTerminalCapLS l = true → stepsOk s (lines.take i) = some t →
      t.agreed_caps = []) →
    stepsOk s lines = some s' → AgreedCapsInv s' := by
  intro lines
  induction lines with
  | nil =>
    intro s s' h _ he
    unfold stepsOk at he
    injection he with h0; subst h0; exact h
  | cons l rest ih =>
    intro s s' h hguard he
    unfold stepsOk at he
    split at he
    · rename_i s1 heq
      refine ih _ _ ?_ ?_ he
      · refine AgreedCapsInv_step_guarded h ?_ heq
        intro hT
        exact hguard 0 l s rfl hT rfl
      · intro i l2 t hget hT hsteps
        refine hguard (i + 1) l2 t hget hT ?_
        show stepsOk s ((l :: rest).take (i + 1)) = some t
        rw [show (l :: rest).take (i + 1) = l :: rest.take i from rfl]
        rw [stepsOk_cons heq]
        exact hsteps
    · exact Option.noConfusion he

/-- C2 (amended): `agreed_caps ⊆ caps.keys()` (whenever `caps` is not
null) holds after every line of any sequence of well-formed server lines
in which every terminal (non-continuation) `CAP LS` arrives while
`agreed_caps` is still empty — that is, before anything has been
acknowledged, the usual position of LS in the registration handshake.
`caps` may be populated and `agreed_caps` grown, pruned and re-grown by
ACK, DEL and NEW arbitrarily; only a complete LS arriving *after* an ACK
(which replaces `caps` wholesale without filtering `agreed_caps`, as the
counterexample shows) can break the invariant. -/
theorem c2_agreed_subset_amended (lines : List Line) (s' : Server)
    (hguard : ∀ (i : Nat) (l : Line) (t : Server), lines.get? i = some l →
      isTerminalCapLS l = true → stepsOk initServer (lines.take i) = some t →
      t.agreed_caps = [])
    (h : stepsOk initServer lines = some s') : agreedSubset s' :=
  (AgreedCapsInv_stepsOk_guarded lines initServer s' AgreedCapsInv_init hguard h).1

/-- The C2 witness trace: a terminal LS while nothing is agreed, then
ACK, DEL and NEW all acting on a populated `caps` with a nonempty
`agreed_caps`. -/
def c2WitnessLines : List Line :=
  [{ command := "CAP", params := ["*", "LS", "a b"], source := { nickname := "srv" } },
   { command := "CAP", params := ["*", "ACK", "a b"], source := { nickname := "srv" } },
   { command := "CAP", params := ["*", "DEL", "a"], source := { nickname := "srv" } },
   { command := "CAP", params := ["*", "NEW", "c"], source := { nickname := "srv" } }]

theorem c2_agreed_subset_amended_witness :
    agreedSubset ((stepsOk initServer c2WitnessLines).getD initServer) := by
  refine c2_agreed_subset_amended c2WitnessLines _ ?_ rfl
  intro i l t hget hT hsteps
  match i with
  | 0 =>
    injection hsteps with h2
    rw [← h2]
    rfl
  | 1 =>
    injection hget with e
    subst e
    exact Bool.noConfusion hT
  | 2 =>
    injection hget with e
    subst e
    exact Bool.noConfusion hT
  | 3 =>
    injection hget with e
    subst e
    exact Bool.noConfusion hT
  | (n + 4) =>
    exact Option.noConfusion hget

/-! ## Claim C6: CAP LS accumulation -/

/-- The continuation line `CAP * LS * :a b`. -/
def c6Line1 : Line :=
  { command := "CAP", params := ["*", "LS", "*", "a b"], source := { nickname := "srv" } }

/-- A continuation LS followed by the terminal line. -/
def c6LinesA : List Line :=
  [c6Line1,
   { command := "CAP", params := ["*", "LS", "c"], source := { nickname := "srv" } }]

/-- A single LS with an empty-valued and a valued token. -/
def c6LinesB : List Line :=
  [{ command := "CAP", params := ["*", "LS", "a b= c=1"], source := { nickname := "srv" } }]

/-- C6: a continuation `CAP * LS * :a b` leaves `caps` null with the
tokens buffered in `temp_caps`; the terminal `CAP * LS :c` then sets
`caps = {a: null, b: null, c: null}`; and on a fresh session
`CAP * LS :a b= c=1` sets `caps = {a: null, b: null, c: "1"}` — an empty
right-hand side is stored as null, `c=1` as the string `"1"`. -/
theorem c6_cap_ls_accumulation :
    (stepsOk initServer [c6Line1]).map Server.caps = some none ∧
    (stepsOk initServer [c6Line1]).map Server.temp_caps =
      some [("a", none), ("b", none)] ∧
    (stepsOk initServer c6LinesA).map Server.caps =
      some (some [("a", none), ("b", none), ("c", none)]) ∧
    (stepsOk initServer c6LinesB).map Server.caps =
      some (some [("a", none), ("b", none), ("c", some "1")]) :=
  ⟨rfl, rfl, rfl, rfl⟩

/-! ## Claims C7 and C8: JOIN / NAMES / self-PART scenario -/

/-- `001 me :x`, a self-sourced `JOIN #ch`, then `353 me = #ch :@me +bob`. -/
def c7Lines : List Line :=
  [{ command := "001", params := ["me", "x"], source := { nickname := "srv" } },
   { command := "JOIN", params := ["#ch"], source := { nickname := "me" } },
   { command := "353", params := ["me", "=", "#ch", "@me +bob"], source := { nickname := "srv" } }]

/-- The session state after the C7 scenario. -/
def c7S : Server := (stepsOk initServer c7Lines).getD initServer

/-- C7: after `001 me :x`, self `JOIN #ch` and `353 me = #ch :@me +bob`
under the default `PREFIX (ov)@+`, the channel `#ch` exists (id 0), the
membership of `me` (id 1) carries mode `o`, the membership of `bob`
(id 2) carries mode `v`, and both nicks key entries of `users`. -/
theorem c7_names_reply_state :
    stepsOk initServer c7Lines = some c7S ∧
    dlookup "#ch" c7S.channels = some 0 ∧
    dlookup 0 c7S.channel_users = some [(1, { modes := ['o'] }), (2, { modes := ['v'] })] ∧
    dlookup "me" c7S.users = some 1 ∧
    dlookup "bob" c7S.users = some 2 :=
  ⟨rfl, rfl, rfl, rfl, rfl⟩

/-- The C7 scenario followed by a self-sourced `PART #ch`. -/
def c8Lines : List Line :=
  c7Lines ++ [{ command := "PART", params := ["#ch"], source := { nickname := "me" } }]

/-- The session state after the C8 scenario. -/
def c8S : Server := (stepsOk initServer c8Lines).getD initServer

/-- C8: following the C7 state, a self-sourced `PART #ch` deletes the
channel, removes it from every former member's `user_channels` set, and
deletes every user whose set thereby empties: all four maps end empty. -/
theorem c8_self_part_clears_all :
    stepsOk initServer c8Lines = some c8S ∧
    c8S.channels = [] ∧ c8S.users = [] ∧
    c8S.user_channels = [] ∧ c8S.channel_users = [] :=
  ⟨rfl, rfl, rfl, rfl, rfl⟩

/-! ## Claim C9: PRIVMSG/NOTICE/TAGMSG are frame-preserving on the maps -/

/-- The state a handler leaves behind, whether it returns or raises. -/
def resultState : Except Server Server → Server
  | .ok s => s
  | .error s => s

/-- C9: on a PRIVMSG, NOTICE or TAGMSG line whose source nickname is not
a known user, the handler synthesizes only a transient `User`: the
`users` map and both membership indices are identical before and after
the line (whether the handler returns or raises). -/
theorem c9_privmsg_unknown_source_frame (s : Server) (l : Line)
    (hcmd : l.command = "PRIVMSG" ∨ l.command = "NOTICE" ∨ l.command = "TAGMSG")
    (hunk : dlookup (s.casefold l.source.nickname) s.users = none) :
    (resultState (step s l)).users = s.users ∧
    (resultState (step s l)).user_channels = s.user_channels ∧
    (resultState (step s l)).channel_users = s.channel_users := by
  have hstep : step s l = handle_PRIVMSG s l := by
    rcases hcmd with h | h | h <;> (unfold step; rw [h]; simp)
  rw [hstep]
  unfold handle_PRIVMSG
  try simp only []
  repeat' first
    | exact ⟨rfl, rfl, rfl⟩
    | (exfalso
       rename_i uid heq
       have h2 : dlookup (s.casefold l.source.nickname) s.users = some uid := heq
       rw [hunk] at h2
       exact Option.noConfusion h2)
    | split

/-- A PRIVMSG from a stranger for the C9 witness. -/
def c9Line : Line :=
  { command := "PRIVMSG", params := ["#ch", "hi"],
    source := Hostmask.from_source "stranger!u@h" }

theorem c9_privmsg_unknown_source_frame_witness :
    (resultState (step c7S c9Line)).users = c7S.users ∧
    (resultState (step c7S c9Line)).user_channels = c7S.user_channels ∧
    (resultState (step c7S c9Line)).channel_users = c7S.channel_users :=
  c9_privmsg_unknown_source_frame c7S c9Line (Or.inl rfl) rfl

/-! ## Claim C10: `user_join` overwrites existing memberships -/

/-- `001`, self `JOIN #ch`, a `353` naming `@me`, then a `353` naming
`+me` — the second names an existing member. -/
def c10Lines : List Line :=
  [{ command := "001", params := ["me", "x"], source := { nickname := "srv" } },
   { command := "JOIN", params := ["#ch"], source := { nickname := "me" } },
   { command := "353", params := ["me", "=", "#ch", "@me"], source := { nickname := "srv" } },
   { command := "353", params := ["me", "=", "#ch", "+me"], source := { nickname := "srv" } }]

/-- The session state after the C10 scenario. -/
def c10S : Server := (stepsOk initServer c10Lines).getD initServer

/-- C10: every successful `user_join` leaves the (channel, user) roster
entry equal to a brand-new `ChannelUser` with an empty mode list, even if
an entry with recorded modes was already present; consequently, after
`353 ... :@me` has recorded mode `o` for `me`, a later `353 ... :+me`
re-joins `me`, discards the `o`, and leaves only the sigil-derived `v`. -/
theorem c10_user_join_overwrites_membership :
    (∀ (s : Server) (cid uid : Nat) (s' : Server), s.user_join cid uid = .ok s' →
      ∃ roster, dlookup cid s'.channel_users = some roster ∧
        dlookup uid roster = some { modes := [] }) ∧
    (stepsOk initServer c10Lines = some c10S ∧
     dlookup 0 c10S.channel_users = some [(1, { modes := ['v'] })]) := by
  refine ⟨?_, rfl, rfl⟩
  intro s cid uid s' h
  rw [user_join_eq] at h
  cases hc : dlookup cid s.channel_users with
  | none => rw [hc] at h; exact Except.noConfusion h
  | some roster =>
    rw [hc] at h
    injection h with h2
    subst h2
    refine ⟨dinsert uid {} roster, ?_, ?_⟩
    · exact dlookup_dinsert_self cid (dinsert uid {} roster) s.channel_users
    · exact dlookup_dinsert_self uid {} roster

/-- The successful re-join of the C10 witness. -/
def c10WS : Server := resultState (c7S.user_join 0 1)

theorem c10_user_join_overwrites_membership_witness :
    ∃ roster, dlookup 0 c10WS.channel_users = some roster ∧
      dlookup 1 roster = some { modes := [] } :=
  c10_user_join_overwrites_membership.1 c7S 0 1 c10WS rfl

/-! ## Claim C4: class-C mode chars under `-` -/

/-- Register, learn `CHANMODES=,,c`, join `#ch`, set `+c 1`. -/
def c4Lines : List Line :=
  [{ command := "001", params := ["me", "x"], source := { nickname := "srv" } },
   { command := "005", params := ["me", "CHANMODES=,,c", "supported"],
     source := { nickname := "srv" } },
   { command := "JOIN", params := ["#ch"], source := { nickname := "me" } },
   { command := "MODE", params := ["#ch", "+c", "1"], source := { nickname := "srv" } }]

/-- The session state after the C4 scenario. -/
def c4S : Server := (stepsOk initServer c4Lines).getD initServer

/-- A `MODE #ch -c` line with no further parameter. -/
def c4ModeLine : Line :=
  { command := "MODE", params := ["#ch", "-c"], source := { nickname := "srv" } }

/-- The state after `MODE #ch -c` on the C4 state. -/
def c4cS : Server := resultState (step c4S c4ModeLine)

/-- C4 counterexample: with `CHANMODES=,,c` in effect and `+c 1` stored
on `#ch`, handling `MODE #ch -c` (so `c` is a pure class-C char under
`-`, with no parameter available to consume) succeeds but erases the
stored `c -> "1"` entry from the channel's mode map — the channel's mode
state is *not* left unchanged. -/
theorem c4_counterexample :
    bmem 'c' c4S.isupport.chanmodes.setting_c_modes = true ∧
    bmem 'c' c4S.isupport.pfx.modes = false ∧
    bmem 'c' c4S.isupport.chanmodes.list_modes = false ∧
    bmem 'c' c4S.isupport.chanmodes.setting_b_modes = false ∧
    (c4S.chanD 0).modes = [('c', some "1")] ∧
    step c4S c4ModeLine = .ok c4cS ∧
    (c4cS.chanD 0).modes = [] :=
  ⟨rfl, rfl, rfl, rfl, rfl, rfl, rfl⟩

/-- C4 amended: a class-C char under `-` (not a prefix, class-A or
class-B char) consumes no parameter — the queue comes back untouched —
but its effect is `remove_mode(char, None)`, which deletes any stored
entry for that char rather than doing nothing. -/
theorem c4_minus_c_removes_mode (s : Server) (cid : Nat) (ch : Char) (ps : List String)
    (hC : bmem ch s.isupport.chanmodes.setting_c_modes = true)
    (hp : bmem ch s.isupport.pfx.modes = false)
    (hA : bmem ch s.isupport.chanmodes.list_modes = false)
    (hB : bmem ch s.isupport.chanmodes.setting_b_modes = false) :
    channelModes s cid [(false, ch)] ps =
      .ok (s.updChan cid (fun c => c.remove_mode ch none), ps) := by
  show channelModes s cid ((false, ch) :: []) ps = _
  unfold channelModes
  simp only [hp, hA, hB, Bool.false_and, Bool.not_false, Bool.true_and, Bool.false_or,
    Bool.false_eq_true, if_false, ite_false]
  unfold channelModes
  rfl

theorem c4_minus_c_removes_mode_witness :
    channelModes c4S 0 [(false, 'c')] [] =
      .ok (c4S.updChan 0 (fun c => c.remove_mode 'c' none), []) :=
  c4_minus_c_removes_mode c4S 0 'c' [] rfl rfl rfl rfl

/-! ## Claim C3: handler atomicity

`extra3` extends `WF` with the index-consistency facts needed to show
which handlers can raise only before any mutation: every channel value
has a roster, channel/user values are fresh and injective, every user
value has a membership set, and every membership-set owner is found in
`users` under the current fold of its display nickname. -/

def extra3 (s : Server) : Prop :=
  dkeysNodup s.users ∧
  dkeysNodup s.channels ∧
  (∀ p ∈ s.channels, dmem p.2 s.channel_users = true) ∧
  (∀ p ∈ s.channels, p.2 < s.next_id) ∧
  (∀ p ∈ s.channels, ∀ q ∈ s.channels, p.2 = q.2 → p.1 = q.1) ∧
  (∀ p ∈ s.users, dmem p.2 s.user_channels = true) ∧
  (∀ p ∈ s.users, p.2 < s.next_id) ∧
  (∀ p ∈ s.users, ∀ q ∈ s.users, p.2 = q.2 → p.1 = q.1) ∧
  (∀ p ∈ s.user_channels, dlookup (s.casefold (s.userD p.1).nickname) s.users = some p.1)

/-- The full C3 invariant bundle. -/
def good3 (s : Server) : Prop := WF s ∧ extra3 s

theorem userD_updUser_nickname (s : Server) (uid0 : Nat) (f : User → User)
    (hf : ∀ u, (f u).nickname = u.nickname) (uid : Nat) :
    ((s.updUser uid0 f).userD uid).nickname = (s.userD uid).nickname := by
  unfold Server.updUser Server.userD
  by_cases h : uid0 = uid
  · subst h
    rw [dlookup_dinsert_self]
    exact hf _
  · rw [dlookup_dinsert_ne _ _ h]

theorem extra3_frame {s s' : Server}
    (hu : s'.users = s.users) (hc : s'.channels = s.channels)
    (huc : s'.user_channels = s.user_channels)
    (hcu : ∀ c, dmem c s.channel_users = true → dmem c s'.channel_users = true)
    (hn : s.next_id ≤ s'.next_id)
    (hcase : s'.isupport.casemapping = s.isupport.casemapping)
    (hud : ∀ uid, (s'.userD uid).nickname = (s.userD uid).nickname)
    (h : extra3 s) : extra3 s' := by
  obtain ⟨a1, a2, a3, a4, a5, a6, a7, a8, a9⟩ := h
  refine ⟨?_, ?_, ?_, ?_, ?_, ?_, ?_, ?_, ?_⟩
  · rw [hu]; exact a1
  · rw [hc]; exact a2
  · rw [hc]; exact fun p hp => hcu _ (a3 p hp)
  · rw [hc]; exact fun p hp => lt_of_lt_of_le (a4 p hp) hn
  · rw [hc]; exact a5
  · rw [hu, huc]; exact a6
  · rw [hu]; exact fun p hp => lt_of_lt_of_le (a7 p hp) hn
  · rw [hu]; exact a8
  · rw [huc, hu]
    intro p hp
    have hfold : s'.casefold ((s'.userD p.1).nickname) =
        s.casefold ((s.userD p.1).nickname) := by
      unfold Server.casefold
      rw [hcase, hud]
    rw [hfold]
    exact a9 p hp

theorem extra3_init : extra3 initServer := by
  refine ⟨?_, ?_, ?_, ?_, ?_, ?_, ?_, ?_, ?_⟩ <;>
    simp [initServer, dkeysNodup, dkeys]

theorem extra3_selfQuit (s : Server) : extra3 s.selfQuit := by
  refine ⟨?_, ?_, ?_, ?_, ?_, ?_, ?_, ?_, ?_⟩ <;>
    simp [Server.selfQuit, dkeysNodup, dkeys]

theorem e3_001 {s : Server} {l : Line} {s' : Server} (h : extra3 s)
    (he : handle_001 s l = .ok s') : extra3 s' := by
  unfold handle_001 at he
  split at he
  · exact Except.noConfusion he
  · injection he with h2; subst h2
    refine extra3_frame ?_ ?_ ?_ ?_ ?_ ?_ ?_ h <;>
      first
        | rfl
        | exact fun c hc => hc
        | exact le_refl _
        | exact fun uid => rfl

theorem e3_375 {s : Server} {l : Line} {s' : Server} (h : extra3 s)
    (he : handle_375 s l = .ok s') : extra3 s' := by
  unfold handle_375 at he
  injection he with h2; subst h2
  refine extra3_frame ?_ ?_ ?_ ?_ ?_ ?_ ?_ h <;>
    first
      | rfl
      | exact fun c hc => hc
      | exact le_refl _
      | exact fun uid => rfl

theorem e3_372 {s : Server} {l : Line} {s' : Server} (h : extra3 s)
    (he : handle_372 s l = .ok s') : extra3 s' := by
  unfold handle_372 at he
  split at he
  · exact Except.noConfusion he
  · injection he with h2; subst h2
    refine extra3_frame ?_ ?_ ?_ ?_ ?_ ?_ ?_ h <;>
      first
        | rfl
        | exact fun c hc => hc
        | exact le_refl _
        | exact fun uid => rfl

theorem e3_329 {s : Server} {l : Line} {s' : Server} (h : extra3 s)
    (he : handle_329 s l = .ok s') : extra3 s' := by
  unfold handle_329 at he
  try simp only [] at he
  repeat' first
    | exact Except.noConfusion he
    | (injection he with h2; subst h2;
       refine extra3_frame ?_ ?_ ?_ ?_ ?_ ?_ ?_ h <;>
         first
           | rfl
           | exact fun c hc => hc
           | exact le_refl _
           | exact fun uid => rfl
           | exact fun uid => (userD_updUser_nickname _ _ _
               (fun u => by repeat' first | split | rfl) uid).trans rfl)
    | split at he

theorem e3_TOPIC {s : Server} {l : Line} {s' : Server} (h : extra3 s)
    (he : handle_TOPIC s l = .ok s') : extra3 s' := by
  unfold handle_TOPIC at he
  try simp only [] at he
  repeat' first
    | exact Except.noConfusion he
    | (injection he with h2; subst h2;
       refine extra3_frame ?_ ?_ ?_ ?_ ?_ ?_ ?_ h <;>
         first
           | rfl
           | exact fun c hc => hc
           | exact le_refl _
           | exact fun uid => rfl
           | exact fun uid => (userD_updUser_nickname _ _ _
               (fun u => by repeat' first | split | rfl) uid).trans rfl)
    | split at he

theorem e3_332 {s : Server} {l : Line} {s' : Server} (h : extra3 s)
    (he : handle_332 s l = .ok s') : extra3 s' := by
  unfold handle_332 at he
  try simp only [] at he
  repeat' first
    | exact Except.noConfusion he
    | (injection he with h2; subst h2;
       refine extra3_frame ?_ ?_ ?_ ?_ ?_ ?_ ?_ h <;>
         first
           | rfl
           | exact fun c hc => hc
           | exact le_refl _
           | exact fun uid => rfl
           | exact fun uid => (userD_updUser_nickname _ _ _
               (fun u => by repeat' first | split | rfl) uid).trans rfl)
    | split at he

theorem e3_333 {s : Server} {l : Line} {s' : Server} (h : extra3 s)
    (he : handle_333 s l = .ok s') : extra3 s' := by
  unfold handle_333 at he
  try simp only [] at he
  repeat' first
    | exact Except.noConfusion he
    | (injection he with h2; subst h2;
       refine extra3_frame ?_ ?_ ?_ ?_ ?_ ?_ ?_ h <;>
         first
           | rfl
           | exact fun c hc => hc
           | exact le_refl _
           | exact fun uid => rfl
           | exact fun uid => (userD_updUser_nickname _ _ _
               (fun u => by repeat' first | split | rfl) uid).trans rfl)
    | split at he

theorem e3_211 {s : Server} {l : Line} {s' : Server} (h : extra3 s)
    (he : handle_211 s l = .ok s') : extra3 s' := by
  unfold handle_211 at he
  try simp only [] at he
  repeat' first
    | exact Except.noConfusion he
    | (injection he with h2; subst h2;
       refine extra3_frame ?_ ?_ ?_ ?_ ?_ ?_ ?_ h <;>
         first
           | rfl
           | exact fun c hc => hc
           | exact le_refl _
           | exact fun uid => rfl
           | exact fun uid => (userD_updUser_nickname _ _ _
               (fun u => by repeat' first | split | rfl) uid).trans rfl)
    | split at he

theorem e3_PRIVMSG {s : Server} {l : Line} {s' : Server} (h : extra3 s)
    (he : handle_PRIVMSG s l = .ok s') : extra3 s' := by
  unfold handle_PRIVMSG at he
  try simp only [] at he
  repeat' first
    | exact Except.noConfusion he
    | (injection he with h2; subst h2;
       refine extra3_frame ?_ ?_ ?_ ?_ ?_ ?_ ?_ h <;>
         first
           | rfl
           | exact fun c hc => hc
           | exact le_refl _
           | exact fun uid => rfl
           | exact fun uid => (userD_updUser_nickname _ _ _
               (fun u => by repeat' first | split | rfl) uid).trans rfl)
    | split at he

theorem e3_396 {s : Server} {l : Line} {s' : Server} (h : extra3 s)
    (he : handle_396 s l = .ok s') : extra3 s' := by
  unfold handle_396 at he
  try simp only [] at he
  repeat' first
    | exact Except.noConfusion he
    | (injection he with h2; subst h2;
       refine extra3_frame ?_ ?_ ?_ ?_ ?_ ?_ ?_ h <;>
         first
           | rfl
           | exact fun c hc => hc
           | exact le_refl _
           | exact fun uid => rfl
           | exact fun uid => (userD_updUser_nickname _ _ _
               (fun u => by repeat' first | split | rfl) uid).trans rfl)
    | split at he

theorem e3_352 {s : Server} {l : Line} {s' : Server} (h : extra3 s)
    (he : handle_352 s l = .ok s') : extra3 s' := by
  unfold handle_352 at he
  try simp only [] at he
  repeat' first
    | exact Except.noConfusion he
    | (injection he with h2; subst h2;
       refine extra3_frame ?_ ?_ ?_ ?_ ?_ ?_ ?_ h <;>
         first
           | rfl
           | exact fun c hc => hc
           | exact le_refl _
           | exact fun uid => rfl
           | exact fun uid => (userD_updUser_nickname _ _ _
               (fun u => by repeat' first | split | rfl) uid).trans rfl)
    | split at he

theorem e3_311 {s : Server} {l : Line} {s' : Server} (h : extra3 s)
    (he : handle_311 s l = .ok s') : extra3 s' := by
  unfold handle_311 at he
  try simp only [] at he
  repeat' first
    | exact Except.noConfusion he
    | (injection he with h2; subst h2;
       refine extra3_frame ?_ ?_ ?_ ?_ ?_ ?_ ?_ h <;>
         first
           | rfl
           | exact fun c hc => hc
           | exact le_refl _
           | exact fun uid => rfl
           | exact fun uid => (userD_updUser_nickname _ _ _
               (fun u => by repeat' first | split | rfl) uid).trans rfl)
    | split at he

theorem e3_CHGHOST {s : Server} {l : Line} {s' : Server} (h : extra3 s)
    (he : handle_CHGHOST s l = .ok s') : extra3 s' := by
  unfold handle_CHGHOST at he
  try simp only [] at he
  repeat' first
    | exact Except.noConfusion he
    | (injection he with h2; subst h2;
       refine extra3_frame ?_ ?_ ?_ ?_ ?_ ?_ ?_ h <;>
         first
           | rfl
           | exact fun c hc => hc
           | exact le_refl _
           | exact fun uid => rfl
           | exact fun uid => (userD_updUser_nickname _ _ _
               (fun u => by repeat' first | split | rfl) uid).trans rfl)
    | split at he

theorem e3_SETNAME {s : Server} {l : Line} {s' : Server} (h : extra3 s)
    (he : handle_SETNAME s l = .ok s') : extra3 s' := by
  unfold handle_SETNAME at he
  try simp only [] at he
  repeat' first
    | exact Except.noConfusion he
    | (injection he with h2; subst h2;
       refine extra3_frame ?_ ?_ ?_ ?_ ?_ ?_ ?_ h <;>
         first
           | rfl
           | exact fun c hc => hc
           | exact le_refl _
           | exact fun uid => rfl
           | exact fun uid => (userD_updUser_nickname _ _ _
               (fun u => by repeat' first | split | rfl) uid).trans rfl)
    | split at he

theorem e3_AWAY {s : Server} {l : Line} {s' : Server} (h : extra3 s)
    (he : handle_AWAY s l = .ok s') : extra3 s' := by
  unfold handle_AWAY at he
  try simp only [] at he
  repeat' first
    | exact Except.noConfusion he
    | (injection he with h2; subst h2;
       refine extra3_frame ?_ ?_ ?_ ?_ ?_ ?_ ?_ h <;>
         first
           | rfl
           | exact fun c hc => hc
           | exact le_refl _
           | exact fun uid => rfl
           | exact fun uid => (userD_updUser_nickname _ _ _
               (fun u => by repeat' first | split | rfl) uid).trans rfl)
    | split at he

theorem e3_ACCOUNT {s : Server} {l : Line} {s' : Server} (h : extra3 s)
    (he : handle_ACCOUNT s l = .ok s') : extra3 s' := by
  unfold handle_ACCOUNT at he
  try simp only [] at he
  repeat' first
    | exact Except.noConfusion he
    | (injection he with h2; subst h2;
       refine extra3_frame ?_ ?_ ?_ ?_ ?_ ?_ ?_ h <;>
         first
           | rfl
           | exact fun c hc => hc
           | exact le_refl _
           | exact fun uid => rfl
           | exact fun uid => (userD_updUser_nickname _ _ _
               (fun u => by repeat' first | split | rfl) uid).trans rfl)
    | split at he

theorem e3_CAP {s : Server} {l : Line} {s' : Server} (h : extra3 s)
    (he : handle_CAP s l = .ok s') : extra3 s' := by
  unfold handle_CAP at he
  try simp only [] at he
  repeat' first
    | exact Except.noConfusion he
    | (injection he with h2; subst h2;
       refine extra3_frame ?_ ?_ ?_ ?_ ?_ ?_ ?_ h <;>
         first
           | rfl
           | exact fun c hc => hc
           | exact le_refl _
           | exact fun uid => rfl
           | exact fun uid => (userD_updUser_nickname _ _ _
               (fun u => by repeat' first | split | rfl) uid).trans rfl)
    | split at he

theorem e3_ERROR {s : Server} {l : Line} {s' : Server}
    (he : handle_ERROR s l = .ok s') : extra3 s' := by
  unfold handle_ERROR at he
  injection he with h2; subst h2
  exact extra3_selfQuit s

theorem e3_channelModes (cid : Nat) :
    ∀ (modes : List (Bool × Char)) (ps : List String) (s : Server)
      (r : Server × List String),
    extra3 s → channelModes s cid modes ps = .ok r → extra3 r.1 := by
  intro modes
  induction modes with
  | nil =>
    intro ps s r h he
    unfold channelModes at he
    injection he with h2; subst h2; exact h
  | cons m rest ih =>
    intro ps s r h he
    obtain ⟨add, ch⟩ := m
    unfold channelModes at he
    try simp only [] at he
    repeat' first
      | exact Except.noConfusion he
      | exact ih _ _ _ h he
      | (refine ih _ _ _ ?_ he
         refine extra3_frame ?_ ?_ ?_ ?_ ?_ ?_ ?_ h <;>
           first
             | rfl
             | exact fun c hc => hc
             | exact fun c hc => dmem_dinsert_mono _ hc
             | exact le_refl _
             | exact fun uid => rfl)
      | split at he

theorem e3_MODE {s : Server} {l : Line} {s' : Server} (h : extra3 s)
    (he : handle_MODE s l = .ok s') : extra3 s' := by
  unfold handle_MODE at he
  try simp only [] at he
  repeat' first
    | exact Except.noConfusion he
    | (injection he with h2; subst h2;
       refine extra3_frame ?_ ?_ ?_ ?_ ?_ ?_ ?_ h <;>
         first
           | rfl
           | exact fun c hc => hc
           | exact le_refl _
           | exact fun uid => rfl)
    | (injection he with h2; subst h2;
       exact e3_channelModes _ _ _ _ _ h (by assumption))
    | split at he

theorem e3_324 {s : Server} {l : Line} {s' : Server} (h : extra3 s)
    (he : handle_324 s l = .ok s') : extra3 s' := by
  unfold handle_324 at he
  try simp only [] at he
  repeat' first
    | exact Except.noConfusion he
    | (injection he with h2; subst h2;
       refine extra3_frame ?_ ?_ ?_ ?_ ?_ ?_ ?_ h <;>
         first
           | rfl
           | exact fun c hc => hc
           | exact le_refl _
           | exact fun uid => rfl)
    | (injection he with h2; subst h2;
       exact e3_channelModes _ _ _ _ _ h (by assumption))
    | split at he

theorem e3_addMembModes {s : Server} (cid uid : Nat) (ms : List Char)
    (h : extra3 s) : extra3 (addMembModes s cid uid ms) := by
  unfold addMembModes
  repeat' first
    | exact h
    | (refine extra3_frame ?_ ?_ ?_ ?_ ?_ ?_ ?_ h <;>
       first
         | rfl
         | exact fun c hc => dmem_dinsert_mono _ hc
         | exact le_refl _
         | exact fun uid2 => rfl)
    | split

theorem dmem_ucJoin_self (uc : List (Nat × List Nat)) (uid cid : Nat) :
    dmem uid (ucJoin uc uid cid) = true := by
  unfold dmem
  rw [dlookup_ucJoin_self]
  rfl

theorem dmem_ucJoin_mono {uc : List (Nat × List Nat)} {u : Nat} (uid cid : Nat)
    (h : dmem u uc = true) : dmem u (ucJoin uc uid cid) = true := by
  by_cases hu : u = uid
  · subst hu; exact dmem_ucJoin_self uc u cid
  · unfold dmem at h ⊢
    rw [dlookup_ucJoin_ne cid hu]
    exact h

/-- The state between `ensure user` and `user_join`: all of `extra3`
except that the joining user may not have a membership set yet, plus the
fold-consistency fact for the joining user and key uniqueness of the
membership index. -/
def preJoin (t : Server) (uid : Nat) : Prop :=
  dkeysNodup t.users ∧
  dkeysNodup t.channels ∧
  (∀ p ∈ t.channels, dmem p.2 t.channel_users = true) ∧
  (∀ p ∈ t.channels, p.2 < t.next_id) ∧
  (∀ p ∈ t.channels, ∀ q ∈ t.channels, p.2 = q.2 → p.1 = q.1) ∧
  (∀ p ∈ t.users, p.2 = uid ∨ dmem p.2 t.user_channels = true) ∧
  (∀ p ∈ t.users, p.2 < t.next_id) ∧
  (∀ p ∈ t.users, ∀ q ∈ t.users, p.2 = q.2 → p.1 = q.1) ∧
  (∀ p ∈ t.user_channels, dlookup (t.casefold (t.userD p.1).nickname) t.users = some p.1) ∧
  dlookup (t.casefold (t.userD uid).nickname) t.users = some uid ∧
  dkeysNodup t.user_channels

theorem preJoin_add_user {s : Server} {nick nickLower : String}
    (hfold : nickLower = s.casefold nick)
    (hd : dmem nickLower s.users = false)
    (hg : good3 s) :
    preJoin (s.add_user nick nickLower) s.next_id := by
  obtain ⟨hwf, a1, a2, a3, a4, a5, a6, a7, a8, a9⟩ := hg
  unfold Server.add_user
  simp only []
  refine ⟨?_, a2, a3, ?_, a5, ?_, ?_, ?_, ?_, ?_, hwf.1⟩
  · exact dkeysNodup_dinsert _ _ a1
  · exact fun p hp => Nat.lt_succ_of_lt (a4 p hp)
  · intro p hp
    rcases mem_dinsert_weak hp with h1 | h1
    · left; rw [h1]
    · exact Or.inr (a6 p h1)
  · intro p hp
    rcases mem_dinsert_weak hp with h1 | h1
    · rw [h1]; exact Nat.lt_succ_self _
    · exact Nat.lt_succ_of_lt (a7 p h1)
  · intro p hp q hq hpq
    rcases mem_dinsert_weak hp with h1 | h1 <;> rcases mem_dinsert_weak hq with h2 | h2
    · rw [h1, h2]
    · exfalso
      have : q.2 = s.next_id := by rw [← hpq, h1]
      exact absurd (a7 q h2) (by rw [this]; exact lt_irrefl _)
    · exfalso
      have : p.2 = s.next_id := by rw [hpq, h2]
      exact absurd (a7 p h1) (by rw [this]; exact lt_irrefl _)
    · exact a8 p h1 q h2 hpq
  · intro p hp
    have hk := a9 p hp
    have hlt : p.1 < s.next_id := a7 _ (dlookup_mem hk)
    have hne : s.next_id ≠ p.1 := fun e => absurd (e ▸ hlt) (lt_irrefl _)
    have hud : (({ s with
        next_id := s.next_id + 1
        user_data := dinsert s.next_id { nickname := nick, nickname_lower := nickLower } s.user_data
        users := dinsert nickLower s.next_id s.users } : Server).userD p.1) = s.userD p.1 := by
      unfold Server.userD
      simp only []
      rw [dlookup_dinsert_ne _ _ hne]
    show dlookup (s.casefold (({ s with
        next_id := s.next_id + 1
        user_data := dinsert s.next_id { nickname := nick, nickname_lower := nickLower } s.user_data
        users := dinsert nickLower s.next_id s.users } : Server).userD p.1).nickname)
      (dinsert nickLower s.next_id s.users) = some p.1
    rw [hud]
    have hkne : s.casefold ((s.userD p.1).nickname) ≠ nickLower := by
      intro e
      rw [e] at hk
      unfold dmem at hd
      rw [hk] at hd
      exact Bool.noConfusion hd
    rw [dlookup_dinsert_ne _ _ (fun e => hkne e.symm)]
    exact hk
  · show dlookup (s.casefold ((dlookup s.next_id
        (dinsert s.next_id { nickname := nick, nickname_lower := nickLower } s.user_data)).getD
        { nickname := "", nickname_lower := "" }).nickname)
      (dinsert nickLower s.next_id s.users) = some s.next_id
    rw [dlookup_dinsert_self]
    show dlookup (s.casefold nick) (dinsert nickLower s.next_id s.users) = some s.next_id
    rw [← hfold, dlookup_dinsert_self]

theorem preJoin_ensureUser {s : Server} {nick nickLower : String} {uid : Nat}
    (hfold : nickLower = s.casefold nick)
    (hg : good3 s)
    (hl : dlookup nickLower (s.ensureUser nick nickLower).users = some uid) :
    preJoin (s.ensureUser nick nickLower) uid := by
  unfold Server.ensureUser at hl ⊢
  by_cases hd : dmem nickLower s.users = true
  · rw [if_pos hd] at hl ⊢
    obtain ⟨hwf, a1, a2, a3, a4, a5, a6, a7, a8, a9⟩ := hg
    have hmem : (nickLower, uid) ∈ s.users := dlookup_mem hl
    have hdm : dmem uid s.user_channels = true := a6 _ hmem
    have hex : ∃ cs, dlookup uid s.user_channels = some cs := by
      unfold dmem at hdm
      cases hcs : dlookup uid s.user_channels with
      | none => rw [hcs] at hdm; exact Bool.noConfusion hdm
      | some cs => exact ⟨cs, rfl⟩
    obtain ⟨cs, hcs⟩ := hex
    exact ⟨a1, a2, a3, a4, a5, fun p hp => Or.inr (a6 p hp), a7, a8, a9,
      a9 (uid, cs) (dlookup_mem hcs), hwf.1⟩
  · rw [if_neg hd] at hl ⊢
    have hl2 : dlookup nickLower (dinsert nickLower s.next_id s.users) = some uid := hl
    rw [dlookup_dinsert_self] at hl2
    injection hl2 with huid
    subst huid
    exact preJoin_add_user hfold (by
      cases hdd : dmem nickLower s.users with
      | false => rfl
      | true => exact absurd hdd hd) hg

theorem preJoin_updUser {t : Server} {uid uid0 : Nat} {f : User → User}
    (hf : ∀ u, (f u).nickname = u.nickname)
    (h : preJoin t uid) : preJoin (t.updUser uid0 f) uid := by
  obtain ⟨a1, a2, a3, a4, a5, a6, a7, a8, a9, hme, nduc⟩ := h
  have hud : ∀ u2, (((t.updUser uid0 f)).userD u2).nickname = (t.userD u2).nickname :=
    userD_updUser_nickname t uid0 f hf
  have hcf : ∀ x, (t.updUser uid0 f).casefold x = t.casefold x := fun x => rfl
  refine ⟨a1, a2, a3, a4, a5, a6, a7, a8, ?_, ?_, nduc⟩
  · intro p hp
    show dlookup ((t.updUser uid0 f).casefold
      (((t.updUser uid0 f)).userD p.1).nickname) t.users = some p.1
    rw [hcf, hud]
    exact a9 p hp
  · show dlookup ((t.updUser uid0 f).casefold
      (((t.updUser uid0 f)).userD uid).nickname) t.users = some uid
    rw [hcf, hud]
    exact hme

theorem e3_join_from_preJoin {t : Server} {cid uid : Nat} {s' : Server}
    (h : preJoin t uid) (he : t.user_join cid uid = .ok s') : extra3 s' := by
  obtain ⟨a1, a2, a3, a4, a5, a6, a7, a8, a9, hme, nduc⟩ := h
  rw [user_join_eq] at he
  cases hc : dlookup cid t.channel_users with
  | none => rw [hc] at he; exact Except.noConfusion he
  | some roster =>
    rw [hc] at he
    injection he with h2
    subst h2
    refine ⟨a1, a2, ?_, a4, a5, ?_, a7, a8, ?_⟩
    · exact fun p hp => dmem_dinsert_mono _ (a3 p hp)
    · intro p hp
      rcases a6 p hp with h1 | h1
      · rw [h1]; exact dmem_ucJoin_self _ _ _
      · exact dmem_ucJoin_mono _ _ h1
    · intro p hp
      rcases mem_ucJoin nduc hp with h1 | h1
      · rw [h1]
        exact hme
      · exact a9 p h1.1

theorem ensureUser_finds (s : Server) (nick nickLower : String) :
    dlookup nickLower (s.ensureUser nick nickLower).users ≠ none := by
  unfold Server.ensureUser
  by_cases hd : dmem nickLower s.users = true
  · rw [if_pos hd]
    unfold dmem at hd
    intro hnone
    rw [hnone] at hd
    exact Bool.noConfusion hd
  · rw [if_neg hd]
    show dlookup nickLower (dinsert nickLower s.next_id s.users) ≠ none
    rw [dlookup_dinsert_self]
    exact fun h => Option.noConfusion h

theorem e3_createChannel {s : Server} (cl nm : String)
    (hcl : dmem cl s.channels = false) (h : extra3 s) :
    extra3 (s.createChannel cl nm) := by
  obtain ⟨a1, a2, a3, a4, a5, a6, a7, a8, a9⟩ := h
  unfold Server.createChannel
  simp only []
  refine ⟨a1, ?_, ?_, ?_, ?_, a6, ?_, a8, ?_⟩
  · exact dkeysNodup_dinsert _ _ a2
  · intro p hp
    rcases mem_dinsert_weak hp with h1 | h1
    · rw [h1]; exact dmem_dinsert_self _ _ _
    · exact dmem_dinsert_mono _ (a3 p h1)
  · intro p hp
    rcases mem_dinsert_weak hp with h1 | h1
    · rw [h1]; exact Nat.lt_succ_self _
    · exact Nat.lt_succ_of_lt (a4 p h1)
  · intro p hp q hq hpq
    rcases mem_dinsert_weak hp with h1 | h1 <;> rcases mem_dinsert_weak hq with h2 | h2
    · rw [h1, h2]
    · exfalso
      have hq2 : q.2 = s.next_id := by rw [← hpq, h1]
      exact absurd (a4 q h2) (by rw [hq2]; exact lt_irrefl _)
    · exfalso
      have hp2 : p.2 = s.next_id := by rw [hpq, h2]
      exact absurd (a4 p h1) (by rw [hp2]; exact lt_irrefl _)
    · exact a5 p h1 q h2 hpq
  · exact fun p hp => Nat.lt_succ_of_lt (a7 p hp)
  · exact a9

theorem g3_joinSelfLearn {s : Server} (l : Line) (extended : Bool)
    (account realname : Option String) (h : good3 s) :
    good3 (joinSelfLearn s l extended account realname) :=
  ⟨wf_joinSelfLearn l extended account realname h.1, by
    unfold joinSelfLearn
    repeat' first
      | exact h.2
      | (refine extra3_frame ?_ ?_ ?_ ?_ ?_ ?_ ?_ h.2 <;>
         first | rfl | exact fun c hc => hc | exact le_refl _ | exact fun uid => rfl)
      | split⟩

theorem e3_join_tail {s1 : Server} {cid uid : Nat} {nick nickLower : String}
    {f : User → User} {s' : Server}
    (hfold : nickLower = s1.casefold nick)
    (hg1 : good3 s1)
    (hf : ∀ u, (f u).nickname = u.nickname)
    (huid : dlookup nickLower (s1.ensureUser nick nickLower).users = some uid)
    (he : ((s1.ensureUser nick nickLower).updUser uid f).user_join cid uid = .ok s') :
    extra3 s' :=
  e3_join_from_preJoin (preJoin_updUser hf (preJoin_ensureUser hfold hg1 huid)) he

theorem e3_JOIN {s : Server} {l : Line} {s' : Server} (h : good3 s)
    (he : handle_JOIN s l = .ok s') : extra3 s' := by
  unfold handle_JOIN at he
  try simp only [] at he
  split at he
  · exact Except.noConfusion he
  · rename_i p0 _
    have hg1 : good3 (if s.casefold l.source.nickname = s.nickname_lower then
        joinSelfLearn (if dmem (s.casefold p0) s.channels then s
                       else s.createChannel (s.casefold p0) p0)
          l (l.params.length = 3)
          (if l.params.length = 3 then some (stripChars '*' (l.params.getD 1 "")) else none)
          (if l.params.length = 3 then l.params.get? 2 else none)
      else s) := by
      split
      · refine g3_joinSelfLearn _ _ _ _ ?_
        split
        · exact h
        · rename_i hdm
          refine ⟨wf_createChannel _ _ h.1, e3_createChannel _ _ ?_ h.2⟩
          cases hdd : dmem (s.casefold p0) s.channels with
          | false => rfl
          | true => exact absurd hdd hdm
      · exact h
    split at he
    · injection he with h2; subst h2; exact hg1.2
    · split at he
      · rename_i hnone
        exact absurd hnone (ensureUser_finds _ _ _)
      · rename_i uid huid
        refine e3_join_tail ?_ hg1 (fun u => by repeat' first | split | rfl) huid he
        unfold joinSelfLearn Server.createChannel Server.casefold
        repeat' first | split | rfl

theorem e3_updUser {t : Server} (uid0 : Nat) (f : User → User)
    (hf : ∀ u, (f u).nickname = u.nickname) (h : extra3 t) :
    extra3 (t.updUser uid0 f) := by
  refine extra3_frame ?_ ?_ ?_ ?_ ?_ ?_ ?_ h <;>
    first
      | rfl
      | exact fun c hc => hc
      | exact le_refl _
      | exact userD_updUser_nickname t uid0 f hf

set_option maxHeartbeats 1000000 in
theorem e3_namesEntry {s : Server} {cid : Nat} {entry : String} {s' : Server}
    (h : good3 s) (he : namesEntry s cid entry = .ok s') : extra3 s' := by
  unfold namesEntry at he
  try simp only [] at he
  split at he
  · exact Except.noConfusion he
  · rename_i uid huid
    split at he
    · exact Except.noConfusion he
    · rename_i s2 heq2
      injection he with h2
      subst h2
      have hs2 : extra3 s2 :=
        e3_join_from_preJoin (preJoin_ensureUser rfl h huid) heq2
      refine e3_addMembModes _ _ _ ?_
      repeat' split
      all_goals first
        | exact hs2
        | (refine extra3_frame ?_ ?_ ?_ ?_ ?_ ?_ ?_ hs2 <;>
           first
             | rfl
             | exact fun c hc => hc
             | exact le_refl _
             | exact fun uid2 => by
                 by_cases he2 : uid = uid2
                 · subst he2
                   simp [Server.userD, Server.updUser, dlookup_dinsert_self]
                 · simp [Server.userD, Server.updUser, dlookup_dinsert_ne _ _ he2])

theorem g3_namesLoop (cid : Nat) :
    ∀ (entries : List String) (s s' : Server),
    good3 s → namesLoop s cid entries = .ok s' → good3 s' := by
  intro entries
  induction entries with
  | nil =>
    intro s s' h he
    unfold namesLoop at he
    injection he with h2; subst h2; exact h
  | cons e rest ih =>
    intro s s' h he
    unfold namesLoop at he
    split at he
    · exact Except.noConfusion he
    · rename_i s1 heq
      exact ih _ _ ⟨wf_namesEntry h.1 heq, e3_namesEntry h heq⟩ he

theorem e3_353 {s : Server} {l : Line} {s' : Server} (h : good3 s)
    (he : handle_353 s l = .ok s') : extra3 s' := by
  unfold handle_353 at he
  try simp only [] at he
  repeat' first
    | exact Except.noConfusion he
    | (injection he with h2; subst h2; exact h.2)
    | exact (g3_namesLoop _ _ _ _ h he).2
    | split at he

theorem e3_partLoop (cid : Nat) :
    ∀ (roster : List (Nat × ChannelUser)) (cur t : Server),
    dkeysNodup cur.user_channels →
    extra3 cur →
    partLoop cur cid roster = .ok t → extra3 t := by
  intro roster
  induction roster with
  | nil =>
    intro cur t nduc h he
    unfold partLoop at he
    injection he with h0
    subst h0
    exact h
  | cons hd rest ih =>
    intro cur t nduc h he
    obtain ⟨a1, a2, a3, a4, a5, a6, a7, a8, a9⟩ := h
    obtain ⟨uid, cu0⟩ := hd
    unfold partLoop at he
    try simp only [] at he
    split at he
    · exact Except.noConfusion he
    · rename_i cs hlu
      split at he
      · exact Except.noConfusion he
      · rename_i cs' hsr
        have hcs_mem : (uid, cs) ∈ cur.user_channels := dlookup_mem hlu
        have hk_uid : dlookup (cur.casefold (cur.userD uid).nickname) cur.users = some uid :=
          a9 _ hcs_mem
        split at he
        · -- the set emptied: remove the membership entry and the user
          rename_i hnil
          split at he
          · rename_i hdm
            refine ih _ _ ?_ ⟨?_, ?_, ?_, ?_, ?_, ?_, ?_, ?_, ?_⟩ he
            · exact dkeysNodup_derase _ (dkeysNodup_dinsert _ _ nduc)
            · exact dkeysNodup_derase _ a1
            · exact a2
            · exact a3
            · exact a4
            · exact a5
            · -- users values still have membership sets
              intro p hp
              try dsimp only at hp
              have hp2 := mem_derase_nodup a1 hp
              have hne_uid : p.2 ≠ uid := by
                intro e
                exact hp2.2 (a8 p hp2.1 _ (dlookup_mem hk_uid) e)
              show dmem p.2 (derase uid (dinsert uid cs' cur.user_channels)) = true
              rw [dmem_derase_ne (fun e => hne_uid e.symm),
                  dmem_dinsert_ne _ _ (fun e => hne_uid e.symm)]
              exact a6 p hp2.1
            · intro p hp
              try dsimp only at hp
              exact a7 p (mem_derase hp)
            · intro p hp q hq
              try dsimp only at hp hq
              exact a8 p (mem_derase hp) q (mem_derase hq)
            · intro p hp
              try dsimp only at hp
              have hp2 := mem_derase_nodup (dkeysNodup_dinsert _ _ nduc) hp
              rcases mem_dinsert nduc hp2.1 with hq | hq
              · exact absurd (by rw [hq]) hp2.2
              · have hk := a9 p hq.1
                have hkne : cur.casefold ((cur.userD p.1).nickname) ≠
                    cur.casefold ((cur.userD uid).nickname) := by
                  intro e
                  rw [e, hk_uid] at hk
                  injection hk with e2
                  exact hq.2 e2.symm
                show dlookup (cur.casefold (cur.userD p.1).nickname)
                    (derase (cur.casefold (cur.userD uid).nickname) cur.users) =
                  some p.1
                rw [dlookup_derase_ne _ (fun e => hkne e.symm)]
                exact hk
          · exact Except.noConfusion he
        · -- the set stays nonempty
          refine ih _ _ ?_ ⟨?_, ?_, ?_, ?_, ?_, ?_, ?_, ?_, ?_⟩ he
          · exact dkeysNodup_dinsert _ _ nduc
          · exact a1
          · exact a2
          · exact a3
          · exact a4
          · exact a5
          · intro p hp
            try dsimp only at hp
            exact dmem_dinsert_mono _ (a6 p hp)
          · exact a7
          · exact a8
          · intro p hp
            try dsimp only at hp
            rcases mem_dinsert nduc hp with hq | hq
            · rw [hq]
              exact hk_uid
            · exact a9 p hq.1

theorem e3_part_nonself {s t : Server} {uid cid : Nat} {cs cs' : List Nat}
    {nickname_lower : String} {roster : List (Nat × ChannelUser)}
    (h : good3 s)
    (hlu : dlookup nickname_lower s.users = some uid)
    (hluc : dlookup uid s.user_channels = some cs)
    (hsr : sremove cid cs = some cs')
    (hlr : dlookup cid s.channel_users = some roster)
    (htcu : t.channel_users = dinsert cid (derase uid roster) s.channel_users)
    (htnext : t.next_id = s.next_id)
    (htchan : t.channels = s.channels)
    (htud : t.user_data = s.user_data)
    (htis : t.isupport = s.isupport)
    (hu2ne : ∀ k, k ≠ uid → dlookup k t.user_channels = dlookup k s.user_channels)
    (hu2mem : ∀ p ∈ t.user_channels, p = (uid, cs') ∨ (p ∈ s.user_channels ∧ p.1 ≠ uid))
    (husers : (t.users = s.users ∧ dlookup uid t.user_channels = some cs') ∨
      (t.users = derase nickname_lower s.users ∧ dlookup uid t.user_channels = none)) :
    extra3 t := by
  obtain ⟨hwf, a1, a2, a3, a4, a5, a6, a7, a8, a9⟩ := h
  have hnlmem : (nickname_lower, uid) ∈ s.users := dlookup_mem hlu
  have hcf : ∀ x, t.casefold x = s.casefold x := by
    intro x; unfold Server.casefold; rw [htis]
  have hud : ∀ u2, t.userD u2 = s.userD u2 := by
    intro u2; unfold Server.userD; rw [htud]
  refine ⟨?_, ?_, ?_, ?_, ?_, ?_, ?_, ?_, ?_⟩
  · rcases husers with h1 | h1
    · rw [h1.1]; exact a1
    · rw [h1.1]; exact dkeysNodup_derase _ a1
  · rw [htchan]; exact a2
  · rw [htchan, htcu]
    exact fun p hp => dmem_dinsert_mono _ (a3 p hp)
  · rw [htchan, htnext]; exact a4
  · rw [htchan]; exact a5
  · intro p hp
    rcases husers with h1 | h1
    · rw [h1.1] at hp
      by_cases hpu : p.2 = uid
      · rw [hpu]
        unfold dmem
        rw [h1.2]
        rfl
      · unfold dmem
        rw [hu2ne _ hpu]
        exact a6 p hp
    · rw [h1.1] at hp
      have hp2 := mem_derase_nodup a1 hp
      have hpu : p.2 ≠ uid := by
        intro e
        exact hp2.2 (a8 p hp2.1 _ hnlmem e)
      unfold dmem
      rw [hu2ne _ hpu]
      exact a6 p hp2.1
  · intro p hp
    rw [htnext]
    rcases husers with h1 | h1
    · rw [h1.1] at hp; exact a7 p hp
    · rw [h1.1] at hp; exact a7 p (mem_derase hp)
  · intro p hp q hq
    rcases husers with h1 | h1
    · rw [h1.1] at hp hq; exact a8 p hp q hq
    · rw [h1.1] at hp hq; exact a8 p (mem_derase hp) q (mem_derase hq)
  · intro p hp
    rcases hu2mem p hp with h1 | h1
    · rcases husers with h2 | h2
      · rw [h1]
        show dlookup (t.casefold (t.userD uid).nickname) t.users = some uid
        rw [hcf, hud, h2.1]
        exact a9 (uid, cs) (dlookup_mem hluc)
      · exfalso
        have hdm : dmem p.1 t.user_channels = true := dmem_of_mem hp
        rw [h1] at hdm
        unfold dmem at hdm
        rw [h2.2] at hdm
        exact Bool.noConfusion hdm
    · have hk := a9 p h1.1
      rw [hcf, hud]
      rcases husers with h2 | h2
      · rw [h2.1]; exact hk
      · rw [h2.1]
        have hkne : s.casefold ((s.userD p.1).nickname) ≠ nickname_lower := by
          intro e
          rw [e, hlu] at hk
          injection hk with e2
          exact h1.2 e2.symm
        rw [dlookup_derase_ne _ (fun e => hkne e.symm)]
        exact hk

theorem e3_part_routine {s : Server} {nickname channel_name : String}
    {s' : Server} (h : good3 s)
    (he : part_routine s nickname channel_name = .ok s') : extra3 s' := by
  obtain ⟨hwf, a1, a2, a3, a4, a5, a6, a7, a8, a9⟩ := h
  unfold part_routine at he
  try simp only [] at he
  split at he
  · injection he with h0; subst h0; exact ⟨a1, a2, a3, a4, a5, a6, a7, a8, a9⟩
  · rename_i cid hlc
    split at he
    · -- self part
      split at he
      · exact Except.noConfusion he
      · rename_i roster hlr
        refine e3_partLoop cid roster _ _ ?_ ⟨?_, ?_, ?_, ?_, ?_, ?_, ?_, ?_, ?_⟩ he
        · exact hwf.1
        · exact a1
        · exact dkeysNodup_derase _ a2
        · intro p hp
          try dsimp only at hp
          have hp2 := mem_derase_nodup a2 hp
          have hne : p.2 ≠ cid := by
            intro e
            exact hp2.2 (a5 p hp2.1 _ (dlookup_mem hlc) e)
          show dmem p.2 (derase cid s.channel_users) = true
          rw [dmem_derase_ne (fun e2 => hne e2.symm)]
          exact a3 p hp2.1
        · intro p hp
          try dsimp only at hp
          exact a4 p (mem_derase hp)
        · intro p hp q hq
          try dsimp only at hp hq
          exact a5 p (mem_derase hp) q (mem_derase hq)
        · exact a6
        · exact a7
        · exact a8
        · exact a9
    · -- non-self part
      split at he
      · injection he with h0; subst h0; exact ⟨a1, a2, a3, a4, a5, a6, a7, a8, a9⟩
      · rename_i uid hlu
        split at he
        · exact Except.noConfusion he
        · rename_i cs hluc
          split at he
          · exact Except.noConfusion he
          · rename_i cs' hsr
            split at he
            · exact Except.noConfusion he
            · rename_i roster hlr
              split at he
              · injection he with h0
                subst h0
                have hlr' : dlookup cid s.channel_users = some roster := by
                  revert hlr
                  split
                  · intro hx; exact hx
                  · intro hx; exact hx
                refine e3_part_nonself ⟨hwf, a1, a2, a3, a4, a5, a6, a7, a8, a9⟩
                  hlu hluc hsr hlr' ?_ ?_ ?_ ?_ ?_ ?_ ?_ ?_
                · show (_ : Server).channel_users = _
                  split
                  · rfl
                  · rfl
                · split
                  · rfl
                  · rfl
                · split
                  · rfl
                  · rfl
                · split
                  · rfl
                  · rfl
                · split
                  · rfl
                  · rfl
                · intro k hk
                  split
                  · show dlookup k (derase uid (dinsert uid cs' s.user_channels)) = _
                    rw [dlookup_derase_ne _ (fun e => hk e.symm),
                        dlookup_dinsert_ne _ _ (fun e => hk e.symm)]
                  · show dlookup k (dinsert uid cs' s.user_channels) = _
                    rw [dlookup_dinsert_ne _ _ (fun e => hk e.symm)]
                · intro p hp
                  revert hp
                  split
                  · intro hp
                    try dsimp only at hp
                    have hp2 := mem_derase_nodup (dkeysNodup_dinsert _ _ hwf.1) hp
                    rcases mem_dinsert hwf.1 hp2.1 with hq | hq
                    · exact absurd (by rw [hq]) hp2.2
                    · exact Or.inr hq
                  · intro hp
                    try dsimp only at hp
                    rcases mem_dinsert hwf.1 hp with hq | hq
                    · exact Or.inl hq
                    · exact Or.inr hq
                · split
                  · rename_i hnil
                    refine Or.inr ⟨rfl, ?_⟩
                    show dlookup uid (derase uid (dinsert uid cs' s.user_channels)) = none
                    exact dlookup_derase_self _ (dkeysNodup_dinsert _ _ hwf.1)
                  · refine Or.inl ⟨rfl, ?_⟩
                    show dlookup uid (dinsert uid cs' s.user_channels) = some cs'
                    exact dlookup_dinsert_self _ _ _
              · exact Except.noConfusion he

theorem e3_PART {s : Server} {l : Line} {s' : Server} (h : good3 s)
    (he : handle_PART s l = .ok s') : extra3 s' := by
  unfold handle_PART at he
  split at he
  · exact Except.noConfusion he
  · exact e3_part_routine h he

theorem e3_KICK {s : Server} {l : Line} {s' : Server} (h : good3 s)
    (he : handle_KICK s l = .ok s') : extra3 s' := by
  unfold handle_KICK at he
  split at he
  · exact Except.noConfusion he
  · split at he
    · exact Except.noConfusion he
    · exact e3_part_routine h he

theorem e3_quitLoop (uid : Nat) :
    ∀ (cs : List Nat) (cur t : Server),
    dkeysNodup cur.user_channels →
    dkeysNodup cur.users →
    dkeysNodup cur.channels →
    (∀ p ∈ cur.channels, dmem p.2 cur.channel_users = true) →
    (∀ p ∈ cur.channels, p.2 < cur.next_id) →
    (∀ p ∈ cur.channels, ∀ q ∈ cur.channels, p.2 = q.2 → p.1 = q.1) →
    (∀ p ∈ cur.users, p.2 ≠ uid ∧ dmem p.2 cur.user_channels = true) →
    (∀ p ∈ cur.users, p.2 < cur.next_id) →
    (∀ p ∈ cur.users, ∀ q ∈ cur.users, p.2 = q.2 → p.1 = q.1) →
    (∀ p ∈ cur.user_channels, p.1 ≠ uid →
      dlookup (cur.casefold (cur.userD p.1).nickname) cur.users = some p.1) →
    quitLoop cur uid cs = .ok t → extra3 t := by
  intro cs
  induction cs with
  | nil =>
    intro cur t H1 b1 b2 b3 b4 b5 b6 b7 b8 b9 he
    unfold quitLoop at he
    injection he with h0
    subst h0
    refine ⟨b1, b2, b3, b4, b5, ?_, b7, b8, ?_⟩
    · intro p hp
      try dsimp only at hp
      show dmem p.2 (derase uid cur.user_channels) = true
      rw [dmem_derase_ne (fun e => (b6 p hp).1 e.symm)]
      exact (b6 p hp).2
    · intro p hp
      try dsimp only at hp
      have hp2 := mem_derase_nodup H1 hp
      exact b9 p hp2.1 hp2.2
  | cons c rest ih =>
    intro cur t H1 b1 b2 b3 b4 b5 b6 b7 b8 b9 he
    unfold quitLoop at he
    try simp only [] at he
    split at he
    · exact Except.noConfusion he
    · rename_i roster hlr
      split at he
      · refine ih _ _ ?_ ?_ ?_ ?_ ?_ ?_ ?_ ?_ ?_ ?_ he
        · exact H1
        · exact b1
        · exact b2
        · intro p hp
          try dsimp only at hp
          exact dmem_dinsert_mono _ (b3 p hp)
        · exact b4
        · exact b5
        · exact b6
        · exact b7
        · exact b8
        · exact b9
      · exact Except.noConfusion he

theorem e3_QUIT {s : Server} {l : Line} {s' : Server} (h : good3 s)
    (he : handle_QUIT s l = .ok s') : extra3 s' := by
  obtain ⟨hwf, a1, a2, a3, a4, a5, a6, a7, a8, a9⟩ := h
  unfold handle_QUIT at he
  try simp only [] at he
  split at he
  · injection he with h0; subst h0; exact extra3_selfQuit s
  · split at he
    · injection he with h0; subst h0; exact ⟨a1, a2, a3, a4, a5, a6, a7, a8, a9⟩
    · rename_i uid hlu
      split at he
      · exact Except.noConfusion he
      · rename_i cs hluc
        refine e3_quitLoop uid cs _ _ ?_ ?_ ?_ ?_ ?_ ?_ ?_ ?_ ?_ ?_ he
        · exact hwf.1
        · exact dkeysNodup_derase _ a1
        · exact a2
        · exact a3
        · exact a4
        · exact a5
        · intro p hp
          try dsimp only at hp
          have hp2 := mem_derase_nodup a1 hp
          have hne : p.2 ≠ uid := by
            intro e
            exact hp2.2 (a8 p hp2.1 _ (dlookup_mem hlu) e)
          exact ⟨hne, a6 p hp2.1⟩
        · intro p hp
          try dsimp only at hp
          exact a7 p (mem_derase hp)
        · intro p hp q hq
          try dsimp only at hp hq
          exact a8 p (mem_derase hp) q (mem_derase hq)
        · intro p hp hpne
          try dsimp only at hp
          have hk := a9 p hp
          have hkne : s.casefold ((s.userD p.1).nickname) ≠ s.casefold l.source.nickname := by
            intro e
            rw [e, hlu] at hk
            injection hk with e2
            exact hpne e2.symm
          show dlookup (s.casefold ((s.userD p.1).nickname))
            (derase (s.casefold l.source.nickname) s.users) = some p.1
          rw [dlookup_derase_ne _ (fun e => hkne e.symm)]
          exact hk

theorem e3_375chain {s : Server} {l : Line} {s' : Server} (h : extra3 s)
    (he : (match handle_375 s l with
           | .ok s1 => handle_372 s1 l
           | .error e => .error e) = .ok s') : extra3 s' := by
  split at he
  · rename_i s1 heq
    exact e3_372 (e3_375 h heq) he
  · exact Except.noConfusion he

theorem good3_step {s : Server} {l : Line} {s' : Server} (h : good3 s)
    (h5 : l.command ≠ "005") (hN : l.command ≠ "NICK")
    (he : step s l = .ok s') : good3 s' := by
  have hwf : WF s' := WF_step h.1 he
  refine ⟨hwf, ?_⟩
  unfold step at he
  by_cases hc1 : l.command = "001"
  · rw [if_pos hc1] at he; exact e3_001 h.2 he
  rw [if_neg hc1] at he
  by_cases hc2 : l.command = "005"
  · rw [if_pos hc2] at he; exact absurd hc2 h5
  rw [if_neg hc2] at he
  by_cases hc3 : l.command = "375"
  · rw [if_pos hc3] at he; exact e3_375chain h.2 he
  rw [if_neg hc3] at he
  by_cases hc4 : l.command = "372"
  · rw [if_pos hc4] at he; exact e3_372 h.2 he
  rw [if_neg hc4] at he
  by_cases hc5 : l.command = "NICK"
  · rw [if_pos hc5] at he; exact absurd hc5 hN
  rw [if_neg hc5] at he
  by_cases hc6 : l.command = "JOIN"
  · rw [if_pos hc6] at he; exact e3_JOIN h he
  rw [if_neg hc6] at he
  by_cases hc7 : l.command = "PART"
  · rw [if_pos hc7] at he; exact e3_PART h he
  rw [if_neg hc7] at he
  by_cases hc8 : l.command = "KICK"
  · rw [if_pos hc8] at he; exact e3_KICK h he
  rw [if_neg hc8] at he
  by_cases hc9 : l.command = "QUIT"
  · rw [if_pos hc9] at he; exact e3_QUIT h he
  rw [if_neg hc9] at he
  by_cases hc10 : l.command = "ERROR"
  · rw [if_pos hc10] at he; exact e3_ERROR he
  rw [if_neg hc10] at he
  by_cases hc11 : l.command = "353"
  · rw [if_pos hc11] at he; exact e3_353 h he
  rw [if_neg hc11] at he
  by_cases hc12 : l.command = "329"
  · rw [if_pos hc12] at he; exact e3_329 h.2 he
  rw [if_neg hc12] at he
  by_cases hc13 : l.command = "TOPIC"
  · rw [if_pos hc13] at he; exact e3_TOPIC h.2 he
  rw [if_neg hc13] at he
  by_cases hc14 : l.command = "332"
  · rw [if_pos hc14] at he; exact e3_332 h.2 he
  rw [if_neg hc14] at he
  by_cases hc15 : l.command = "333"
  · rw [if_pos hc15] at he; exact e3_333 h.2 he
  rw [if_neg hc15] at he
  by_cases hc16 : l.command = "MODE"
  · rw [if_pos hc16] at he; exact e3_MODE h.2 he
  rw [if_neg hc16] at he
  by_cases hc17 : l.command = "324"
  · rw [if_pos hc17] at he; exact e3_324 h.2 he
  rw [if_neg hc17] at he
  by_cases hc18 : l.command = "211"
  · rw [if_pos hc18] at he; exact e3_211 h.2 he
  rw [if_neg hc18] at he
  by_cases hc19 : l.command = "PRIVMSG"
  · rw [if_pos hc19] at he; exact e3_PRIVMSG h.2 he
  rw [if_neg hc19] at he
  by_cases hc20 : l.command = "NOTICE"
  · rw [if_pos hc20] at he; exact e3_PRIVMSG h.2 he
  rw [if_neg hc20] at he
  by_cases hc21 : l.command = "TAGMSG"
  · rw [if_pos hc21] at he; exact e3_PRIVMSG h.2 he
  rw [if_neg hc21] at he
  by_cases hc22 : l.command = "396"
  · rw [if_pos hc22] at he; exact e3_396 h.2 he
  rw [if_neg hc22] at he
  by_cases hc23 : l.command = "352"
  · rw [if_pos hc23] at he; exact e3_352 h.2 he
  rw [if_neg hc23] at he
  by_cases hc24 : l.command = "311"
  · rw [if_pos hc24] at he; exact e3_311 h.2 he
  rw [if_neg hc24] at he
  by_cases hc25 : l.command = "CHGHOST"
  · rw [if_pos hc25] at he; exact e3_CHGHOST h.2 he
  rw [if_neg hc25] at he
  by_cases hc26 : l.command = "SETNAME"
  · rw [if_pos hc26] at he; exact e3_SETNAME h.2 he
  rw [if_neg hc26] at he
  by_cases hc27 : l.command = "AWAY"
  · rw [if_pos hc27] at he; exact e3_AWAY h.2 he
  rw [if_neg hc27] at he
  by_cases hc28 : l.command = "ACCOUNT"
  · rw [if_pos hc28] at he; exact e3_ACCOUNT h.2 he
  rw [if_neg hc28] at he
  by_cases hc29 : l.command = "CAP"
  · rw [if_pos hc29] at he; exact e3_CAP h.2 he
  rw [if_neg hc29] at he
  injection he with h2; subst h2; exact h.2

theorem good3_init : good3 initServer := ⟨WF_init, extra3_init⟩

theorem good3_stepsOk : ∀ (lines : List Line) (s s' : Server),
    (∀ l ∈ lines, l.command ≠ "005" ∧ l.command ≠ "NICK") →
    good3 s → stepsOk s lines = some s' → good3 s' := by
  intro lines
  induction lines with
  | nil =>
    intro s s' _ h he
    unfold stepsOk at he
    injection he with h2; subst h2; exact h
  | cons l rest ih =>
    intro s s' hres h he
    unfold stepsOk at he
    split at he
    · rename_i s1 heq
      refine ih _ _ (fun x hx => hres x (List.mem_cons_of_mem _ hx)) ?_ he
      exact good3_step h (hres l (List.mem_cons_self _ _)).1
        (hres l (List.mem_cons_self _ _)).2 heq
    · exact Option.noConfusion he

/-! ### Error payloads of the pre-mutation-checking handlers -/

theorem err_001 {s : Server} {l : Line} {s' : Server}
    (he : handle_001 s l = .error s') : s' = s := by
  unfold handle_001 at he
  try simp only [] at he
  repeat' first
    | (injection he with h2; exact h2.symm)
    | exact Except.noConfusion he
    | split at he

theorem err_005 {s : Server} {l : Line} {s' : Server}
    (he : handle_005 s l = .error s') : s' = s := by
  unfold handle_005 at he
  try simp only [] at he
  repeat' first
    | (injection he with h2; exact h2.symm)
    | exact Except.noConfusion he
    | split at he

theorem err_372 {s : Server} {l : Line} {s' : Server}
    (he : handle_372 s l = .error s') : s' = s := by
  unfold handle_372 at he
  try simp only [] at he
  repeat' first
    | (injection he with h2; exact h2.symm)
    | exact Except.noConfusion he
    | split at he

theorem err_NICK {s : Server} {l : Line} {s' : Server}
    (he : handle_NICK s l = .error s') : s' = s := by
  unfold handle_NICK at he
  try simp only [] at he
  repeat' first
    | (injection he with h2; exact h2.symm)
    | exact Except.noConfusion he
    | split at he

theorem err_329 {s : Server} {l : Line} {s' : Server}
    (he : handle_329 s l = .error s') : s' = s := by
  unfold handle_329 at he
  try simp only [] at he
  repeat' first
    | (injection he with h2; exact h2.symm)
    | exact Except.noConfusion he
    | split at he

theorem err_TOPIC {s : Server} {l : Line} {s' : Server}
    (he : handle_TOPIC s l = .error s') : s' = s := by
  unfold handle_TOPIC at he
  try simp only [] at he
  repeat' first
    | (injection he with h2; exact h2.symm)
    | exact Except.noConfusion he
    | split at he

theorem err_332 {s : Server} {l : Line} {s' : Server}
    (he : handle_332 s l = .error s') : s' = s := by
  unfold handle_332 at he
  try simp only [] at he
  repeat' first
    | (injection he with h2; exact h2.symm)
    | exact Except.noConfusion he
    | split at he

theorem err_211 {s : Server} {l : Line} {s' : Server}
    (he : handle_211 s l = .error s') : s' = s := by
  unfold handle_211 at he
  try simp only [] at he
  repeat' first
    | (injection he with h2; exact h2.symm)
    | exact Except.noConfusion he
    | split at he

theorem err_396 {s : Server} {l : Line} {s' : Server}
    (he : handle_396 s l = .error s') : s' = s := by
  unfold handle_396 at he
  try simp only [] at he
  repeat' first
    | (injection he with h2; exact h2.symm)
    | exact Except.noConfusion he
    | split at he

theorem err_352 {s : Server} {l : Line} {s' : Server}
    (he : handle_352 s l = .error s') : s' = s := by
  unfold handle_352 at he
  try simp only [] at he
  repeat' first
    | (injection he with h2; exact h2.symm)
    | exact Except.noConfusion he
    | split at he

theorem err_311 {s : Server} {l : Line} {s' : Server}
    (he : handle_311 s l = .error s') : s' = s := by
  unfold handle_311 at he
  try simp only [] at he
  repeat' first
    | (injection he with h2; exact h2.symm)
    | exact Except.noConfusion he
    | split at he

theorem err_CHGHOST {s : Server} {l : Line} {s' : Server}
    (he : handle_CHGHOST s l = .error s') : s' = s := by
  unfold handle_CHGHOST at he
  try simp only [] at he
  repeat' first
    | (injection he with h2; exact h2.symm)
    | exact Except.noConfusion he
    | split at he

theorem err_SETNAME {s : Server} {l : Line} {s' : Server}
    (he : handle_SETNAME s l = .error s') : s' = s := by
  unfold handle_SETNAME at he
  try simp only [] at he
  repeat' first
    | (injection he with h2; exact h2.symm)
    | exact Except.noConfusion he
    | split at he

theorem err_AWAY {s : Server} {l : Line} {s' : Server}
    (he : handle_AWAY s l = .error s') : s' = s := by
  unfold handle_AWAY at he
  try simp only [] at he
  repeat' first
    | (injection he with h2; exact h2.symm)
    | exact Except.noConfusion he
    | split at he

theorem err_ACCOUNT {s : Server} {l : Line} {s' : Server}
    (he : handle_ACCOUNT s l = .error s') : s' = s := by
  unfold handle_ACCOUNT at he
  try simp only [] at he
  repeat' first
    | (injection he with h2; exact h2.symm)
    | exact Except.noConfusion he
    | split at he

theorem err_CAP {s : Server} {l : Line} {s' : Server}
    (he : handle_CAP s l = .error s') : s' = s := by
  unfold handle_CAP at he
  try simp only [] at he
  repeat' first
    | (injection he with h2; exact h2.symm)
    | exact Except.noConfusion he
    | split at he

theorem err_ERROR {s : Server} {l : Line} {s' : Server}
    (he : handle_ERROR s l = .error s') : s' = s := by
  unfold handle_ERROR at he
  try simp only [] at he
  repeat' first
    | (injection he with h2; exact h2.symm)
    | exact Except.noConfusion he
    | split at he

/-! ### The raising branches of JOIN, 353, PART, KICK and QUIT are
unreachable from a well-formed state -/

theorem ensureUser_channel_users (s : Server) (nick nickLower : String) :
    (s.ensureUser nick nickLower).channel_users = s.channel_users := by
  unfold Server.ensureUser
  split
  · rfl
  · rfl

theorem namesEntry_no_error {s : Server} {cid : Nat} {entry : String} {e : Server}
    (hdm : dmem cid s.channel_users = true)
    (he : namesEntry s cid entry = .error e) : False := by
  unfold namesEntry at he
  try simp only [] at he
  split at he
  · rename_i hnone
    exact absurd hnone (ensureUser_finds _ _ _)
  · rename_i uid hlu
    split at he
    · rename_i e2 heq2
      rw [user_join_eq] at heq2
      split at heq2
      · exact Except.noConfusion heq2
      · rename_i hc
        rw [ensureUser_channel_users] at hc
        unfold dmem at hdm
        rw [hc] at hdm
        exact Bool.noConfusion hdm
    · exact Except.noConfusion he

theorem namesEntry_cu_dmem {s : Server} {cid : Nat} {entry : String} {t : Server}
    (he : namesEntry s cid entry = .ok t)
    (hdm : dmem cid s.channel_users = true) : dmem cid t.channel_users = true := by
  unfold namesEntry at he
  try simp only [] at he
  split at he
  · exact Except.noConfusion he
  · rename_i uid hlu
    split at he
    · exact Except.noConfusion he
    · rename_i s2 heq2
      injection he with h2
      subst h2
      rw [user_join_eq] at heq2
      split at heq2
      · rename_i roster hc
        injection heq2 with h3
        subst h3
        unfold addMembModes
        repeat' first
          | exact dmem_dinsert_self _ _ _
          | split
      · exact Except.noConfusion heq2

theorem namesLoop_no_error (cid : Nat) : ∀ (entries : List String) (s e : Server),
    dmem cid s.channel_users = true →
    namesLoop s cid entries = .error e → False := by
  intro entries
  induction entries with
  | nil =>
    intro s e _ he
    unfold namesLoop at he
    exact Except.noConfusion he
  | cons x rest ih =>
    intro s e hdm he
    unfold namesLoop at he
    split at he
    · rename_i e2 heq
      exact namesEntry_no_error hdm heq
    · rename_i s1 heq
      exact ih _ _ (namesEntry_cu_dmem heq hdm) he

theorem err_353 {s : Server} {l : Line} {s' : Server} (h : good3 s)
    (he : handle_353 s l = .error s') : s' = s := by
  unfold handle_353 at he
  try simp only [] at he
  split at he
  · injection he with h2; exact h2.symm
  · rename_i p2 hp2
    split at he
    · exact Except.noConfusion he
    · rename_i cid hcid
      split at he
      · injection he with h2; exact h2.symm
      · rename_i p3 hp3
        exfalso
        have hdm : dmem cid s.channel_users = true :=
          h.2.2.2.1 _ (dlookup_mem hcid)
        exact namesLoop_no_error _ _ _ _ hdm he

theorem user_join_no_error {t : Server} {cid uid : Nat} {e : Server}
    (hdm : dmem cid t.channel_users = true)
    (he : t.user_join cid uid = .error e) : False := by
  rw [user_join_eq] at he
  split at he
  · exact Except.noConfusion he
  · rename_i hc
    unfold dmem at hdm
    rw [hc] at hdm
    exact Bool.noConfusion hdm

theorem updUser_channel_users (s : Server) (uid : Nat) (f : User → User) :
    (s.updUser uid f).channel_users = s.channel_users := rfl

theorem err_JOIN {s : Server} {l : Line} {s' : Server} (h : good3 s)
    (he : handle_JOIN s l = .error s') : s' = s := by
  unfold handle_JOIN at he
  try simp only [] at he
  split at he
  · injection he with h2; exact h2.symm
  · rename_i p0 _
    have hg1 : good3 (if s.casefold l.source.nickname = s.nickname_lower then
        joinSelfLearn (if dmem (s.casefold p0) s.channels then s
                       else s.createChannel (s.casefold p0) p0)
          l (l.params.length = 3)
          (if l.params.length = 3 then some (stripChars '*' (l.params.getD 1 "")) else none)
          (if l.params.length = 3 then l.params.get? 2 else none)
      else s) := by
      split
      · refine g3_joinSelfLearn _ _ _ _ ?_
        split
        · exact h
        · rename_i hdm
          refine ⟨wf_createChannel _ _ h.1, e3_createChannel _ _ ?_ h.2⟩
          cases hdd : dmem (s.casefold p0) s.channels with
          | false => rfl
          | true => exact absurd hdd hdm
      · exact h
    split at he
    · exact Except.noConfusion he
    · rename_i cid hcid
      split at he
      · exact Except.noConfusion he
      · rename_i uid huid
        exfalso
        refine user_join_no_error ?_ he
        rw [updUser_channel_users, ensureUser_channel_users]
        exact hg1.2.2.2.1 _ (dlookup_mem hcid)

theorem partLoop_no_error (cid : Nat) :
    ∀ (roster : List (Nat × ChannelUser)) (cur e : Server),
    (dkeys roster).Nodup →
    (∀ p ∈ roster, ∃ cs, dlookup p.1 cur.user_channels = some cs ∧ cid ∈ cs) →
    (∀ p ∈ roster, dlookup (cur.casefold (cur.userD p.1).nickname) cur.users = some p.1) →
    partLoop cur cid roster = .error e → False := by
  intro roster
  induction roster with
  | nil =>
    intro cur e _ _ _ he
    unfold partLoop at he
    exact Except.noConfusion he
  | cons hd rest ih =>
    intro cur e hnd hA hB he
    obtain ⟨uid, cu0⟩ := hd
    have hnd' : uid ∉ dkeys rest ∧ (dkeys rest).Nodup := by
      simpa [dkeys] using hnd
    obtain ⟨cs, hlu, hcid⟩ := hA (uid, cu0) (List.mem_cons_self _ _)
    have hlu2 : dlookup uid cur.user_channels = some cs := hlu
    have hkl' := hB (uid, cu0) (List.mem_cons_self _ _)
    have hkl : dlookup (cur.casefold (cur.userD uid).nickname) cur.users = some uid := hkl'
    unfold partLoop at he
    try simp only [] at he
    split at he
    · rename_i hx
      rw [hlu2] at hx
      exact Option.noConfusion hx
    · rename_i cs2 hx
      rw [hlu2] at hx
      injection hx with hx2
      subst hx2
      split at he
      · rename_i hy
        unfold sremove at hy
        rw [if_pos (bmem_iff.mpr hcid)] at hy
        exact Option.noConfusion hy
      · rename_i cs' hy
        split at he
        · rename_i hnil
          split at he
          · rename_i hdm
            refine ih _ _ hnd'.2 ?_ ?_ he
            · intro p hp
              have hpne : p.1 ≠ uid := by
                intro e2
                exact hnd'.1 (e2 ▸ mem_dkeys_of_mem hp)
              obtain ⟨cs0, hl0, hm0⟩ := hA p (List.mem_cons_of_mem _ hp)
              refine ⟨cs0, ?_, hm0⟩
              show dlookup p.1 (derase uid (dinsert uid cs'
                cur.user_channels)) = some cs0
              rw [dlookup_derase_ne _ (fun e2 => hpne e2.symm),
                  dlookup_dinsert_ne _ _ (fun e2 => hpne e2.symm)]
              exact hl0
            · intro p hp
              have hpne : p.1 ≠ uid := by
                intro e2
                exact hnd'.1 (e2 ▸ mem_dkeys_of_mem hp)
              have hk := hB p (List.mem_cons_of_mem _ hp)
              have hkne : cur.casefold ((cur.userD p.1).nickname) ≠
                  cur.casefold ((cur.userD uid).nickname) := by
                intro e2
                rw [e2, hkl] at hk
                injection hk with e3
                exact hpne e3.symm
              show dlookup (cur.casefold (cur.userD p.1).nickname)
                (derase (cur.casefold (cur.userD uid).nickname) cur.users) = some p.1
              rw [dlookup_derase_ne _ (fun e2 => hkne e2.symm)]
              exact hk
          · rename_i hdm
            refine hdm ?_
            show dmem (cur.casefold (cur.userD uid).nickname) cur.users = true
            unfold dmem
            rw [hkl]
            rfl
        · refine ih _ _ hnd'.2 ?_ ?_ he
          · intro p hp
            have hpne : p.1 ≠ uid := by
              intro e2
              exact hnd'.1 (e2 ▸ mem_dkeys_of_mem hp)
            obtain ⟨cs0, hl0, hm0⟩ := hA p (List.mem_cons_of_mem _ hp)
            refine ⟨cs0, ?_, hm0⟩
            show dlookup p.1 (dinsert uid cs' cur.user_channels) = some cs0
            rw [dlookup_dinsert_ne _ _ (fun e2 => hpne e2.symm)]
            exact hl0
          · intro p hp
            exact hB p (List.mem_cons_of_mem _ hp)

theorem quitLoop_no_error (uid : Nat) :
    ∀ (cs : List Nat) (cur e : Server),
    cs.Nodup →
    (∀ c ∈ cs, cuHas cur.channel_users c uid) →
    quitLoop cur uid cs = .error e → False := by
  intro cs
  induction cs with
  | nil =>
    intro cur e _ _ he
    unfold quitLoop at he
    exact Except.noConfusion he
  | cons c rest ih =>
    intro cur e hnd hA he
    have hnd' : c ∉ rest ∧ rest.Nodup := by simpa using hnd
    obtain ⟨roster, hlr, hdm⟩ := hA c (List.mem_cons_self _ _)
    unfold quitLoop at he
    try simp only [] at he
    split at he
    · rename_i hx
      rw [hlr] at hx
      exact Option.noConfusion hx
    · rename_i roster2 hx
      rw [hlr] at hx
      injection hx with hx2
      subst hx2
      split at he
      · refine ih _ _ hnd'.2 ?_ he
        intro c2 hc2
        have hcne : c2 ≠ c := fun e2 => hnd'.1 (e2 ▸ hc2)
        obtain ⟨r0, hl0, hm0⟩ := hA c2 (List.mem_cons_of_mem _ hc2)
        refine ⟨r0, ?_, hm0⟩
        show dlookup c2 (dinsert c (derase uid roster) cur.channel_users) = some r0
        rw [dlookup_dinsert_ne _ _ (fun e2 => hcne e2.symm)]
        exact hl0
      · rename_i hdm2
        exact hdm2 hdm

theorem err_part_routine {s : Server} {nickname channel_name : String}
    {s' : Server} (h : good3 s)
    (he : part_routine s nickname channel_name = .error s') : s' = s := by
  obtain ⟨hwf, a1, a2, a3, a4, a5, a6, a7, a8, a9⟩ := h
  obtain ⟨nd_uc, nd_cu, nd_r, nd_s, fresh, inv1, inv2⟩ := hwf
  unfold part_routine at he
  try simp only [] at he
  split at he
  · exact Except.noConfusion he
  · rename_i cid hlc
    split at he
    · split at he
      · rename_i hx
        exfalso
        have hdm := a3 _ (dlookup_mem hlc)
        unfold dmem at hdm
        rw [show dlookup cid s.channel_users = none from hx] at hdm
        exact Bool.noConfusion hdm
      · rename_i roster hlr
        exfalso
        have hlr' : dlookup cid s.channel_users = some roster := hlr
        refine partLoop_no_error cid roster _ _ ?_ ?_ ?_ he
        · exact nd_r _ (dlookup_mem hlr')
        · intro p hp
          obtain ⟨cs0, hl0, hm0⟩ := inv1 _ (dlookup_mem hlr') p hp
          exact ⟨cs0, hl0, hm0⟩
        · intro p hp
          obtain ⟨cs0, hl0, _⟩ := inv1 _ (dlookup_mem hlr') p hp
          exact a9 (p.1, cs0) (dlookup_mem hl0)
    · split at he
      · exact Except.noConfusion he
      · rename_i uid hlu
        split at he
        · injection he with h2; exact h2.symm
        · rename_i cs hluc
          split at he
          · injection he with h2; exact h2.symm
          · rename_i cs' hsr
            split at he
            · rename_i hx
              exfalso
              have hdm := a3 _ (dlookup_mem hlc)
              unfold dmem at hdm
              have hx2 : dlookup cid s.channel_users = none := by
                revert hx
                split <;> (intro hx; exact hx)
              rw [hx2] at hdm
              exact Bool.noConfusion hdm
            · rename_i roster hlr
              split at he
              · exact Except.noConfusion he
              · rename_i hneg
                exfalso
                have hlr' : dlookup cid s.channel_users = some roster := by
                  revert hlr
                  split <;> (intro hx; exact hx)
                obtain ⟨hcid_cs, _, _⟩ := sremove_eq_some hsr
                obtain ⟨r0, hl0, hm0⟩ := inv2 _ (dlookup_mem hluc) _ hcid_cs
                rw [hlr'] at hl0
                injection hl0 with e0
                subst e0
                exact hneg hm0

theorem err_PART {s : Server} {l : Line} {s' : Server} (h : good3 s)
    (he : handle_PART s l = .error s') : s' = s := by
  unfold handle_PART at he
  split at he
  · injection he with h2; exact h2.symm
  · exact err_part_routine h he

theorem err_KICK {s : Server} {l : Line} {s' : Server} (h : good3 s)
    (he : handle_KICK s l = .error s') : s' = s := by
  unfold handle_KICK at he
  split at he
  · injection he with h2; exact h2.symm
  · split at he
    · injection he with h2; exact h2.symm
    · exact err_part_routine h he

theorem err_QUIT {s : Server} {l : Line} {s' : Server} (h : good3 s)
    (he : handle_QUIT s l = .error s') : s' = s := by
  obtain ⟨hwf, a1, a2, a3, a4, a5, a6, a7, a8, a9⟩ := h
  obtain ⟨nd_uc, nd_cu, nd_r, nd_s, fresh, inv1, inv2⟩ := hwf
  unfold handle_QUIT at he
  try simp only [] at he
  split at he
  · exact Except.noConfusion he
  · split at he
    · exact Except.noConfusion he
    · rename_i uid hlu
      split at he
      · rename_i hx
        exfalso
        have hdm := a6 _ (dlookup_mem hlu)
        unfold dmem at hdm
        rw [show dlookup uid s.user_channels = none from hx] at hdm
        exact Bool.noConfusion hdm
      · rename_i cs hluc
        exfalso
        have hluc' : dlookup uid s.user_channels = some cs := hluc
        refine quitLoop_no_error uid cs _ _ ?_ ?_ he
        · exact nd_s _ (dlookup_mem hluc')
        · intro c hc
          exact inv2 _ (dlookup_mem hluc') _ hc

/-! ### The C3 claim -/

/-- Register and self-join `#ch`. -/
def c3Lines : List Line :=
  [{ command := "001", params := ["me", "x"], source := { nickname := "srv" } },
   { command := "JOIN", params := ["#ch"], source := { nickname := "me" } }]

/-- The session state after the C3 prefix. -/
def c3S : Server := (stepsOk initServer c3Lines).getD initServer

/-- A channel MODE whose chars require more parameters than supplied. -/
def c3ModeLine : Line :=
  { command := "MODE", params := ["#ch", "+oo", "me"], source := { nickname := "srv" } }

/-- The state at the moment `handle_MODE` raises on that line. -/
def c3E : Server := resultState (step c3S c3ModeLine)

/-- C3 counterexample: from the reachable state after `001` and a self
`JOIN #ch`, the line `MODE #ch +oo me` raises (the second `o` finds the
parameter queue empty) *after* the first `o` has already granted `me`
channel-operator status: the handler errors with a visibly mutated
roster, so `handle_MODE` is not atomic. -/
theorem c3_counterexample :
    stepsOk initServer c3Lines = some c3S ∧
    step c3S c3ModeLine = .error c3E ∧
    dlookup 0 c3E.channel_users ≠ dlookup 0 c3S.channel_users :=
  ⟨rfl, rfl, by decide⟩

/-- C3 amended: along any trace free of `005` and `NICK` lines, every
handler other than the MOTD-start chain (`375`), `333`, `MODE`, `324`
and the PRIVMSG family raises only before its first mutation: an error
leaves the session state exactly as it was. -/
theorem c3_atomicity_amended (lines : List Line)
    (hres : ∀ l ∈ lines, l.command ≠ "005" ∧ l.command ≠ "NICK")
    (s : Server) (h : stepsOk initServer lines = some s)
    (l : Line)
    (hcmd : l.command ∉ (["375", "333", "MODE", "324",
      "PRIVMSG", "NOTICE", "TAGMSG"] : List String))
    (s' : Server) (he : step s l = .error s') : s' = s := by
  have hg : good3 s := good3_stepsOk lines initServer s hres good3_init h
  unfold step at he
  by_cases hd1 : l.command = "001"
  · rw [if_pos hd1] at he; exact err_001 he
  rw [if_neg hd1] at he
  by_cases hd2 : l.command = "005"
  · rw [if_pos hd2] at he; exact err_005 he
  rw [if_neg hd2] at he
  by_cases hd3 : l.command = "375"
  · exact absurd (by rw [hd3]; decide) hcmd
  rw [if_neg hd3] at he
  by_cases hd4 : l.command = "372"
  · rw [if_pos hd4] at he; exact err_372 he
  rw [if_neg hd4] at he
  by_cases hd5 : l.command = "NICK"
  · rw [if_pos hd5] at he; exact err_NICK he
  rw [if_neg hd5] at he
  by_cases hd6 : l.command = "JOIN"
  · rw [if_pos hd6] at he; exact err_JOIN hg he
  rw [if_neg hd6] at he
  by_cases hd7 : l.command = "PART"
  · rw [if_pos hd7] at he; exact err_PART hg he
  rw [if_neg hd7] at he
  by_cases hd8 : l.command = "KICK"
  · rw [if_pos hd8] at he; exact err_KICK hg he
  rw [if_neg hd8] at he
  by_cases hd9 : l.command = "QUIT"
  · rw [if_pos hd9] at he; exact err_QUIT hg he
  rw [if_neg hd9] at he
  by_cases hd10 : l.command = "ERROR"
  · rw [if_pos hd10] at he; exact err_ERROR he
  rw [if_neg hd10] at he
  by_cases hd11 : l.command = "353"
  · rw [if_pos hd11] at he; exact err_353 hg he
  rw [if_neg hd11] at he
  by_cases hd12 : l.command = "329"
  · rw [if_pos hd12] at he; exact err_329 he
  rw [if_neg hd12] at he
  by_cases hd13 : l.command = "TOPIC"
  · rw [if_pos hd13] at he; exact err_TOPIC he
  rw [if_neg hd13] at he
  by_cases hd14 : l.command = "332"
  · rw [if_pos hd14] at he; exact err_332 he
  rw [if_neg hd14] at he
  by_cases hd15 : l.command = "333"
  · exact absurd (by rw [hd15]; decide) hcmd
  rw [if_neg hd15] at he
  by_cases hd16 : l.command = "MODE"
  · exact absurd (by rw [hd16]; decide) hcmd
  rw [if_neg hd16] at he
  by_cases hd17 : l.command = "324"
  · exact absurd (by rw [hd17]; decide) hcmd
  rw [if_neg hd17] at he
  by_cases hd18 : l.command = "211"
  · rw [if_pos hd18] at he; exact err_211 he
  rw [if_neg hd18] at he
  by_cases hd19 : l.command = "PRIVMSG"
  · exact absurd (by rw [hd19]; decide) hcmd
  rw [if_neg hd19] at he
  by_cases hd20 : l.command = "NOTICE"
  · exact absurd (by rw [hd20]; decide) hcmd
  rw [if_neg hd20] at he
  by_cases hd21 : l.command = "TAGMSG"
  · exact absurd (by rw [hd21]; decide) hcmd
  rw [if_neg hd21] at he
  by_cases hd22 : l.command = "396"
  · rw [if_pos hd22] at he; exact err_396 he
  rw [if_neg hd22] at he
  by_cases hd23 : l.command = "352"
  · rw [if_pos hd23] at he; exact err_352 he
  rw [if_neg hd23] at he
  by_cases hd24 : l.command = "311"
  · rw [if_pos hd24] at he; exact err_311 he
  rw [if_neg hd24] at he
  by_cases hd25 : l.command = "CHGHOST"
  · rw [if_pos hd25] at he; exact err_CHGHOST he
  rw [if_neg hd25] at he
  by_cases hd26 : l.command = "SETNAME"
  · rw [if_pos hd26] at he; exact err_SETNAME he
  rw [if_neg hd26] at he
  by_cases hd27 : l.command = "AWAY"
  · rw [if_pos hd27] at he; exact err_AWAY he
  rw [if_neg hd27] at he
  by_cases hd28 : l.command = "ACCOUNT"
  · rw [if_pos hd28] at he; exact err_ACCOUNT he
  rw [if_neg hd28] at he
  by_cases hd29 : l.command = "CAP"
  · rw [if_pos hd29] at he; exact err_CAP he
  rw [if_neg hd29] at he
  exact Except.noConfusion he

/-- The C3 witness prefix: a bare registration. -/
def c3WLines : List Line :=
  [{ command := "001", params := ["me", "x"], source := { nickname := "srv" } }]

/-- The registered state for the C3 witness. -/
def c3WS : Server := (stepsOk initServer c3WLines).getD initServer

/-- A JOIN with no parameters, which raises. -/
def c3WLine : Line :=
  { command := "JOIN", params := [], source := { nickname := "me" } }

theorem c3_atomicity_amended_witness :
    resultState (step c3WS c3WLine) = c3WS :=
  c3_atomicity_amended c3WLines (by decide) c3WS rfl c3WLine (by decide) _ rfl

/-! ### Claim C5: membership sets are never stored empty -/

/-- Every `user_channels` set is nonempty. -/
def ucNE (s : Server) : Prop := ∀ p ∈ s.user_channels, p.2 ≠ []

theorem ucNE_init : ucNE initServer := by
  intro p hp
  simp [initServer] at hp

theorem sadd_ne_nil {α : Type} [DecidableEq α] (x : α) (l : List α) :
    sadd x l ≠ [] := by
  unfold sadd
  split
  · rename_i hb
    intro e
    subst e
    simp [bmem] at hb
  · intro e
    exact absurd e (by simp)

theorem ucne_001 {s : Server} {l : Line} {s' : Server}
    (h : ucNE s) (he : handle_001 s l = .ok s') : ucNE s' := by
  unfold handle_001 at he
  try simp only [] at he
  repeat' first
    | exact Except.noConfusion he
    | (injection he with h2; subst h2
       intro p hp
       revert hp
       repeat' split
       all_goals intro hp
       all_goals first | exact h p hp | simp [Server.selfQuit] at hp)
    | split at he

theorem ucne_005 {s : Server} {l : Line} {s' : Server}
    (h : ucNE s) (he : handle_005 s l = .ok s') : ucNE s' := by
  unfold handle_005 at he
  try simp only [] at he
  repeat' first
    | exact Except.noConfusion he
    | (injection he with h2; subst h2
       intro p hp
       revert hp
       repeat' split
       all_goals intro hp
       all_goals first | exact h p hp | simp [Server.selfQuit] at hp)
    | split at he

theorem ucne_372 {s : Server} {l : Line} {s' : Server}
    (h : ucNE s) (he : handle_372 s l = .ok s') : ucNE s' := by
  unfold handle_372 at he
  try simp only [] at he
  repeat' first
    | exact Except.noConfusion he
    | (injection he with h2; subst h2
       intro p hp
       revert hp
       repeat' split
       all_goals intro hp
       all_goals first | exact h p hp | simp [Server.selfQuit] at hp)
    | split at he

theorem ucne_NICK {s : Server} {l : Line} {s' : Server}
    (h : ucNE s) (he : handle_NICK s l = .ok s') : ucNE s' := by
  unfold handle_NICK at he
  try simp only [] at he
  repeat' first
    | exact Except.noConfusion he
    | (injection he with h2; subst h2
       intro p hp
       revert hp
       repeat' split
       all_goals intro hp
       all_goals first | exact h p hp | simp [Server.selfQuit] at hp)
    | split at he

theorem ucne_329 {s : Server} {l : Line} {s' : Server}
    (h : ucNE s) (he : handle_329 s l = .ok s') : ucNE s' := by
  unfold handle_329 at he
  try simp only [] at he
  repeat' first
    | exact Except.noConfusion he
    | (injection he with h2; subst h2
       intro p hp
       revert hp
       repeat' split
       all_goals intro hp
       all_goals first | exact h p hp | simp [Server.selfQuit] at hp)
    | split at he

theorem ucne_TOPIC {s : Server} {l : Line} {s' : Server}
    (h : ucNE s) (he : handle_TOPIC s l = .ok s') : ucNE s' := by
  unfold handle_TOPIC at he
  try simp only [] at he
  repeat' first
    | exact Except.noConfusion he
    | (injection he with h2; subst h2
       intro p hp
       revert hp
       repeat' split
       all_goals intro hp
       all_goals first | exact h p hp | simp [Server.selfQuit] at hp)
    | split at he

theorem ucne_332 {s : Server} {l : Line} {s' : Server}
    (h : ucNE s) (he : handle_332 s l = .ok s') : ucNE s' := by
  unfold handle_332 at he
  try simp only [] at he
  repeat' first
    | exact Except.noConfusion he
    | (injection he with h2; subst h2
       intro p hp
       revert hp
       repeat' split
       all_goals intro hp
       all_goals first | exact h p hp | simp [Server.selfQuit] at hp)
    | split at he

theorem ucne_333 {s : Server} {l : Line} {s' : Server}
    (h : ucNE s) (he : handle_333 s l = .ok s') : ucNE s' := by
  unfold handle_333 at he
  try simp only [] at he
  repeat' first
    | exact Except.noConfusion he
    | (injection he with h2; subst h2
       intro p hp
       revert hp
       repeat' split
       all_goals intro hp
       all_goals first | exact h p hp | simp [Server.selfQuit] at hp)
    | split at he

theorem ucne_211 {s : Server} {l : Line} {s' : Server}
    (h : ucNE s) (he : handle_211 s l = .ok s') : ucNE s' := by
  unfold handle_211 at he
  try simp only [] at he
  repeat' first
    | exact Except.noConfusion he
    | (injection he with h2; subst h2
       intro p hp
       revert hp
       repeat' split
       all_goals intro hp
       all_goals first | exact h p hp | simp [Server.selfQuit] at hp)
    | split at he

theorem ucne_PRIVMSG {s : Server} {l : Line} {s' : Server}
    (h : ucNE s) (he : handle_PRIVMSG s l = .ok s') : ucNE s' := by
  unfold handle_PRIVMSG at he
  try simp only [] at he
  repeat' first
    | exact Except.noConfusion he
    | (injection he with h2; subst h2
       intro p hp
       revert hp
       repeat' split
       all_goals intro hp
       all_goals first | exact h p hp | simp [Server.selfQuit] at hp)
    | split at he

theorem ucne_396 {s : Server} {l : Line} {s' : Server}
    (h : ucNE s) (he : handle_396 s l = .ok s') : ucNE s' := by
  unfold handle_396 at he
  try simp only [] at he
  repeat' first
    | exact Except.noConfusion he
    | (injection he with h2; subst h2
       intro p hp
       revert hp
       repeat' split
       all_goals intro hp
       all_goals first | exact h p hp | simp [Server.selfQuit] at hp)
    | split at he

theorem ucne_352 {s : Server} {l : Line} {s' : Server}
    (h : ucNE s) (he : handle_352 s l = .ok s') : ucNE s' := by
  unfold handle_352 at he
  try simp only [] at he
  repeat' first
    | exact Except.noConfusion he
    | (injection he with h2; subst h2
       intro p hp
       revert hp
       repeat' split
       all_goals intro hp
       all_goals first | exact h p hp | simp [Server.selfQuit] at hp)
    | split at he

theorem ucne_311 {s : Server} {l : Line} {s' : Server}
    (h : ucNE s) (he : handle_311 s l = .ok s') : ucNE s' := by
  unfold handle_311 at he
  try simp only [] at he
  repeat' first
    | exact Except.noConfusion he
    | (injection he with h2; subst h2
       intro p hp
       revert hp
       repeat' split
       all_goals intro hp
       all_goals first | exact h p hp | simp [Server.selfQuit] at hp)
    | split at he

theorem ucne_CHGHOST {s : Server} {l : Line} {s' : Server}
    (h : ucNE s) (he : handle_CHGHOST s l = .ok s') : ucNE s' := by
  unfold handle_CHGHOST at he
  try simp only [] at he
  repeat' first
    | exact Except.noConfusion he
    | (injection he with h2; subst h2
       intro p hp
       revert hp
       repeat' split
       all_goals intro hp
       all_goals first | exact h p hp | simp [Server.selfQuit] at hp)
    | split at he

theorem ucne_SETNAME {s : Server} {l : Line} {s' : Server}
    (h : ucNE s) (he : handle_SETNAME s l = .ok s') : ucNE s' := by
  unfold handle_SETNAME at he
  try simp only [] at he
  repeat' first
    | exact Except.noConfusion he
    | (injection he with h2; subst h2
       intro p hp
       revert hp
       repeat' split
       all_goals intro hp
       all_goals first | exact h p hp | simp [Server.selfQuit] at hp)
    | split at he

theorem ucne_AWAY {s : Server} {l : Line} {s' : Server}
    (h : ucNE s) (he : handle_AWAY s l = .ok s') : ucNE s' := by
  unfold handle_AWAY at he
  try simp only [] at he
  repeat' first
    | exact Except.noConfusion he
    | (injection he with h2; subst h2
       intro p hp
       revert hp
       repeat' split
       all_goals intro hp
       all_goals first | exact h p hp | simp [Server.selfQuit] at hp)
    | split at he

theorem ucne_ACCOUNT {s : Server} {l : Line} {s' : Server}
    (h : ucNE s) (he : handle_ACCOUNT s l = .ok s') : ucNE s' := by
  unfold handle_ACCOUNT at he
  try simp only [] at he
  repeat' first
    | exact Except.noConfusion he
    | (injection he with h2; subst h2
       intro p hp
       revert hp
       repeat' split
       all_goals intro hp
       all_goals first | exact h p hp | simp [Server.selfQuit] at hp)
    | split at he

theorem ucne_CAP {s : Server} {l : Line} {s' : Server}
    (h : ucNE s) (he : handle_CAP s l = .ok s') : ucNE s' := by
  unfold handle_CAP at he
  try simp only [] at he
  repeat' first
    | exact Except.noConfusion he
    | (injection he with h2; subst h2
       intro p hp
       revert hp
       repeat' split
       all_goals intro hp
       all_goals first | exact h p hp | simp [Server.selfQuit] at hp)
    | split at he

theorem ucne_ERROR {s : Server} {l : Line} {s' : Server}
    (h : ucNE s) (he : handle_ERROR s l = .ok s') : ucNE s' := by
  unfold handle_ERROR at he
  try simp only [] at he
  repeat' first
    | exact Except.noConfusion he
    | (injection he with h2; subst h2
       intro p hp
       revert hp
       repeat' split
       all_goals intro hp
       all_goals first | exact h p hp | simp [Server.selfQuit] at hp)
    | split at he

theorem ucne_375chain {s : Server} {l : Line} {s' : Server}
    (h : ucNE s) (he : (match handle_375 s l with
           | .ok s1 => handle_372 s1 l
           | .error e => .error e) = .ok s') : ucNE s' := by
  split at he
  · rename_i s1 heq
    refine ucne_372 ?_ he
    unfold handle_375 at heq
    injection heq with h2; subst h2; exact h
  · exact Except.noConfusion he

theorem ucne_channelModes (cid : Nat) :
    ∀ (modes : List (Bool × Char)) (ps : List String) (s : Server)
      (r : Server × List String),
    ucNE s → channelModes s cid modes ps = .ok r → ucNE r.1 := by
  intro modes
  induction modes with
  | nil =>
    intro ps s r h he
    unfold channelModes at he
    injection he with h2; subst h2; exact h
  | cons m rest ih =>
    intro ps s r h he
    obtain ⟨add, ch⟩ := m
    unfold channelModes at he
    try simp only [] at he
    repeat' first
      | exact Except.noConfusion he
      | exact ih _ _ _ h he
      | (refine ih _ _ _ ?_ he; exact h)
      | split at he

theorem ucne_MODE {s : Server} {l : Line} {s' : Server}
    (h : ucNE s) (he : handle_MODE s l = .ok s') : ucNE s' := by
  unfold handle_MODE at he
  try simp only [] at he
  repeat' first
    | exact Except.noConfusion he
    | (injection he with h2; subst h2; exact h)
    | (injection he with h2; subst h2; exact ucne_channelModes _ _ _ _ _ h (by assumption))
    | split at he

theorem ucne_324 {s : Server} {l : Line} {s' : Server}
    (h : ucNE s) (he : handle_324 s l = .ok s') : ucNE s' := by
  unfold handle_324 at he
  try simp only [] at he
  repeat' first
    | exact Except.noConfusion he
    | (injection he with h2; subst h2; exact h)
    | (injection he with h2; subst h2; exact ucne_channelModes _ _ _ _ _ h (by assumption))
    | split at he

theorem ucNE_of_uc_eq {a b : Server} (hab : a.user_channels = b.user_channels)
    (h : ucNE b) : ucNE a := by
  intro p hp
  rw [hab] at hp
  exact h p hp

theorem dkeysNodup_of_uc_eq {a b : Server} (hab : a.user_channels = b.user_channels)
    (h : dkeysNodup b.user_channels) : dkeysNodup a.user_channels := by
  rw [hab]; exact h

theorem ucne_user_join {s s' : Server} {cid uid : Nat}
    (nd : dkeysNodup s.user_channels)
    (h : ucNE s) (he : s.user_join cid uid = .ok s') : ucNE s' := by
  rw [user_join_eq] at he
  split at he
  · injection he with h2
    subst h2
    intro p hp
    rcases mem_ucJoin nd hp with h1 | h1
    · rw [h1]
      exact sadd_ne_nil _ _
    · exact h p h1.1
  · exact Except.noConfusion he

set_option maxHeartbeats 1600000 in
theorem ucne_JOIN {s : Server} {l : Line} {s' : Server}
    (nd : dkeysNodup s.user_channels)
    (h : ucNE s) (he : handle_JOIN s l = .ok s') : ucNE s' := by
  unfold handle_JOIN at he
  try simp only [] at he
  split at he
  · exact Except.noConfusion he
  · rename_i p0 _
    split at he
    · injection he with h2; subst h2
      refine ucNE_of_uc_eq ?_ h
      unfold joinSelfLearn
      repeat' first | split | rfl
    · rename_i cid hcid
      split at he
      · injection he with h2; subst h2
        refine ucNE_of_uc_eq ?_ h
        unfold Server.ensureUser joinSelfLearn
        repeat' first | split | rfl
      · rename_i uid huid
        refine ucne_user_join ?_ ?_ he
        · refine dkeysNodup_of_uc_eq ?_ nd
          unfold Server.ensureUser joinSelfLearn
          repeat' first | split | rfl
        · refine ucNE_of_uc_eq ?_ h
          unfold Server.ensureUser joinSelfLearn
          repeat' first | split | rfl

theorem ucne_namesEntry {s : Server} {cid : Nat} {entry : String} {s' : Server}
    (nd : dkeysNodup s.user_channels)
    (h : ucNE s) (he : namesEntry s cid entry = .ok s') : ucNE s' := by
  unfold namesEntry at he
  try simp only [] at he
  split at he
  · exact Except.noConfusion he
  · rename_i uid huid
    split at he
    · exact Except.noConfusion he
    · rename_i s2 heq2
      injection he with h2
      subst h2
      have hs2 : ucNE s2 := by
        refine ucne_user_join ?_ ?_ heq2
        · refine dkeysNodup_of_uc_eq ?_ nd
          unfold Server.ensureUser
          repeat' first | split | rfl
        · refine ucNE_of_uc_eq ?_ h
          unfold Server.ensureUser
          repeat' first | split | rfl
      refine ucNE_of_uc_eq ?_ hs2
      unfold addMembModes
      repeat' first | split | rfl

theorem ucne_namesLoop (cid : Nat) :
    ∀ (entries : List String) (s s' : Server),
    WF s → ucNE s → namesLoop s cid entries = .ok s' → ucNE s' := by
  intro entries
  induction entries with
  | nil =>
    intro s s' _ h he
    unfold namesLoop at he
    injection he with h2; subst h2; exact h
  | cons e rest ih =>
    intro s s' hwf h he
    unfold namesLoop at he
    split at he
    · exact Except.noConfusion he
    · rename_i s1 heq
      exact ih _ _ (wf_namesEntry hwf heq) (ucne_namesEntry hwf.1 h heq) he

theorem ucne_353 {s : Server} {l : Line} {s' : Server}
    (hwf : WF s) (h : ucNE s) (he : handle_353 s l = .ok s') : ucNE s' := by
  unfold handle_353 at he
  try simp only [] at he
  repeat' first
    | exact Except.noConfusion he
    | (injection he with h2; subst h2; exact h)
    | exact ucne_namesLoop _ _ _ _ hwf h he
    | split at he

theorem ucne_partLoop (cid : Nat) :
    ∀ (roster : List (Nat × ChannelUser)) (cur t : Server),
    dkeysNodup cur.user_channels →
    ucNE cur →
    partLoop cur cid roster = .ok t → ucNE t := by
  intro roster
  induction roster with
  | nil =>
    intro cur t _ h he
    unfold partLoop at he
    injection he with h0; subst h0; exact h
  | cons hd rest ih =>
    intro cur t nd h he
    obtain ⟨uid, cu0⟩ := hd
    unfold partLoop at he
    try simp only [] at he
    split at he
    · exact Except.noConfusion he
    · rename_i cs hlu
      split at he
      · exact Except.noConfusion he
      · rename_i cs' hsr
        split at he
        · rename_i hnil
          split at he
          · refine ih _ _ ?_ ?_ he
            · exact dkeysNodup_derase _ (dkeysNodup_dinsert _ _ nd)
            · intro p hp
              try dsimp only at hp
              have hp2 := mem_derase_nodup (dkeysNodup_dinsert _ _ nd) hp
              rcases mem_dinsert nd hp2.1 with hq | hq
              · exact absurd (by rw [hq]) hp2.2
              · exact h p hq.1
          · exact Except.noConfusion he
        · rename_i hnil
          refine ih _ _ ?_ ?_ he
          · exact dkeysNodup_dinsert _ _ nd
          · intro p hp
            try dsimp only at hp
            rcases mem_dinsert nd hp with hq | hq
            · rw [hq]
              exact hnil
            · exact h p hq.1

theorem ucne_part_routine {s : Server} {nickname channel_name : String}
    {s' : Server} (nd : dkeysNodup s.user_channels)
    (h : ucNE s) (he : part_routine s nickname channel_name = .ok s') : ucNE s' := by
  unfold part_routine at he
  try simp only [] at he
  split at he
  · injection he with h0; subst h0; exact h
  · rename_i cid hlc
    split at he
    · split at he
      · exact Except.noConfusion he
      · rename_i roster hlr
        refine ucne_partLoop cid roster _ _ ?_ ?_ he
        · exact nd
        · exact h
    · split at he
      · injection he with h0; subst h0; exact h
      · rename_i uid hlu
        split at he
        · exact Except.noConfusion he
        · rename_i cs hluc
          split at he
          · exact Except.noConfusion he
          · rename_i cs' hsr
            split at he
            · exact Except.noConfusion he
            · rename_i roster hlr
              split at he
              · injection he with h0
                subst h0
                intro p hp
                revert hp
                split
                · rename_i hnil
                  intro hp
                  try dsimp only at hp
                  have hp2 := mem_derase_nodup (dkeysNodup_dinsert _ _ nd) hp
                  rcases mem_dinsert nd hp2.1 with hq | hq
                  · exact absurd (by rw [hq]) hp2.2
                  · exact h p hq.1
                · rename_i hnil
                  intro hp
                  try dsimp only at hp
                  rcases mem_dinsert nd hp with hq | hq
                  · rw [hq]
                    exact hnil
                  · exact h p hq.1
              · exact Except.noConfusion he

theorem ucne_PART {s : Server} {l : Line} {s' : Server}
    (nd : dkeysNodup s.user_channels)
    (h : ucNE s) (he : handle_PART s l = .ok s') : ucNE s' := by
  unfold handle_PART at he
  split at he
  · exact Except.noConfusion he
  · exact ucne_part_routine nd h he

theorem ucne_KICK {s : Server} {l : Line} {s' : Server}
    (nd : dkeysNodup s.user_channels)
    (h : ucNE s) (he : handle_KICK s l = .ok s') : ucNE s' := by
  unfold handle_KICK at he
  split at he
  · exact Except.noConfusion he
  · split at he
    · exact Except.noConfusion he
    · exact ucne_part_routine nd h he

theorem ucne_quitLoop (uid : Nat) :
    ∀ (cs : List Nat) (cur t : Server),
    ucNE cur → quitLoop cur uid cs = .ok t → ucNE t := by
  intro cs
  induction cs with
  | nil =>
    intro cur t h he
    unfold quitLoop at he
    injection he with h0; subst h0
    intro p hp
    try dsimp only at hp
    exact h p (mem_derase hp)
  | cons c rest ih =>
    intro cur t h he
    unfold quitLoop at he
    try simp only [] at he
    split at he
    · exact Except.noConfusion he
    · rename_i roster hlr
      split at he
      · refine ih _ _ ?_ he
        exact h
      · exact Except.noConfusion he

theorem ucne_QUIT {s : Server} {l : Line} {s' : Server}
    (h : ucNE s) (he : handle_QUIT s l = .ok s') : ucNE s' := by
  unfold handle_QUIT at he
  try simp only [] at he
  split at he
  · injection he with h0; subst h0
    intro p hp
    simp [Server.selfQuit] at hp
  · split at he
    · injection he with h0; subst h0; exact h
    · rename_i uid hlu
      split at he
      · exact Except.noConfusion he
      · rename_i cs hluc
        refine ucne_quitLoop uid cs _ _ ?_ he
        exact h

theorem ucne_step {s : Server} {l : Line} {s' : Server} (hg : good3 s)
    (h : ucNE s) (h5 : l.command ≠ "005") (hN : l.command ≠ "NICK")
    (he : step s l = .ok s') : ucNE s' := by
  unfold step at he
  by_cases hu1 : l.command = "001"
  · rw [if_pos hu1] at he; exact ucne_001 h he
  rw [if_neg hu1] at he
  by_cases hu2 : l.command = "005"
  · rw [if_pos hu2] at he; exact absurd hu2 h5
  rw [if_neg hu2] at he
  by_cases hu3 : l.command = "375"
  · rw [if_pos hu3] at he; exact ucne_375chain h he
  rw [if_neg hu3] at he
  by_cases hu4 : l.command = "372"
  · rw [if_pos hu4] at he; exact ucne_372 h he
  rw [if_neg hu4] at he
  by_cases hu5 : l.command = "NICK"
  · rw [if_pos hu5] at he; exact absurd hu5 hN
  rw [if_neg hu5] at he
  by_cases hu6 : l.command = "JOIN"
  · rw [if_pos hu6] at he; exact ucne_JOIN hg.1.1 h he
  rw [if_neg hu6] at he
  by_cases hu7 : l.command = "PART"
  · rw [if_pos hu7] at he; exact ucne_PART hg.1.1 h he
  rw [if_neg hu7] at he
  by_cases hu8 : l.command = "KICK"
  · rw [if_pos hu8] at he; exact ucne_KICK hg.1.1 h he
  rw [if_neg hu8] at he
  by_cases hu9 : l.command = "QUIT"
  · rw [if_pos hu9] at he; exact ucne_QUIT h he
  rw [if_neg hu9] at he
  by_cases hu10 : l.command = "ERROR"
  · rw [if_pos hu10] at he; exact ucne_ERROR h he
  rw [if_neg hu10] at he
  by_cases hu11 : l.command = "353"
  · rw [if_pos hu11] at he; exact ucne_353 hg.1 h he
  rw [if_neg hu11] at he
  by_cases hu12 : l.command = "329"
  · rw [if_pos hu12] at he; exact ucne_329 h he
  rw [if_neg hu12] at he
  by_cases hu13 : l.command = "TOPIC"
  · rw [if_pos hu13] at he; exact ucne_TOPIC h he
  rw [if_neg hu13] at he
  by_cases hu14 : l.command = "332"
  · rw [if_pos hu14] at he; exact ucne_332 h he
  rw [if_neg hu14] at he
  by_cases hu15 : l.command = "333"
  · rw [if_pos hu15] at he; exact ucne_333 h he
  rw [if_neg hu15] at he
  by_cases hu16 : l.command = "MODE"
  · rw [if_pos hu16] at he; exact ucne_MODE h he
  rw [if_neg hu16] at he
  by_cases hu17 : l.command = "324"
  · rw [if_pos hu17] at he; exact ucne_324 h he
  rw [if_neg hu17] at he
  by_cases hu18 : l.command = "211"
  · rw [if_pos hu18] at he; exact ucne_211 h he
  rw [if_neg hu18] at he
  by_cases hu19 : l.command = "PRIVMSG"
  · rw [if_pos hu19] at he; exact ucne_PRIVMSG h he
  rw [if_neg hu19] at he
  by_cases hu20 : l.command = "NOTICE"
  · rw [if_pos hu20] at he; exact ucne_PRIVMSG h he
  rw [if_neg hu20] at he
  by_cases hu21 : l.command = "TAGMSG"
  · rw [if_pos hu21] at he; exact ucne_PRIVMSG h he
  rw [if_neg hu21] at he
  by_cases hu22 : l.command = "396"
  · rw [if_pos hu22] at he; exact ucne_396 h he
  rw [if_neg hu22] at he
  by_cases hu23 : l.command = "352"
  · rw [if_pos hu23] at he; exact ucne_352 h he
  rw [if_neg hu23] at he
  by_cases hu24 : l.command = "311"
  · rw [if_pos hu24] at he; exact ucne_311 h he
  rw [if_neg hu24] at he
  by_cases hu25 : l.command = "CHGHOST"
  · rw [if_pos hu25] at he; exact ucne_CHGHOST h he
  rw [if_neg hu25] at he
  by_cases hu26 : l.command = "SETNAME"
  · rw [if_pos hu26] at he; exact ucne_SETNAME h he
  rw [if_neg hu26] at he
  by_cases hu27 : l.command = "AWAY"
  · rw [if_pos hu27] at he; exact ucne_AWAY h he
  rw [if_neg hu27] at he
  by_cases hu28 : l.command = "ACCOUNT"
  · rw [if_pos hu28] at he; exact ucne_ACCOUNT h he
  rw [if_neg hu28] at he
  by_cases hu29 : l.command = "CAP"
  · rw [if_pos hu29] at he; exact ucne_CAP h he
  rw [if_neg hu29] at he
  injection he with h2; subst h2; exact h

theorem ucne_stepsOk : ∀ (lines : List Line) (s s' : Server),
    (∀ l ∈ lines, l.command ≠ "005" ∧ l.command ≠ "NICK") →
    good3 s → ucNE s → stepsOk s lines = some s' → ucNE s' := by
  intro lines
  induction lines with
  | nil =>
    intro s s' _ _ h he
    unfold stepsOk at he
    injection he with h2; subst h2; exact h
  | cons l rest ih =>
    intro s s' hres hg h he
    unfold stepsOk at he
    split at he
    · rename_i s1 heq
      refine ih _ _ (fun x hx => hres x (List.mem_cons_of_mem _ hx)) ?_ ?_ he
      · exact good3_step hg (hres l (List.mem_cons_self _ _)).1
          (hres l (List.mem_cons_self _ _)).2 heq
      · exact ucne_step hg h (hres l (List.mem_cons_self _ _)).1
          (hres l (List.mem_cons_self _ _)).2 heq
    · exact Option.noConfusion he

/-- A bare registration with no joins. -/
def c5Lines : List Line :=
  [{ command := "001", params := ["me", "x"], source := { nickname := "srv" } }]

/-- The session state after a bare `001`. -/
def c5S : Server := (stepsOk initServer c5Lines).getD initServer

/-- C5 counterexample: after a bare `001 me :x` registration has
occurred (the local identity is recorded), yet the local user has no
entry in `users` and no membership set — `handle_001` never calls
`add_user`, so the claimed "or it is the local user and registration has
occurred" clause of the membership condition does not hold. -/
theorem c5_counterexample :
    stepsOk initServer c5Lines = some c5S ∧
    c5S.nickname = "me" ∧ c5S.nickname_lower = "me" ∧
    dlookup "me" c5S.users = none ∧
    c5S.user_channels = [] :=
  ⟨rfl, rfl, rfl, rfl, rfl⟩

/-- C5 amended: along any trace free of `005` and `NICK` lines, a user
is in the `users` map iff it is a member of at least one channel — every
`users` value owns a nonempty `user_channels` set, and every membership
set's owner is found in `users` under the fold of its display nickname.
The local user gets no special clause: registration alone adds nothing
to `users`. -/
theorem c5_users_iff_membership_amended (lines : List Line)
    (hres : ∀ l ∈ lines, l.command ≠ "005" ∧ l.command ≠ "NICK")
    (s : Server) (h : stepsOk initServer lines = some s) :
    (∀ p ∈ s.users, ∃ cs, dlookup p.2 s.user_channels = some cs ∧ cs ≠ []) ∧
    (∀ p ∈ s.user_channels,
      dlookup (s.casefold (s.userD p.1).nickname) s.users = some p.1) := by
  have hg : good3 s := good3_stepsOk lines initServer s hres good3_init h
  have hne : ucNE s := ucne_stepsOk lines initServer s hres good3_init ucNE_init h
  obtain ⟨hwf, a1, a2, a3, a4, a5, a6, a7, a8, a9⟩ := hg
  constructor
  · intro p hp
    have hdm := a6 p hp
    unfold dmem at hdm
    cases hcs : dlookup p.2 s.user_channels with
    | none => rw [hcs] at hdm; exact Bool.noConfusion hdm
    | some cs => exact ⟨cs, rfl, hne (p.2, cs) (dlookup_mem hcs)⟩
  · exact a9

/-- Register and self-join for the C5 witness. -/
def c5WLines : List Line :=
  [{ command := "001", params := ["me", "x"], source := { nickname := "srv" } },
   { command := "JOIN", params := ["#w"], source := { nickname := "me" } }]

/-- The C5 witness state. -/
def c5WS : Server := (stepsOk initServer c5WLines).getD initServer

theorem c5_users_iff_membership_amended_witness :
    (∀ p ∈ c5WS.users, ∃ cs, dlookup p.2 c5WS.user_channels = some cs ∧ cs ≠ []) ∧
    (∀ p ∈ c5WS.user_channels,
      dlookup (c5WS.casefold (c5WS.userD p.1).nickname) c5WS.users = some p.1) :=
  c5_users_iff_membership_amended c5WLines (by decide) c5WS rfl
